import Mathlib

/-!
# Bit-banged SPI FLASH access of the e1000 driver (`drivers/net/e1000_spi.c`)

A shallow embedding of the driver and theorems about it.

* The FLA control register is an environment: the value returned by the
  `k`-th `E1000_READ_REG(hw, FLA)` is given by an oracle `reads k`, the
  result of the `k`-th `ctrlc()` by an oracle `ctrl k` (both in `Env`).
  `World` counts the answers consumed so far, and every
  `E1000_WRITE_REG(hw, FLA, v)` is appended to its log `writes`.
* `E1000_WRITE_FLUSH` (a read of another register) and `udelay` do not
  change the modelled state and are left out.
* Memory is a map from addresses to bytes.  Distinct C objects (a caller's
  buffer, an `op[]` array on the stack, a `malloc`ed scratch buffer) live in
  distinct memories; a pointer is an address in the memory it is passed with
  and `NULL` is `none`.
* `uint8_t`, `u16`, `uint32_t` values are naturals, reduced explicitly where
  the C code truncates.
* `calls` is a ghost log: every modelled function records its entry, so that
  statements about the commands a routine issues can be written down.
* Loops without a bound in the source (`e1000_spi_flash_poll_ready`, the page
  loop of `e1000_spi_flash_dump`) take a fuel argument and return `none`
  when it is exhausted.
-/

namespace E1000Spi

/-! ## Constants and descriptors declared in `e1000.h` -/

/-- Constants of `e1000.h` used by the driver; the header is not part of the
sources at hand, so their values are parameters. -/
structure Consts where
  E1000_FL_NVM_SK : Nat
  E1000_FL_SI : Nat
  E1000_FL_SO : Nat
  E1000_FL_CEN : Nat
  E1000_FL_REQ : Nat
  E1000_FL_GNT : Nat
  E1000_EEPROM_GRANT_ATTEMPTS : Nat
  E1000_SUCCESS : Int
  E1000_ERR_EEPROM : Int
  EEPROM_CHECKSUM_REG : Nat
  EEPROM_SUM : Nat

/-- The fields of `struct e1000_hw` the driver reads: whether
`hw->eeprom.type == e1000_eeprom_flash`, and `hw->eeprom.page_size`. -/
structure e1000_hw where
  type_is_flash : Bool
  page_size : Nat
  word_size : Nat

/-- A mask is one of the 32 bits of the register. -/
def IsBit (m : Nat) : Prop := ∃ k, k < 32 ∧ m = 2 ^ k

/-! ## Ghost call log -/

/-- One record per entry into a function of the driver. -/
inductive Call where
  | acquire
  | release
  | standby
  | xfer (bitlen : Nat) (dout : Option (List Nat)) (din : Bool) (intr : Bool)
  | enable_wr
  | write_status (status : Nat)
  | read_status
  | write_page (off len : Nat) (data : List Nat)
  | read_page (off len : Nat)
  | poll_ready
  | clear_bp
  deriving DecidableEq, Repr

/-! ## Environment -/

/-- Memory: address to byte. -/
abbrev Mem := Nat → Nat

/-- The oracles of the environment: the value of the `k`-th register read
and the answer of the `k`-th `ctrlc()`. -/
structure Env where
  reads : Nat → Nat
  ctrl : Nat → Bool

/-- The state of the environment: how many oracle answers were consumed,
and the logs. -/
structure World where
  nread : Nat
  nctrl : Nat
  writes : List Nat
  calls : List Call
  deriving DecidableEq, Repr

/-- `E1000_READ_REG(hw, FLA)`: the next oracle value, as a `uint32_t`. -/
def READ_REG (e : Env) (w : World) : Nat × World :=
  (e.reads w.nread % 4294967296, { w with nread := w.nread + 1 })

/-- `E1000_WRITE_REG(hw, FLA, v)`. -/
def WRITE_REG (w : World) (v : Nat) : World :=
  { w with writes := w.writes ++ [v] }

/-- `ctrlc()`: the next answer of the cancellation oracle. -/
def ctrlc (e : Env) (w : World) : Bool × World :=
  (e.ctrl w.nctrl, { w with nctrl := w.nctrl + 1 })

/-- Ghost: record a function entry. -/
def World.log (w : World) (c : Call) : World :=
  { w with calls := w.calls ++ [c] }

/-- Byte load `p[a]` of a `uint8_t`. -/
def load (mem : Mem) (a : Nat) : Nat := mem a % 256

/-- Byte store `p[a] = v`, truncating to `uint8_t`. -/
def store (mem : Mem) (a v : Nat) : Mem :=
  fun x => if x = a then v % 256 else mem x

/-- The `len` bytes at `a`. -/
def bytes (mem : Mem) (a len : Nat) : List Nat :=
  (List.range len).map (fun j => load mem (a + j))

/-- `~x` at 32 bits. -/
def bnot32 (x : Nat) : Nat := 4294967295 ^^^ (x % 4294967296)

/-! ## BitClock -/

/-- `e1000_raise_fl_clk`: returns the updated `*fla`. -/
def e1000_raise_fl_clk (c : Consts) (fla : Nat) (w : World) : Nat × World :=
  let fla := fla ||| c.E1000_FL_NVM_SK
  (fla, WRITE_REG w fla)

/-- `e1000_lower_fl_clk`: returns the updated `*fla`. -/
def e1000_lower_fl_clk (c : Consts) (fla : Nat) (w : World) : Nat × World :=
  let fla := fla &&& bnot32 c.E1000_FL_NVM_SK
  (fla, WRITE_REG w fla)

/-! ## SpiTransfer -/

/-- The condition `dout && dout[i >> 3] & mask`. -/
def outbit (dout : Option Nat) (mem : Mem) (i mask : Nat) : Bool :=
  match dout with
  | none => false
  | some d => load mem (d + (i >>> 3)) &&& mask != 0

/-- The statement `if (din) { if (fla & SO) din[i >> 3] |= mask; else din[i >> 3] &= ~mask; }`. -/
def capture (c : Consts) (din : Option Nat) (mem : Mem) (i mask fla : Nat) : Mem :=
  match din with
  | none => mem
  | some a =>
    if fla &&& c.E1000_FL_SO != 0 then
      store mem (a + (i >>> 3)) (load mem (a + (i >>> 3)) ||| mask)
    else
      store mem (a + (i >>> 3)) (load mem (a + (i >>> 3)) &&& bnot32 mask)

/-- The loop increment `mask = (mask >> 1) ?: 0x80`. -/
def nextMask (mask : Nat) : Nat :=
  if mask >>> 1 != 0 then mask >>> 1 else 128

/-- State after the body of the bit loop of `e1000_spi_xfer` past the
cancellation check: `(fla, memory, world)`. -/
def xfer_body (c : Consts) (e : Env) (dout din : Option Nat) (i mask fla : Nat) (mem : Mem)
    (w : World) : Nat × Mem × World :=
  let fla1 := if outbit dout mem i mask then fla ||| c.E1000_FL_SI
              else fla &&& bnot32 c.E1000_FL_SI
  let w1 := WRITE_REG w fla1
  let r := e1000_raise_fl_clk c fla1 w1
  let rd := READ_REG e r.2
  let mem1 := capture c din mem i mask rd.1
  let l := e1000_lower_fl_clk c rd.1 rd.2
  (l.1, mem1, l.2)

/-- Where the bit loop of `e1000_spi_xfer` stops. -/
structure LoopOut where
  cancelled : Bool
  i : Nat
  mask : Nat
  mem : Mem
  w : World

/-- The bit loop of `e1000_spi_xfer`; the first argument is `bitlen - i`. -/
def xfer_loop (c : Consts) (e : Env) (dout din : Option Nat) (intr : Bool) :
    Nat → Nat → Nat → Nat → Mem → World → LoopOut
  | 0, i, mask, _, mem, w => ⟨false, i, mask, mem, w⟩
  | k + 1, i, mask, fla, mem, w =>
    let cc := if intr then ctrlc e w else (false, w)
    if cc.1 then ⟨true, i, mask, mem, cc.2⟩
    else
      let b := xfer_body c e dout din i mask fla mem cc.2
      xfer_loop c e dout din intr k (i + 1) (nextMask mask) b.1 b.2.1 b.2.2

/-- The statement `if (din && (i & 7)) din[i >> 3] &= ~((mask << 1) - 1);`. -/
def clearRest (din : Option Nat) (mem : Mem) (i mask : Nat) : Mem :=
  match din with
  | none => mem
  | some a =>
    if i &&& 7 != 0 then
      store mem (a + (i >>> 3)) (load mem (a + (i >>> 3)) &&& bnot32 ((mask <<< 1) - 1))
    else mem

/-- `e1000_spi_xfer`: returns `(result, memory, world)`. -/
def e1000_spi_xfer (c : Consts) (e : Env) (bitlen : Nat) (dout din : Option Nat) (intr : Bool)
    (mem : Mem) (w : World) : Int × Mem × World :=
  let w := w.log (.xfer bitlen (dout.map (fun d => bytes mem d ((bitlen + 7) / 8)))
    din.isSome intr)
  let rd := READ_REG e w
  let r := xfer_loop c e dout din intr bitlen 0 128 rd.1 mem rd.2
  if r.cancelled then (-1, r.mem, r.w)
  else (0, clearRest din r.mem r.i r.mask, r.w)

/-! ## BusArbiter -/

/-- `e1000_standby_flash`. -/
def e1000_standby_flash (c : Consts) (e : Env) (hw : e1000_hw) (w : World) : World :=
  let w := w.log .standby
  let rd := READ_REG e w
  if hw.type_is_flash then
    let fla1 := rd.1 ||| c.E1000_FL_CEN
    let w1 := WRITE_REG rd.2 fla1
    let fla2 := fla1 &&& bnot32 c.E1000_FL_CEN
    WRITE_REG w1 fla2
  else rd.2

/-- The grant polling loop of `e1000_acquire_flash`; the first argument is
`E1000_EEPROM_GRANT_ATTEMPTS - i`.  Returns the last `fla`. -/
def acquire_poll (c : Consts) (e : Env) : Nat → Nat → World → Nat × World
  | 0, fla, w => (fla, w)
  | k + 1, fla, w =>
    if fla &&& c.E1000_FL_GNT != 0 then (fla, w)
    else
      let rd := READ_REG e w
      acquire_poll c e k rd.1 rd.2

/-- `e1000_acquire_flash`. -/
def e1000_acquire_flash (c : Consts) (e : Env) (hw : e1000_hw) (w : World) : Int × World :=
  let w := w.log .acquire
  let rd := READ_REG e w
  if hw.type_is_flash then
    let fla1 := rd.1 ||| c.E1000_FL_REQ
    let w1 := WRITE_REG rd.2 fla1
    let p := acquire_poll c e c.E1000_EEPROM_GRANT_ATTEMPTS fla1 w1
    if p.1 &&& c.E1000_FL_GNT == 0 then
      let fla2 := p.1 &&& bnot32 c.E1000_FL_REQ
      (-c.E1000_ERR_EEPROM, WRITE_REG p.2 fla2)
    else
      let fla2 := p.1 &&& bnot32 (c.E1000_FL_SI ||| c.E1000_FL_CEN ||| c.E1000_FL_NVM_SK)
      (c.E1000_SUCCESS, WRITE_REG p.2 fla2)
  else (c.E1000_SUCCESS, rd.2)

/-- `e1000_release_flash`. -/
def e1000_release_flash (c : Consts) (e : Env) (hw : e1000_hw) (w : World) : World :=
  let w := w.log .release
  let rd := READ_REG e w
  if hw.type_is_flash then
    let fla1 := (rd.1 ||| c.E1000_FL_CEN) &&& bnot32 c.E1000_FL_NVM_SK
    let w1 := WRITE_REG rd.2 fla1
    let fla2 := fla1 &&& bnot32 c.E1000_FL_REQ
    WRITE_REG w1 fla2
  else rd.2

/-! ## FlashCommands -/

def SPI_FLASH_ENABLE_WR : Nat := 0x06
def SPI_FLASH_DISABLE_WR : Nat := 0x04
def SPI_FLASH_WRITE_STATUS : Nat := 0x01
def SPI_FLASH_READ_STATUS : Nat := 0x05
def SPI_FLASH_WRITE_PAGE : Nat := 0x02
def SPI_FLASH_READ_PAGE : Nat := 0x03
def SPI_FLASH_CHIP_ERASE : Nat := 0x60
def SPI_FLASH_STATUS_BUSY : Nat := 0x01
def SPI_FLASH_STATUS_WREN : Nat := 0x02
def SPI_FLASH_BPL_MASK : Nat := 0x3C
def SPI_FLASH_BPL_RO : Nat := 0x80

/-- The memory of a local array `u8 op[] = { ... }`, at address 0. -/
def opMem (op : List Nat) : Mem := fun a => op.getD a 0

/-- `e1000_spi_flash_enable_wr`. -/
def e1000_spi_flash_enable_wr (c : Consts) (e : Env) (hw : e1000_hw) (intr : Bool) (w : World) :
    Int × World :=
  let w := w.log .enable_wr
  let op := opMem [SPI_FLASH_ENABLE_WR]
  let w := e1000_standby_flash c e hw w
  let r := e1000_spi_xfer c e (8 * 1) (some 0) none intr op w
  (r.1, r.2.2)

/-- `e1000_spi_flash_write_status`; the result of `e1000_spi_flash_enable_wr`
is not looked at. -/
def e1000_spi_flash_write_status (c : Consts) (e : Env) (hw : e1000_hw) (status : Nat) (intr : Bool)
    (w : World) : Int × World :=
  let w := w.log (.write_status status)
  let op := opMem [SPI_FLASH_WRITE_STATUS, status]
  let en := e1000_spi_flash_enable_wr c e hw intr w
  let w := e1000_standby_flash c e hw en.2
  let r := e1000_spi_xfer c e (8 * 2) (some 0) none intr op w
  (r.1, r.2.2)

/-- `e1000_spi_flash_read_status`: the transfer reads from and captures into
the same array `op`. -/
def e1000_spi_flash_read_status (c : Consts) (e : Env) (hw : e1000_hw) (intr : Bool) (w : World) :
    Int × World :=
  let w := w.log .read_status
  let op := opMem [SPI_FLASH_READ_STATUS, 0]
  let w := e1000_standby_flash c e hw w
  let r := e1000_spi_xfer c e (8 * 2) (some 0) (some 0) intr op w
  if r.1 ≠ 0 then (-1, r.2.2)
  else ((load r.2.1 1 : Nat), r.2.2)

/-- `e1000_spi_flash_write_page`; `off` and `len` are `u16`, `data` points
into `mem`. -/
def e1000_spi_flash_write_page (c : Consts) (e : Env) (hw : e1000_hw) (data off len : Nat)
    (intr : Bool) (mem : Mem) (w : World) : Int × World :=
  let w := w.log (.write_page off len (bytes mem data len))
  let op := opMem [SPI_FLASH_WRITE_PAGE, (off >>> 16) &&& 0xff, (off >>> 8) &&& 0xff,
    off &&& 0xff]
  let w := e1000_standby_flash c e hw w
  let r1 := e1000_spi_xfer c e (8 + 24) (some 0) none intr op w
  if r1.1 ≠ 0 then (-1, r1.2.2)
  else
    let r2 := e1000_spi_xfer c e (len <<< 3) (some data) none intr mem r1.2.2
    if r2.1 ≠ 0 then (-1, r2.2.2)
    else (0, r2.2.2)

/-- `e1000_spi_flash_read_page`; `off` and `len` are `u16`, `data` points
into `mem`. -/
def e1000_spi_flash_read_page (c : Consts) (e : Env) (hw : e1000_hw) (data off len : Nat)
    (intr : Bool) (mem : Mem) (w : World) : Int × Mem × World :=
  let w := w.log (.read_page off len)
  let op := opMem [SPI_FLASH_READ_PAGE, (off >>> 16) &&& 0xff, (off >>> 8) &&& 0xff,
    off &&& 0xff]
  let w := e1000_standby_flash c e hw w
  let r1 := e1000_spi_xfer c e (8 + 24) (some 0) none intr op w
  if r1.1 ≠ 0 then (-1, mem, r1.2.2)
  else
    let r2 := e1000_spi_xfer c e (len <<< 3) none (some data) intr mem r1.2.2
    if r2.1 ≠ 0 then (-1, r2.2.1, r2.2.2)
    else (0, r2.2.1, r2.2.2)

/-- The loop of `e1000_spi_flash_poll_ready`, with fuel. -/
def poll_loop (c : Consts) (e : Env) (hw : e1000_hw) (intr : Bool) : Nat → World → Option (Int × World)
  | 0, _ => none
  | f + 1, w =>
    let s := e1000_spi_flash_read_status c e hw intr w
    if s.1 ≥ 0 then
      if s.1.toNat &&& SPI_FLASH_STATUS_BUSY == 0 then some (0, s.2)
      else poll_loop c e hw intr f s.2
    else some (-1, s.2)

/-- `e1000_spi_flash_poll_ready`. -/
def e1000_spi_flash_poll_ready (c : Consts) (e : Env) (hw : e1000_hw) (intr : Bool) (fuel : Nat)
    (w : World) : Option (Int × World) :=
  poll_loop c e hw intr fuel (w.log .poll_ready)

/-- `e1000_spi_flash_clear_bp`. -/
def e1000_spi_flash_clear_bp (c : Consts) (e : Env) (hw : e1000_hw) (intr : Bool) (w : World) :
    Int × World :=
  e1000_spi_flash_write_status c e hw
    (bnot32 (SPI_FLASH_BPL_MASK ||| SPI_FLASH_BPL_RO) % 256) intr (w.log .clear_bp)

/-! ## FlashOps -/

/-- `u16 pg_off = off & (hw->eeprom.page_size - 1)`. -/
def dump_pg_off (hw : e1000_hw) (off : Nat) : Nat :=
  (off &&& ((hw.page_size + 65535) % 65536)) % 65536

/-- `u16 pg_len = hw->eeprom.page_size - pg_off; if (pg_len > len) pg_len = len;`. -/
def dump_pg_len (hw : e1000_hw) (off len : Nat) : Nat :=
  let pg_len := (hw.page_size + 65536 - dump_pg_off hw off) % 65536
  if pg_len > len then len else pg_len

/-- The page loop of `e1000_spi_flash_dump`, with fuel. -/
def dump_loop (c : Consts) (e : Env) (hw : e1000_hw) (intr : Bool) :
    Nat → Nat → Nat → Nat → Mem → World → Option (Int × Mem × World)
  | 0, _, _, len, mem, w => if len = 0 then some (0, mem, w) else none
  | f + 1, data, off, len, mem, w =>
    if len = 0 then some (0, mem, w)
    else
      let pg_len := dump_pg_len hw off len
      let r := e1000_spi_flash_read_page c e hw data off pg_len intr mem w
      if r.1 ≠ 0 then some (-1, r.2.1, r.2.2)
      else dump_loop c e hw intr f (data + pg_len) ((off + pg_len) % 65536) (len - pg_len)
        r.2.1 r.2.2

/-- `e1000_spi_flash_dump`; `off` is `u16`, `len` is `unsigned int`. -/
def e1000_spi_flash_dump (c : Consts) (e : Env) (hw : e1000_hw) (data off len : Nat) (intr : Bool)
    (fuel : Nat) (mem : Mem) (w : World) : Option (Int × Mem × World) :=
  match e1000_spi_flash_poll_ready c e hw intr fuel w with
  | none => none
  | some p =>
    if p.1 ≠ 0 then some (-1, mem, p.2)
    else dump_loop c e hw intr fuel data off len mem p.2

/-- The page loop of `e1000_spi_flash_program` and the final wait; the loop
counts `len` down by `pg_len = 1`. -/
def program_loop (c : Consts) (e : Env) (hw : e1000_hw) (intr : Bool) (fuel : Nat) (mem : Mem) :
    Nat → Nat → Nat → World → Option (Int × World)
  | 0, _, _, w =>
    match e1000_spi_flash_poll_ready c e hw intr fuel w with
    | none => none
    | some p => if p.1 ≠ 0 then some (-1, p.2) else some (0, p.2)
  | len + 1, data, off, w =>
    match e1000_spi_flash_poll_ready c e hw intr fuel w with
    | none => none
    | some p =>
      if p.1 ≠ 0 then some (-1, p.2)
      else
        let en := e1000_spi_flash_enable_wr c e hw intr p.2
        if en.1 ≠ 0 then some (-1, en.2)
        else
          let r := e1000_spi_flash_write_page c e hw data off 1 intr mem en.2
          if r.1 ≠ 0 then some (-1, r.2)
          else program_loop c e hw intr fuel mem len (data + 1) ((off + 1) % 65536) r.2

/-- `e1000_spi_flash_program`; `off` and `len` are `u16`. -/
def e1000_spi_flash_program (c : Consts) (e : Env) (hw : e1000_hw) (data off len : Nat) (intr : Bool)
    (fuel : Nat) (mem : Mem) (w : World) : Option (Int × World) :=
  let b := e1000_spi_flash_clear_bp c e hw true w
  if b.1 < 0 then some (1, e1000_release_flash c e hw b.2)
  else program_loop c e hw intr fuel mem len data off b.2

/-! ## Commands

The commands are modelled from their parsed arguments: `argc` is the number
of arguments after the sub-command name, `arg0`, `arg1`, `arg2` are the
values `simple_strtoul` returns for them.  Output to the console is left
out.  `malloc` returns `NULL` (`none`) or a buffer with arbitrary content. -/

/-- `do_e1000_spi_show`. -/
def do_e1000_spi_show (c : Consts) (e : Env) (hw : e1000_hw) (argc arg0 arg1 : Nat)
    (buffer : Option Mem) (fuel : Nat) (w : World) : Option (Int × World) :=
  if argc > 2 then some (1, w)
  else
    let offset := if argc ≥ 1 then arg0 % 65536 else 0
    let length :=
      if argc = 2 then arg1 % 4294967296
      else if offset < hw.word_size <<< 1 then (hw.word_size <<< 1) - offset
      else 0
    if length = 0 then some (1, w)
    else if 0x10000 < length ∨ 0x10000 - length < offset then some (1, w)
    else
      match buffer with
      | none => some (1, w)
      | some buf =>
        let a := e1000_acquire_flash c e hw w
        if a.1 ≠ 0 then some (1, a.2)
        else
          match e1000_spi_flash_dump c e hw 0 offset length true fuel buf a.2 with
          | none => none
          | some d =>
            let w1 := e1000_release_flash c e hw d.2.2
            if d.1 ≠ 0 then some (1, w1) else some (0, w1)

/-- `do_e1000_spi_dump`; `arg0` is the destination address in `mem`. -/
def do_e1000_spi_dump (c : Consts) (e : Env) (hw : e1000_hw) (argc arg0 arg1 arg2 : Nat)
    (fuel : Nat) (mem : Mem) (w : World) : Option (Int × Mem × World) :=
  if argc ≠ 3 then some (1, mem, w)
  else
    let dest := arg0
    let offset := arg1 % 65536
    let length := arg2 % 4294967296
    if length = 0 then some (1, mem, w)
    else if 0x10000 < length ∨ 0x10000 - length < offset then some (1, mem, w)
    else
      let a := e1000_acquire_flash c e hw w
      if a.1 ≠ 0 then some (1, mem, a.2)
      else
        match e1000_spi_flash_dump c e hw dest offset length true fuel mem a.2 with
        | none => none
        | some d =>
          if d.1 < 0 then some (1, d.2.1, e1000_release_flash c e hw d.2.2)
          else some (0, d.2.1, e1000_release_flash c e hw d.2.2)

/-- `do_e1000_spi_program`; `arg0` is the source address in `mem`.  The
`unsigned int length` is converted to the `u16 len` of
`e1000_spi_flash_program`. -/
def do_e1000_spi_program (c : Consts) (e : Env) (hw : e1000_hw) (argc arg0 arg1 arg2 : Nat)
    (fuel : Nat) (mem : Mem) (w : World) : Option (Int × World) :=
  if argc ≠ 3 then some (1, w)
  else
    let source := arg0
    let offset := arg1 % 65536
    let length := arg2 % 4294967296
    let a := e1000_acquire_flash c e hw w
    if a.1 ≠ 0 then some (1, a.2)
    else
      match e1000_spi_flash_program c e hw source offset (length % 65536) true fuel mem a.2 with
      | none => none
      | some p =>
        if p.1 < 0 then some (1, e1000_release_flash c e hw p.2)
        else some (0, e1000_release_flash c e hw p.2)

/-- `le16_to_cpu(buffer[i])` for a `uint16_t *buffer` at address 0. -/
def le16 (mem : Mem) (i : Nat) : Nat :=
  load mem (2 * i) + 256 * load mem (2 * i + 1)

/-- `buffer[i] = cpu_to_le16(v)` for a `uint16_t *buffer` at address 0. -/
def store_le16 (mem : Mem) (i v : Nat) : Mem :=
  store (store mem (2 * i) (v % 256)) (2 * i + 1) (v / 256)

/-- The loop `for (i = 0; i < EEPROM_CHECKSUM_REG; i++) checksum += le16_to_cpu(buffer[i]);`
on a `uint16_t checksum` starting from 0. -/
def checksum_sum (c : Consts) (mem : Mem) : Nat :=
  (List.range c.EEPROM_CHECKSUM_REG).foldl (fun acc i => (acc + le16 mem i) % 65536) 0

/-- `do_e1000_spi_checksum`; `upd_arg` says that the one argument is
"update". -/
def do_e1000_spi_checksum (c : Consts) (e : Env) (hw : e1000_hw) (argc : Nat) (upd_arg : Bool)
    (buffer : Option Mem) (fuel : Nat) (w : World) : Option (Int × World) :=
  if ¬ (argc = 0 ∨ (argc = 1 ∧ upd_arg = true)) then some (1, w)
  else
    let upd := decide (argc ≠ 0)
    let length := (2 * (c.EEPROM_CHECKSUM_REG + 1)) % 65536
    match buffer with
    | none => some (1, w)
    | some buf =>
      let a := e1000_acquire_flash c e hw w
      if a.1 ≠ 0 then some (1, a.2)
      else
        match e1000_spi_flash_dump c e hw 0 0 length true fuel buf a.2 with
        | none => none
        | some d =>
          if d.1 < 0 then some (1, e1000_release_flash c e hw d.2.2)
          else
            let i := c.EEPROM_CHECKSUM_REG
            let checksum := (c.EEPROM_SUM % 65536 + 65536 - checksum_sum c d.2.1) % 65536
            let checksum_reg := le16 d.2.1 i
            if checksum_reg = checksum then some (0, e1000_release_flash c e hw d.2.2)
            else if ¬ upd then some (1, e1000_release_flash c e hw d.2.2)
            else
              let buf1 := store_le16 d.2.1 i checksum
              match e1000_spi_flash_program c e hw (2 * i) ((i * 2) % 65536) 2 true fuel buf1
                  d.2.2 with
              | none => none
              | some p =>
                if p.1 ≠ 0 then some (1, e1000_release_flash c e hw p.2)
                else some (0, e1000_release_flash c e hw p.2)

/-- `do_e1000_spi_erase`. -/
def do_e1000_spi_erase (c : Consts) (e : Env) (hw : e1000_hw) (intr : Bool) (w : World) :
    Int × World :=
  let op := opMem [SPI_FLASH_CHIP_ERASE]
  let a := e1000_acquire_flash c e hw w
  if a.1 ≠ 0 then (1, a.2)
  else
    let w1 := e1000_standby_flash c e hw a.2
    let b := e1000_spi_flash_clear_bp c e hw true w1
    if b.1 < 0 then (1, e1000_release_flash c e hw b.2)
    else
      let en := e1000_spi_flash_enable_wr c e hw intr b.2
      let w2 := e1000_standby_flash c e hw en.2
      let x := e1000_spi_xfer c e (8 * 1) (some 0) none intr op w2
      (0, e1000_release_flash c e hw x.2.2)

/-- `do_e1000_spi_unlock`; `dbg` says whether `E1000_DBG` evaluates its
arguments (a debug build). -/
def do_e1000_spi_unlock (c : Consts) (e : Env) (hw : e1000_hw) (dbg : Bool) (intr : Bool) (w : World) :
    Int × World :=
  let a := e1000_acquire_flash c e hw w
  if a.1 ≠ 0 then (1, a.2)
  else
    let w1 := if dbg then (e1000_spi_flash_read_status c e hw intr a.2).2 else a.2
    let w2 := e1000_standby_flash c e hw w1
    let b := e1000_spi_flash_clear_bp c e hw true w2
    if b.1 < 0 then (1, e1000_release_flash c e hw b.2)
    else
      let w3 := if dbg then (e1000_spi_flash_read_status c e hw intr b.2).2 else b.2
      (0, e1000_release_flash c e hw w3)

/-- The sub-command name `argv[0]` of `do_e1000_spi`; `other` is any string
that matches none of the six names. -/
inductive SubCmd where
  | show
  | dump
  | program
  | checksum
  | erase
  | unlock
  | other
  deriving DecidableEq, Repr

/-- `do_e1000_spi`: `argc` counts the sub-command name and its arguments;
`arg0`, `arg1`, `arg2`, `upd_arg` and `buffer` are what the sub-command
parses and allocates.  Only `dump` writes to `mem`. -/
def do_e1000_spi (c : Consts) (e : Env) (hw : e1000_hw) (dbg : Bool) (argc : Nat)
    (argv0 : SubCmd) (arg0 arg1 arg2 : Nat) (upd_arg : Bool) (buffer : Option Mem) (fuel : Nat)
    (mem : Mem) (w : World) : Option (Int × Mem × World) :=
  if argc < 1 then some (1, mem, w)
  else if hw.type_is_flash = false then some (1, mem, w)
  else
    match argv0 with
    | .show =>
      (do_e1000_spi_show c e hw (argc - 1) arg0 arg1 buffer fuel w).map
        (fun r => (r.1, mem, r.2))
    | .dump => do_e1000_spi_dump c e hw (argc - 1) arg0 arg1 arg2 fuel mem w
    | .program =>
      (do_e1000_spi_program c e hw (argc - 1) arg0 arg1 arg2 fuel mem w).map
        (fun r => (r.1, mem, r.2))
    | .checksum =>
      (do_e1000_spi_checksum c e hw (argc - 1) upd_arg buffer fuel w).map
        (fun r => (r.1, mem, r.2))
    | .erase => some ((do_e1000_spi_erase c e hw true w).1, mem, (do_e1000_spi_erase c e hw true w).2)
    | .unlock =>
      some ((do_e1000_spi_unlock c e hw dbg true w).1, mem,
        (do_e1000_spi_unlock c e hw dbg true w).2)
    | .other => some (1, mem, w)

/-! ## An instance of the header constants

The FLA register layout of the Intel data sheets (SK bit 0, CE bit 1, SI
bit 2, SO bit 3, REQ bit 4, GNT bit 5) and the usual values of the other
constants; used for concrete evaluations only. -/

/-- Example values for the constants of `e1000.h`. -/
def exampleConsts : Consts where
  E1000_FL_NVM_SK := 0x01
  E1000_FL_CEN := 0x02
  E1000_FL_SI := 0x04
  E1000_FL_SO := 0x08
  E1000_FL_REQ := 0x10
  E1000_FL_GNT := 0x20
  E1000_EEPROM_GRANT_ATTEMPTS := 1000
  E1000_SUCCESS := 0
  E1000_ERR_EEPROM := 1
  EEPROM_CHECKSUM_REG := 0x3F
  EEPROM_SUM := 0xBABA

/-- An attached FLASH with 256-byte pages. -/
def exampleHw : e1000_hw := ⟨true, 256, 64⟩

/-- The initial state: no oracle answer consumed, empty logs. -/
def World.init : World := ⟨0, 0, [], []⟩

/-! ## Auxiliary definitions used in the statements and proofs -/

/-- The mask of bit `i` of a transfer. -/
def maskOf (i : Nat) : Nat := 2 ^ (7 - i % 8)

/-- Bit `i` of the buffer at `p`, in transfer order (most significant bit of
each byte first). -/
def getBit (mem : Mem) (p i : Nat) : Bool := (load mem (p + i / 8)).testBit (7 - i % 8)

/-- The `k`-th register read as a `uint32_t`. -/
def rdAt (e : Env) (k : Nat) : Nat := e.reads k % 4294967296

/-- The cached register value with SI set or cleared. -/
def setSI (c : Consts) (fla : Nat) (b : Bool) : Nat :=
  if b then fla ||| c.E1000_FL_SI else fla &&& bnot32 c.E1000_FL_SI

/-- The memory after `k` uncancelled iterations of the bit loop starting at
bit `i` with `nread` register reads consumed. -/
def captureAll (c : Consts) (e : Env) (din : Option Nat) : Nat → Nat → Nat → Mem → Mem
  | 0, _, _, mem => mem
  | k + 1, i, nread, mem =>
    captureAll c e din k (i + 1) (nread + 1) (capture c din mem i (maskOf i) (rdAt e nread))

/-- The register writes of `k` uncancelled iterations of the bit loop
starting at bit `i` with cached value `fla`, when the output bits are
`bit`. -/
def xferWrites (c : Consts) (e : Env) (bit : Nat → Bool) : Nat → Nat → Nat → Nat → List Nat
  | 0, _, _, _ => []
  | k + 1, i, fla, nread =>
    setSI c fla (bit i) :: (setSI c fla (bit i) ||| c.E1000_FL_NVM_SK) ::
      (rdAt e nread &&& bnot32 c.E1000_FL_NVM_SK) ::
      xferWrites c e bit k (i + 1) (rdAt e nread &&& bnot32 c.E1000_FL_NVM_SK) (nread + 1)

/-- The world after the cancellation check of one iteration. -/
def afterChk (intr : Bool) (w : World) : World :=
  if intr then { w with nctrl := w.nctrl + 1 } else w

/-- Source and destination of a transfer of `n` bits are the same buffer or
do not overlap. -/
def AliasOK (dout din : Option Nat) (n : Nat) : Prop :=
  ∀ d a, dout = some d → din = some a → a = d ∨ a + (n + 7) / 8 ≤ d ∨ d + (n + 7) / 8 ≤ a

/-- The cached register value at the start of iteration `j` of a loop
entered with `fla` and `nread` reads consumed. -/
def flaIn (c : Consts) (e : Env) (fla nread : Nat) : Nat → Nat
  | 0 => fla
  | j + 1 => rdAt e (nread + j) &&& bnot32 c.E1000_FL_NVM_SK

/-- The ghost record of a transfer. -/
def xferCall (n : Nat) (dout din : Option Nat) (intr : Bool) (mem : Mem) : Call :=
  .xfer n (dout.map (fun d => bytes mem d ((n + 7) / 8))) din.isSome intr

/-- The run of the bit loop inside `e1000_spi_xfer`. -/
def xferLoopOf (c : Consts) (e : Env) (n : Nat) (dout din : Option Nat) (intr : Bool)
    (mem : Mem) (w : World) : LoopOut :=
  xfer_loop c e dout din intr n 0 (maskOf 0) (rdAt e w.nread) mem
    ⟨w.nread + 1, w.nctrl, w.writes, w.calls ++ [xferCall n dout din intr mem]⟩

/-- The output bit of iteration `i`: bit `7 - i mod 8` of byte `i div 8` of
the source, 0 without a source. -/
def outBitAt (dout : Option Nat) (mem : Mem) (i : Nat) : Bool :=
  match dout with
  | none => false
  | some d => (load mem (d + i / 8)).testBit (7 - i % 8)

/-- An environment whose register reads alternate between SO set (even
reads) and SO clear (odd reads), and in which Ctrl-C is never pressed. -/
def exampleEnv : Env := ⟨fun k => if k % 2 = 0 then 8 else 0, fun _ => false⟩

/-- The SI bits a slave samples at the rising clock edges of a transfer of
`n` bits whose register writes start at index `base` of the log. -/
def recordSI (c : Consts) (writes : List Nat) (base n : Nat) : List Bool :=
  (List.range n).map (fun i => writes.getD (base + (3 * i + 1)) 0 &&& c.E1000_FL_SI != 0)

/-- An environment in which the slave replays `bits` on SO, one per register
read after the first one, and Ctrl-C is never pressed. -/
def replayEnv (c : Consts) (bits : List Bool) : Env :=
  ⟨fun k => if bits.getD (k - 1) false then c.E1000_FL_SO else 0, fun _ => false⟩

/-- Ctrl-C is not pressed from the state `w` on: every later answer of the
cancellation oracle is `false`. -/
def NoCtrlC (e : Env) (w : World) : Prop := ∀ k, w.nctrl ≤ k → e.ctrl k = false

/-- The ghost records of one `e1000_spi_flash_read_status`. -/
def statusCalls (intr : Bool) : List Call :=
  [.read_status, .standby, .xfer 16 (some [5, 0]) true intr]

/-- The ghost records of `m` status polls. -/
def pollCalls (intr : Bool) : Nat → List Call
  | 0 => []
  | m + 1 => statusCalls intr ++ pollCalls intr m

/-- The busy flag seen by a status read that starts with `nread` register
reads consumed: the SO bit of the read after the 16th rising clock edge. -/
def busyAt (c : Consts) (e : Env) (nread : Nat) : Bool :=
  rdAt e (nread + 17) &&& c.E1000_FL_SO != 0

/-- The `(offset, length)` arguments of the `read_page` commands in a call
log, in order. -/
def readPages : List Call → List (Nat × Nat)
  | [] => []
  | .read_page off len :: cs => (off, len) :: readPages cs
  | _ :: cs => readPages cs

/-- The chunking of `len` bytes from offset `off` into pages of size `ps`, as
the specification words it: each chunk starts where the previous one ended
(modulo 2^16), its length is the smaller of the bytes left in the page,
`ps - off mod ps`, and the remaining length, and the chunks end when
nothing remains. -/
def IsChunking (ps : Nat) : Nat → Nat → List (Nat × Nat) → Prop
  | _, len, [] => len = 0
  | off, len, p :: rest =>
    0 < len ∧ p.1 = off ∧ p.2 = min (ps - off % ps) len ∧
      IsChunking ps ((off + p.2) % 65536) (len - p.2) rest

/-- An environment in which every register read is zero (the FLASH is never
busy) and Ctrl-C is never pressed. -/
def idleEnv : Env := ⟨fun _ => 0, fun _ => false⟩

/-- An environment in which every register read has SO set (the FLASH
always reports busy) and Ctrl-C is never pressed. -/
def busyEnv : Env := ⟨fun _ => 8, fun _ => false⟩

/-- The `(offset, length, data)` arguments of the `write_page` commands in a
call log, in order. -/
def writePages : List Call → List (Nat × Nat × List Nat)
  | [] => []
  | .write_page off len data :: cs => (off, len, data) :: writePages cs
  | _ :: cs => writePages cs

/-- Plain sum of the first `n` little-endian 16-bit words of a buffer. -/
def wordSum (mem : Mem) (n : Nat) : Nat := ((List.range n).map (le16 mem)).sum

/-- The checksum word equals `EEPROM_SUM` minus the sum of the words before
it, in 16-bit wraparound arithmetic. -/
def ChecksumValid (c : Consts) (mem : Mem) : Prop :=
  le16 mem c.EEPROM_CHECKSUM_REG
    = (c.EEPROM_SUM % 65536 + 65536 - wordSum mem c.EEPROM_CHECKSUM_REG % 65536) % 65536

instance (c : Consts) (mem : Mem) : Decidable (ChecksumValid c mem) := by
  unfold ChecksumValid; exact inferInstance

/-- An environment in which every register read has only the Grant bit set
(the bus is granted at once, the FLASH is never busy and holds zeros) and
Ctrl-C is never pressed. -/
def grantEnv : Env := ⟨fun _ => 0x20, fun _ => false⟩

/-- Whether a ghost record is a command, rather than one of the steps
(`standby`, a transfer, a status read) commands are made of. -/
def isCmd : Call → Bool
  | .standby => false
  | .xfer _ _ _ _ => false
  | .read_status => false
  | _ => true

/-- The commands in a call log, in order. -/
def cmds (l : List Call) : List Call := l.filter isCmd

/-- The commands of the page loop of `e1000_spi_flash_program` for `n` bytes
at `data`, to be programmed from offset `off`, and of the final wait. -/
def programRounds (mem : Mem) : Nat → Nat → Nat → List Call
  | 0, _, _ => [.poll_ready]
  | n + 1, data, off =>
    .poll_ready :: .enable_wr :: .write_page off 1 [load mem data] ::
      programRounds mem n (data + 1) ((off + 1) % 65536)

/-- The FLASH reports not busy at some status poll, whenever polling
starts. -/
def EventuallyReady (c : Consts) (e : Env) : Prop :=
  ∀ s, ∃ m, busyAt c e (s + 18 * m) = false

/-- `p[off + j] = data[j]` for every byte of `data`. -/
def storeBytes (m : Mem) : Nat → List Nat → Mem
  | _, [] => m
  | off, b :: bs => storeBytes (store m off b) (off + 1) bs

/-- A FLASH that stores each programmed byte: the content after the
`write_page` commands `(offset, length, data)` of a call log. -/
def flashStore (content : Mem) : List (Nat × Nat × List Nat) → Mem
  | [] => content
  | p :: rest => flashStore (storeBytes content p.1 p.2.2) rest

/-- The word the repair writes: `EEPROM_SUM` minus the sum of the words
before the checksum word, in 16-bit wraparound arithmetic. -/
def repairWord (c : Consts) (mem : Mem) : Nat :=
  (c.EEPROM_SUM % 65536 + 65536 - wordSum mem c.EEPROM_CHECKSUM_REG % 65536) % 65536

/-- Example constants with the checksum in word 1, so that two words (four
bytes) are checksummed. -/
def smallConsts : Consts := { exampleConsts with EEPROM_CHECKSUM_REG := 1 }

/-- The dump of the checksummed words in `grantEnv` with `smallConsts`, after
the bus acquisition of the checksum command. -/
def smallDump : Option (Int × Mem × World) :=
  e1000_spi_flash_dump smallConsts grantEnv exampleHw 0 0
    ((2 * (smallConsts.EEPROM_CHECKSUM_REG + 1)) % 65536) true 4 (fun _ => 0)
    (e1000_acquire_flash smallConsts grantEnv exampleHw World.init).2

/-- An environment in which the bus is granted at once and Ctrl-C is
pressed once: only the `ctrlc()` call number `k0` (counting from 0) answers
`true`. -/
def ctrlcAt (k0 : Nat) : Env := ⟨fun _ => 0x20, fun k => decide (k = k0)⟩

/-- The state after `j` status reads of the poll loop. -/
def pollState (c : Consts) (e : Env) (hw : e1000_hw) (intr : Bool) : Nat → World → World
  | 0, w => w
  | j + 1, w => pollState c e hw intr j (e1000_spi_flash_read_status c e hw intr w).2

/-- The register writes `l` are those of exactly `k` clock cycles: for each
cycle a data set-up write `v`, a rising edge `v ||| SK` and a falling edge
that writes a value with SK cleared. -/
def EdgePairs (c : Consts) (l : List Nat) (k : Nat) : Prop :=
  l.length = 3 * k ∧
  ∀ j, j < k → ∃ v r, l[3 * j]? = some v ∧ l[3 * j + 1]? = some (v ||| c.E1000_FL_NVM_SK) ∧
    l[3 * j + 2]? = some (r &&& bnot32 c.E1000_FL_NVM_SK)

/-- The 16-bit status transfer `e1000_spi_flash_read_status` issues when it
is called in state `w`. -/
def statusXfer (c : Consts) (e : Env) (hw : e1000_hw) (intr : Bool) (w : World) :
    Int × Mem × World :=
  e1000_spi_xfer c e (8 * 2) (some 0) (some 0) intr (opMem [SPI_FLASH_READ_STATUS, 0])
    (e1000_standby_flash c e hw (w.log .read_status))

/-- An environment in which the FLASH always reports busy (every register
read has SO set) and Ctrl-C is pressed once: only the `ctrlc()` call number
`k0` (counting from 0) answers `true`. -/
def busyCtrlcAt (k0 : Nat) : Env := ⟨fun _ => 8, fun k => decide (k = k0)⟩

/-- The value the grant polling loop tests before its poll number `j`: the
cached `fla` it was entered with for `j = 0`, the register read of poll
`j - 1` otherwise. -/
def pollVal (e : Env) (fla nread : Nat) : Nat → Nat
  | 0 => fla
  | j + 1 => rdAt e (nread + j)

/-- An EEPROM interface that is not a FLASH. -/
def eepromHw : e1000_hw := ⟨false, 256, 64⟩

/-- The values `v` and `r` agree on every bit other than those of SK, SI, CEN
and REQ. -/
def AgreeOff (c : Consts) (v r : Nat) : Prop :=
  ∀ j, c.E1000_FL_NVM_SK.testBit j = false → c.E1000_FL_SI.testBit j = false →
    c.E1000_FL_CEN.testBit j = false → c.E1000_FL_REQ.testBit j = false →
    v.testBit j = r.testBit j

/-- Every bit of the mask `m` is a bit of SK, SI, CEN or REQ. -/
def Covered (c : Consts) (m : Nat) : Prop :=
  ∀ j, m.testBit j = true → c.E1000_FL_NVM_SK.testBit j = true ∨ c.E1000_FL_SI.testBit j = true ∨
    c.E1000_FL_CEN.testBit j = true ∨ c.E1000_FL_REQ.testBit j = true

/-- The most recent register read when write number `p` of a transfer that
started with `nread` reads consumed is issued: the read before the loop for
the first two writes of the first cycle, and from then on the read between
the rising and the falling edge of the cycle before. -/
def lastRead (e : Env) (nread p : Nat) : Nat := rdAt e (nread + (p + 1) / 3)

/-- The header of a page command as the specification words it. -/
def pageHeader (opcode off : Nat) : List Nat := [opcode, 0x00, off >>> 8, off &&& 0xff]

/-- The header transfer of a page command with opcode `opcode`, issued in
state `w0` (after the ghost record of the command). -/
def pageHdrXfer (c : Consts) (e : Env) (hw : e1000_hw) (opcode off : Nat) (intr : Bool)
    (w0 : World) : Int × Mem × World :=
  e1000_spi_xfer c e (8 + 24) (some 0) none intr
    (opMem [opcode, (off >>> 16) &&& 0xff, (off >>> 8) &&& 0xff, off &&& 0xff])
    (e1000_standby_flash c e hw w0)

/-- A command that started in state `w` ended in state `w2` in one of three
ways: without touching the bus, after a failed bus acquisition, or, the
acquisition having succeeded, with a call of `e1000_release_flash`. -/
def Released (c : Consts) (e : Env) (hw : e1000_hw) (w w2 : World) : Prop :=
  w2 = w ∨ ((e1000_acquire_flash c e hw w).1 ≠ 0 ∧ w2 = (e1000_acquire_flash c e hw w).2) ∨
    ((e1000_acquire_flash c e hw w).1 = 0 ∧ ∃ w1, w2 = e1000_release_flash c e hw w1)

/-- The `program` command with Ctrl-C pressed at the first check of the
write-status transfer of `clear_block_protect`. -/
def programRun : Option (Int × Mem × World) :=
  do_e1000_spi exampleConsts (ctrlcAt 8) exampleHw false 4 .program 0 0 2 false none 10
    (opMem [7, 9]) World.init

/-! ## Lemmas on bits, memory and the bit loop -/

theorem and_two_pow_bne_zero (v k : Nat) : (v &&& 2 ^ k != 0) = v.testBit k := by
  cases h : v.testBit k
  · have : v &&& 2 ^ k = 0 := by
      apply Nat.eq_of_testBit_eq
      intro i
      simp only [Nat.testBit_and, Nat.testBit_two_pow, Nat.zero_testBit]
      by_cases hki : k = i
      · subst hki; simp [h]
      · simp [hki]
    simp [this]
  · have : (v &&& 2 ^ k).testBit k = true := by
      simp [Nat.testBit_and, Nat.testBit_two_pow, h]
    have hne : v &&& 2 ^ k ≠ 0 := by
      intro h0
      rw [h0] at this
      simp at this
    simpa using hne

theorem testBit_bnot32 (x j : Nat) :
    (bnot32 x).testBit j = (decide (j < 32) && !x.testBit j) := by
  unfold bnot32
  have h : (4294967295 : Nat) = 2 ^ 32 - 1 := by norm_num
  have h2 : (4294967296 : Nat) = 2 ^ 32 := by norm_num
  rw [h, h2, Nat.testBit_xor, Nat.testBit_two_pow_sub_one, Nat.testBit_mod_two_pow]
  by_cases hj : j < 32 <;> simp [hj]

theorem testBit_mod_256 (x j : Nat) :
    (x % 256).testBit j = (decide (j < 8) && x.testBit j) := by
  have h2 : (256 : Nat) = 2 ^ 8 := by norm_num
  rw [h2, Nat.testBit_mod_two_pow]

theorem shr3 (i : Nat) : i >>> 3 = i / 8 := by
  rw [Nat.shiftRight_eq_div_pow]

theorem and7 (i : Nat) : i &&& 7 = i % 8 := by
  have : (7 : Nat) = 2 ^ 3 - 1 := by norm_num
  rw [this, Nat.and_pow_two_sub_one_eq_mod]

theorem nextMask_maskOf (i : Nat) : nextMask (maskOf i) = maskOf (i + 1) := by
  unfold nextMask maskOf
  have h8 : i % 8 < 8 := Nat.mod_lt _ (by norm_num)
  rw [Nat.shiftRight_eq_div_pow]
  by_cases h7 : i % 8 = 7
  · have : (i + 1) % 8 = 0 := by omega
    rw [h7, this]; norm_num
  · have h1 : (i + 1) % 8 = i % 8 + 1 := by omega
    have h6 : 7 - i % 8 = (7 - (i + 1) % 8) + 1 := by omega
    rw [h6, pow_succ]
    have : 2 ^ (7 - (i + 1) % 8) * 2 / 2 ^ 1 = 2 ^ (7 - (i + 1) % 8) := by
      rw [pow_one]; exact Nat.mul_div_cancel _ (by norm_num)
    rw [this]
    have hpos : 2 ^ (7 - (i + 1) % 8) ≠ 0 := by positivity
    simp [hpos]

theorem maskOf_zero : maskOf 0 = 128 := by
  unfold maskOf; norm_num

theorem outbit_some (d : Nat) (mem : Mem) (i : Nat) :
    outbit (some d) mem i (maskOf i) = getBit mem d i := by
  simp only [outbit, maskOf, getBit, shr3, and_two_pow_bne_zero]

theorem load_store (mem : Mem) (a v x : Nat) :
    load (store mem a v) x = if x = a then v % 256 else load mem x := by
  unfold load store
  by_cases h : x = a <;> simp [h]

theorem capture_other (c : Consts) (a : Nat) (mem : Mem) (i mask fla x : Nat)
    (hx : x ≠ a + i / 8) : capture c (some a) mem i mask fla x = mem x := by
  unfold capture
  simp only [shr3]
  split <;> simp [store, hx]

theorem capture_none (c : Consts) (mem : Mem) (i mask fla : Nat) :
    capture c none mem i mask fla = mem := rfl

theorem capture_testBit (c : Consts) (a : Nat) (mem : Mem) (i fla x j : Nat) :
    (load (capture c (some a) mem i (maskOf i) fla) x).testBit j =
      if x = a + i / 8 ∧ j = 7 - i % 8 then (fla &&& c.E1000_FL_SO != 0)
      else (load mem x).testBit j := by
  by_cases hx : x = a + i / 8
  · subst hx
    have hk : 7 - i % 8 < 8 := by omega
    unfold capture
    simp only [shr3, maskOf]
    by_cases hs : (fla &&& c.E1000_FL_SO != 0) = true
    · rw [if_pos hs, load_store, if_pos rfl, testBit_mod_256, Nat.testBit_or,
        Nat.testBit_two_pow, hs]
      by_cases hj : j = 7 - i % 8
      · subst hj; simp [hk]
      · have hj2 : ¬ (7 - i % 8 = j) := fun h => hj h.symm
        simp only [hj, hj2, and_false, if_false, decide_False, Bool.or_false]
        unfold load
        rw [testBit_mod_256]
        cases decide (j < 8) <;> simp
    · rw [if_neg hs, load_store, if_pos rfl, testBit_mod_256, Nat.testBit_and,
        testBit_bnot32, Nat.testBit_two_pow]
      have hs2 : (fla &&& c.E1000_FL_SO != 0) = false := by simpa using hs
      rw [hs2]
      by_cases hj : j = 7 - i % 8
      · subst hj; simp
      · have hj2 : ¬ (7 - i % 8 = j) := fun h => hj h.symm
        simp only [hj, hj2, and_false, if_false, decide_False, Bool.not_false, Bool.and_true]
        unfold load
        rw [testBit_mod_256]
        by_cases h8 : j < 8
        · have : j < 32 := by omega
          simp [h8, this]
        · simp [h8]
  · have : ¬ (x = a + i / 8 ∧ j = 7 - i % 8) := fun h => hx h.1
    rw [if_neg this]
    unfold load
    rw [capture_other c a mem i _ fla x hx]

theorem bitpos_inj (a i m : Nat) (h1 : a + m / 8 = a + i / 8) (h2 : 7 - m % 8 = 7 - i % 8) :
    m = i := by
  omega

theorem getBit_capture (c : Consts) (a : Nat) (mem : Mem) (i fla m : Nat) :
    getBit (capture c (some a) mem i (maskOf i) fla) a m =
      if m = i then (fla &&& c.E1000_FL_SO != 0) else getBit mem a m := by
  unfold getBit
  rw [capture_testBit]
  by_cases hm : m = i
  · subst hm; simp
  · have : ¬ (a + m / 8 = a + i / 8 ∧ 7 - m % 8 = 7 - i % 8) := by
      intro h; exact hm (bitpos_inj a i m h.1 h.2)
    rw [if_neg this, if_neg hm]

theorem xfer_body_fla (c : Consts) (e : Env) (dout din : Option Nat) (i mask fla : Nat)
    (mem : Mem) (w : World) :
    (xfer_body c e dout din i mask fla mem w).1 = rdAt e w.nread &&& bnot32 c.E1000_FL_NVM_SK :=
  rfl

theorem xfer_body_mem (c : Consts) (e : Env) (dout din : Option Nat) (i mask fla : Nat)
    (mem : Mem) (w : World) :
    (xfer_body c e dout din i mask fla mem w).2.1 = capture c din mem i mask (rdAt e w.nread) :=
  rfl

theorem xfer_body_world (c : Consts) (e : Env) (dout din : Option Nat) (i mask fla : Nat)
    (mem : Mem) (w : World) :
    (xfer_body c e dout din i mask fla mem w).2.2 =
      { nread := w.nread + 1, nctrl := w.nctrl, calls := w.calls,
        writes := w.writes ++ [setSI c fla (outbit dout mem i mask),
          setSI c fla (outbit dout mem i mask) ||| c.E1000_FL_NVM_SK,
          rdAt e w.nread &&& bnot32 c.E1000_FL_NVM_SK] } := by
  simp [xfer_body, e1000_raise_fl_clk, e1000_lower_fl_clk, READ_REG, WRITE_REG, setSI, rdAt]

theorem xfer_body_nread (c : Consts) (e : Env) (dout din : Option Nat) (i mask fla : Nat)
    (mem : Mem) (w : World) :
    (xfer_body c e dout din i mask fla mem w).2.2.nread = w.nread + 1 := rfl

theorem xfer_body_nctrl (c : Consts) (e : Env) (dout din : Option Nat) (i mask fla : Nat)
    (mem : Mem) (w : World) :
    (xfer_body c e dout din i mask fla mem w).2.2.nctrl = w.nctrl := rfl

theorem xfer_body_calls (c : Consts) (e : Env) (dout din : Option Nat) (i mask fla : Nat)
    (mem : Mem) (w : World) :
    (xfer_body c e dout din i mask fla mem w).2.2.calls = w.calls := rfl

theorem xfer_body_writes (c : Consts) (e : Env) (dout din : Option Nat) (i mask fla : Nat)
    (mem : Mem) (w : World) :
    (xfer_body c e dout din i mask fla mem w).2.2.writes =
      w.writes ++ [setSI c fla (outbit dout mem i mask),
          setSI c fla (outbit dout mem i mask) ||| c.E1000_FL_NVM_SK,
          rdAt e w.nread &&& bnot32 c.E1000_FL_NVM_SK] := by
  rw [xfer_body_world]

theorem xfer_loop_zero (c : Consts) (e : Env) (dout din : Option Nat) (intr : Bool)
    (i mask fla : Nat) (mem : Mem) (w : World) :
    xfer_loop c e dout din intr 0 i mask fla mem w = ⟨false, i, mask, mem, w⟩ := rfl

theorem xfer_loop_stop (c : Consts) (e : Env) (dout din : Option Nat) (k i mask fla : Nat)
    (mem : Mem) (w : World) (h : e.ctrl w.nctrl = true) :
    xfer_loop c e dout din true (k + 1) i mask fla mem w =
      ⟨true, i, mask, mem, { w with nctrl := w.nctrl + 1 }⟩ := by
  simp [xfer_loop, ctrlc, h]

theorem xfer_loop_go (c : Consts) (e : Env) (dout din : Option Nat) (intr : Bool)
    (k i mask fla : Nat) (mem : Mem) (w : World) (h : intr = true → e.ctrl w.nctrl = false) :
    xfer_loop c e dout din intr (k + 1) i mask fla mem w =
      xfer_loop c e dout din intr k (i + 1) (nextMask mask)
        (xfer_body c e dout din i mask fla mem (afterChk intr w)).1
        (xfer_body c e dout din i mask fla mem (afterChk intr w)).2.1
        (xfer_body c e dout din i mask fla mem (afterChk intr w)).2.2 := by
  cases intr
  · simp [xfer_loop, afterChk]
  · simp [xfer_loop, afterChk, ctrlc, h rfl]

/-- An uncancelled loop passed its first check. -/
theorem xfer_loop_first (c : Consts) (e : Env) (dout din : Option Nat) (intr : Bool)
    (k i mask fla : Nat) (mem : Mem) (w : World)
    (hc : (xfer_loop c e dout din intr (k + 1) i mask fla mem w).cancelled = false) :
    intr = true → e.ctrl w.nctrl = false := by
  intro hi
  subst hi
  by_contra hne
  have h : e.ctrl w.nctrl = true := by simpa using hne
  rw [xfer_loop_stop c e dout din k i mask fla mem w h] at hc
  simp at hc

theorem afterChk_nread (intr : Bool) (w : World) : (afterChk intr w).nread = w.nread := by
  cases intr <;> rfl

theorem afterChk_writes (intr : Bool) (w : World) : (afterChk intr w).writes = w.writes := by
  cases intr <;> rfl

theorem afterChk_calls (intr : Bool) (w : World) : (afterChk intr w).calls = w.calls := by
  cases intr <;> rfl

theorem afterChk_nctrl (intr : Bool) (w : World) :
    (afterChk intr w).nctrl = w.nctrl + (if intr then 1 else 0) := by
  cases intr <;> rfl

/-- A loop that meets no pending cancellation is not cancelled. -/
theorem xfer_loop_nocancel (c : Consts) (e : Env) (dout din : Option Nat) (intr : Bool) :
    ∀ (k i mask fla : Nat) (mem : Mem) (w : World),
      (intr = true → ∀ j, j < k → e.ctrl (w.nctrl + j) = false) →
      (xfer_loop c e dout din intr k i mask fla mem w).cancelled = false := by
  intro k
  induction k with
  | zero => intro i mask fla mem w _; rfl
  | succ k ih =>
    intro i mask fla mem w h
    have h0 : intr = true → e.ctrl w.nctrl = false := fun hi => by
      simpa using h hi 0 (Nat.succ_pos k)
    rw [xfer_loop_go c e dout din intr k i mask fla mem w h0]
    apply ih
    intro hi j hj
    rw [xfer_body_nctrl]
    simp only [afterChk_nctrl, hi, if_true]
    have := h hi (j + 1) (by omega)
    rw [← this]; congr 1; omega

/-- The state in which an uncancelled loop stops. -/
theorem xfer_loop_ok (c : Consts) (e : Env) (dout din : Option Nat) (intr : Bool) :
    ∀ (k i fla : Nat) (mem : Mem) (w : World),
      (xfer_loop c e dout din intr k i (maskOf i) fla mem w).cancelled = false →
      (xfer_loop c e dout din intr k i (maskOf i) fla mem w).i = i + k ∧
      (xfer_loop c e dout din intr k i (maskOf i) fla mem w).mask = maskOf (i + k) ∧
      (xfer_loop c e dout din intr k i (maskOf i) fla mem w).mem
        = captureAll c e din k i w.nread mem ∧
      (xfer_loop c e dout din intr k i (maskOf i) fla mem w).w.nread = w.nread + k ∧
      (xfer_loop c e dout din intr k i (maskOf i) fla mem w).w.calls = w.calls ∧
      (xfer_loop c e dout din intr k i (maskOf i) fla mem w).w.nctrl
        = w.nctrl + (if intr then k else 0) ∧
      (intr = true → ∀ j, j < k → e.ctrl (w.nctrl + j) = false) := by
  intro k
  induction k with
  | zero =>
    intro i fla mem w _
    refine ⟨rfl, rfl, rfl, rfl, rfl, ?_, ?_⟩
    · simp [xfer_loop_zero]
    · intro _ j hj; omega
  | succ k ih =>
    intro i fla mem w hc
    have h0 := xfer_loop_first c e dout din intr k i (maskOf i) fla mem w hc
    rw [xfer_loop_go c e dout din intr k i (maskOf i) fla mem w h0] at hc ⊢
    rw [nextMask_maskOf] at hc ⊢
    obtain ⟨h1, h2, h3, h4, h5, h6, h7⟩ := ih _ _ _ _ hc
    rw [xfer_body_nread, afterChk_nread] at h3 h4
    rw [xfer_body_calls, afterChk_calls] at h5
    rw [xfer_body_nctrl, afterChk_nctrl] at h6 h7
    refine ⟨by rw [h1]; omega, by rw [h2]; congr 1; omega, ?_, by rw [h4]; omega, h5, ?_, ?_⟩
    · rw [h3, xfer_body_mem, afterChk_nread]; rfl
    · rw [h6]; cases intr <;> simp; omega
    · intro hi j hj
      cases j with
      | zero => simpa using h0 hi
      | succ j =>
        have := h7 hi j (by omega)
        simp only [hi, if_true] at this
        rw [← this]; congr 1; omega

theorem xferWrites_congr (c : Consts) (e : Env) (bit bit2 : Nat → Bool) :
    ∀ (k i fla nread : Nat), (∀ m, i ≤ m → m < i + k → bit m = bit2 m) →
      xferWrites c e bit k i fla nread = xferWrites c e bit2 k i fla nread := by
  intro k
  induction k with
  | zero => intro i fla nread _; rfl
  | succ k ih =>
    intro i fla nread h
    simp only [xferWrites]
    rw [h i (le_refl _) (by omega), ih (i + 1) _ _ (fun m h1 h2 => h m (by omega) (by omega))]

theorem xferWrites_length (c : Consts) (e : Env) (bit : Nat → Bool) :
    ∀ (k i fla nread : Nat), (xferWrites c e bit k i fla nread).length = 3 * k := by
  intro k
  induction k with
  | zero => intro i fla nread; rfl
  | succ k ih => intro i fla nread; simp only [xferWrites, List.length_cons, ih]; omega

/-- Capturing bit `i` leaves the later output bits as they were. -/
theorem outbit_capture (c : Consts) (dout din : Option Nat) (mem : Mem) (i fla m n : Nat)
    (hal : AliasOK dout din n) (him : i < m) (hmn : m < n) :
    outbit dout (capture c din mem i (maskOf i) fla) m (maskOf m)
      = outbit dout mem m (maskOf m) := by
  cases dout with
  | none => rfl
  | some d =>
    cases din with
    | none => rfl
    | some a =>
      rw [outbit_some, outbit_some]
      rcases hal d a rfl rfl with h | h | h
      · subst h
        rw [getBit_capture, if_neg (by omega)]
      · unfold getBit
        rw [capture_testBit, if_neg]
        intro hh; omega
      · unfold getBit
        rw [capture_testBit, if_neg]
        intro hh; omega

/-- The register writes of an uncancelled loop. -/
theorem xfer_loop_writes (c : Consts) (e : Env) (dout din : Option Nat) (intr : Bool) :
    ∀ (k i fla : Nat) (mem : Mem) (w : World), AliasOK dout din (i + k) →
      (xfer_loop c e dout din intr k i (maskOf i) fla mem w).cancelled = false →
      (xfer_loop c e dout din intr k i (maskOf i) fla mem w).w.writes
        = w.writes ++ xferWrites c e (fun m => outbit dout mem m (maskOf m)) k i fla w.nread := by
  intro k
  induction k with
  | zero => intro i fla mem w _ _; simp [xfer_loop_zero, xferWrites]
  | succ k ih =>
    intro i fla mem w hal hc
    have h0 := xfer_loop_first c e dout din intr k i (maskOf i) fla mem w hc
    rw [xfer_loop_go c e dout din intr k i (maskOf i) fla mem w h0] at hc ⊢
    rw [nextMask_maskOf] at hc ⊢
    have hal2 : AliasOK dout din (i + 1 + k) := by
      have : i + 1 + k = i + (k + 1) := by omega
      rw [this]; exact hal
    rw [ih _ _ _ _ hal2 hc, xfer_body_writes, xfer_body_nread, xfer_body_fla, xfer_body_mem]
    simp only [afterChk_nread, afterChk_writes, xferWrites]
    rw [xferWrites_congr c e _ (fun m => outbit dout mem m (maskOf m)) k (i + 1) _ _
      (fun m h1 h2 => outbit_capture c dout din mem i _ m (i + (k + 1)) hal (by omega) (by omega))]
    simp

theorem xferWrites_get (c : Consts) (e : Env) (bit : Nat → Bool) :
    ∀ (k i fla nread j : Nat), j < k →
      (xferWrites c e bit k i fla nread)[3 * j]?
        = some (setSI c (flaIn c e fla nread j) (bit (i + j))) ∧
      (xferWrites c e bit k i fla nread)[3 * j + 1]?
        = some (setSI c (flaIn c e fla nread j) (bit (i + j)) ||| c.E1000_FL_NVM_SK) ∧
      (xferWrites c e bit k i fla nread)[3 * j + 2]?
        = some (rdAt e (nread + j) &&& bnot32 c.E1000_FL_NVM_SK) := by
  intro k
  induction k with
  | zero => intro i fla nread j hj; omega
  | succ k ih =>
    intro i fla nread j hj
    cases j with
    | zero => simp [xferWrites, flaIn]
    | succ j =>
      obtain ⟨h1, h2, h3⟩ := ih (i + 1) (rdAt e nread &&& bnot32 c.E1000_FL_NVM_SK)
        (nread + 1) j (by omega)
      have e0 : 3 * (j + 1) = 3 * j + 1 + 1 + 1 := by omega
      have e1 : 3 * (j + 1) + 1 = 3 * j + 1 + 1 + 1 + 1 := by omega
      have e2 : 3 * (j + 1) + 2 = 3 * j + 2 + 1 + 1 + 1 := by omega
      have hf : flaIn c e (rdAt e nread &&& bnot32 c.E1000_FL_NVM_SK) (nread + 1) j
          = flaIn c e fla nread (j + 1) := by
        cases j with
        | zero => simp [flaIn]
        | succ j => simp only [flaIn]; congr 2; omega
      have hi : i + 1 + j = i + (j + 1) := by omega
      have hn : nread + 1 + j = nread + (j + 1) := by omega
      rw [hf, hi] at h1 h2
      rw [hn] at h3
      refine ⟨?_, ?_, ?_⟩
      · rw [e0]; simp only [xferWrites, List.getElem?_cons_succ]
        have : 3 * j + 1 + 1 + 1 = 3 * j + 3 := by omega
        exact h1
      · rw [e1]; simp only [xferWrites, List.getElem?_cons_succ]; exact h2
      · rw [e2]; simp only [xferWrites, List.getElem?_cons_succ]; exact h3

theorem setSI_test (c : Consts) (fla : Nat) (b : Bool) (hSI : IsBit c.E1000_FL_SI) :
    (setSI c fla b &&& c.E1000_FL_SI != 0) = b := by
  obtain ⟨a, ha, hs⟩ := hSI
  rw [hs, and_two_pow_bne_zero]
  unfold setSI
  rw [hs]
  cases b
  · simp [testBit_bnot32, Nat.testBit_two_pow]
  · simp [Nat.testBit_two_pow]

theorem or_test (x m s : Nat) (hs : IsBit s) (hms : m &&& s = 0) :
    ((x ||| m) &&& s != 0) = (x &&& s != 0) := by
  obtain ⟨a, ha, hs⟩ := hs
  have hm : m.testBit a = false := by
    rw [← and_two_pow_bne_zero, ← hs, hms]; rfl
  rw [hs, and_two_pow_bne_zero, and_two_pow_bne_zero, Nat.testBit_or, hm, Bool.or_false]

theorem captureAll_none (c : Consts) (e : Env) :
    ∀ (k i nread : Nat) (mem : Mem), captureAll c e none k i nread mem = mem := by
  intro k
  induction k with
  | zero => intro i nread mem; rfl
  | succ k ih => intro i nread mem; simp only [captureAll, capture_none, ih]

theorem getBit_captureAll (c : Consts) (e : Env) (a : Nat) :
    ∀ (k i nread : Nat) (mem : Mem) (m : Nat),
      getBit (captureAll c e (some a) k i nread mem) a m =
        if i ≤ m ∧ m < i + k then (rdAt e (nread + (m - i)) &&& c.E1000_FL_SO != 0)
        else getBit mem a m := by
  intro k
  induction k with
  | zero =>
    intro i nread mem m
    have : ¬ (i ≤ m ∧ m < i + 0) := by omega
    rw [if_neg this]; rfl
  | succ k ih =>
    intro i nread mem m
    simp only [captureAll]
    rw [ih, getBit_capture]
    by_cases h1 : i + 1 ≤ m ∧ m < i + 1 + k
    · have h2 : i ≤ m ∧ m < i + (k + 1) := by omega
      rw [if_pos h1, if_pos h2]
      congr 3; omega
    · rw [if_neg h1]
      by_cases hm : m = i
      · subst hm
        have h2 : m ≤ m ∧ m < m + (k + 1) := by omega
        rw [if_pos rfl, if_pos h2]; simp
      · have h2 : ¬ (i ≤ m ∧ m < i + (k + 1)) := by omega
        rw [if_neg hm, if_neg h2]

theorem captureAll_other (c : Consts) (e : Env) (a : Nat) :
    ∀ (k i nread : Nat) (mem : Mem) (x : Nat), (x < a + i / 8 ∨ a + (i + k + 7) / 8 ≤ x) →
      captureAll c e (some a) k i nread mem x = mem x := by
  intro k
  induction k with
  | zero => intro i nread mem x _; rfl
  | succ k ih =>
    intro i nread mem x hx
    simp only [captureAll]
    rw [ih _ _ _ _ (by omega), capture_other]
    omega

theorem clearRest_none (mem : Mem) (i mask : Nat) : clearRest none mem i mask = mem := rfl

theorem clearRest_aligned (a : Nat) (mem : Mem) (n mask : Nat) (h : n % 8 = 0) :
    clearRest (some a) mem n mask = mem := by
  simp [clearRest, and7, h]

theorem clearRest_other (a : Nat) (mem : Mem) (n mask x : Nat) (hx : x ≠ a + n / 8) :
    clearRest (some a) mem n mask x = mem x := by
  unfold clearRest
  simp only [shr3]
  split
  · simp [store, hx]
  · rfl

theorem clearRest_testBit (a : Nat) (mem : Mem) (n j : Nat) (h : n % 8 ≠ 0) :
    (load (clearRest (some a) mem n (maskOf n)) (a + n / 8)).testBit j =
      (decide (8 - n % 8 ≤ j) && (load mem (a + n / 8)).testBit j) := by
  have hm : (maskOf n <<< 1) - 1 = 2 ^ (8 - n % 8) - 1 := by
    unfold maskOf
    rw [Nat.shiftLeft_eq, ← pow_succ]
    congr 2; omega
  unfold clearRest
  simp only [shr3, and7, hm]
  have hne : (n % 8 != 0) = true := by simpa using h
  rw [if_pos hne, load_store, if_pos rfl, testBit_mod_256, Nat.testBit_and, testBit_bnot32,
    Nat.testBit_two_pow_sub_one]
  unfold load
  rw [testBit_mod_256]
  by_cases h8 : j < 8
  · have h32 : j < 32 := by omega
    by_cases hj : j < 8 - n % 8
    · have : ¬ (8 - n % 8 ≤ j) := by omega
      simp [h8, h32, hj, this]
    · have : 8 - n % 8 ≤ j := by omega
      simp [h8, h32, hj, this]
  · simp [h8]

theorem getBit_clearRest (a : Nat) (mem : Mem) (n m : Nat) (hm : m < n) :
    getBit (clearRest (some a) mem n (maskOf n)) a m = getBit mem a m := by
  by_cases h : n % 8 = 0
  · rw [clearRest_aligned a mem n _ h]
  · unfold getBit
    by_cases hb : m / 8 = n / 8
    · rw [hb, clearRest_testBit a mem n _ h]
      have : 8 - n % 8 ≤ 7 - m % 8 := by omega
      simp [this]
    · unfold load
      rw [clearRest_other a mem n _ _ (by omega)]

theorem xfer_eq (c : Consts) (e : Env) (n : Nat) (dout din : Option Nat) (intr : Bool)
    (mem : Mem) (w : World) :
    e1000_spi_xfer c e n dout din intr mem w =
      if (xferLoopOf c e n dout din intr mem w).cancelled
      then (-1, (xferLoopOf c e n dout din intr mem w).mem, (xferLoopOf c e n dout din intr mem w).w)
      else (0, clearRest din (xferLoopOf c e n dout din intr mem w).mem
          (xferLoopOf c e n dout din intr mem w).i (xferLoopOf c e n dout din intr mem w).mask,
        (xferLoopOf c e n dout din intr mem w).w) := by
  simp only [e1000_spi_xfer, xferLoopOf, READ_REG, World.log, maskOf_zero, rdAt, xferCall]

theorem xfer_ret (c : Consts) (e : Env) (n : Nat) (dout din : Option Nat) (intr : Bool)
    (mem : Mem) (w : World) :
    (e1000_spi_xfer c e n dout din intr mem w).1 =
      if (xferLoopOf c e n dout din intr mem w).cancelled then -1 else 0 := by
  rw [xfer_eq]
  split <;> rfl

theorem xfer_ok (c : Consts) (e : Env) (n : Nat) (dout din : Option Nat) (intr : Bool)
    (mem : Mem) (w : World) (hok : (e1000_spi_xfer c e n dout din intr mem w).1 = 0) :
    (xferLoopOf c e n dout din intr mem w).cancelled = false := by
  rw [xfer_ret] at hok
  cases h : (xferLoopOf c e n dout din intr mem w).cancelled
  · rfl
  · rw [h] at hok; simp at hok

/-- A transfer that meets no pending cancellation succeeds. -/
theorem xfer_nocancel (c : Consts) (e : Env) (n : Nat) (dout din : Option Nat) (intr : Bool)
    (mem : Mem) (w : World) (h : intr = true → ∀ j, j < n → e.ctrl (w.nctrl + j) = false) :
    (e1000_spi_xfer c e n dout din intr mem w).1 = 0 := by
  have hc := xfer_loop_nocancel c e dout din intr n 0 (maskOf 0) (rdAt e w.nread) mem
    ⟨w.nread + 1, w.nctrl, w.writes, w.calls ++ [xferCall n dout din intr mem]⟩ h
  rw [xfer_ret, xferLoopOf, hc]
  rfl

/-- The state after a successful transfer. -/
theorem xfer_ok_state (c : Consts) (e : Env) (n : Nat) (dout din : Option Nat) (intr : Bool)
    (mem : Mem) (w : World) (hok : (e1000_spi_xfer c e n dout din intr mem w).1 = 0) :
    (e1000_spi_xfer c e n dout din intr mem w).2.1
      = clearRest din (captureAll c e din n 0 (w.nread + 1) mem) n (maskOf n) ∧
    (e1000_spi_xfer c e n dout din intr mem w).2.2.nread = w.nread + 1 + n ∧
    (e1000_spi_xfer c e n dout din intr mem w).2.2.calls
      = w.calls ++ [xferCall n dout din intr mem] ∧
    (e1000_spi_xfer c e n dout din intr mem w).2.2.nctrl = w.nctrl + (if intr then n else 0) ∧
    (intr = true → ∀ j, j < n → e.ctrl (w.nctrl + j) = false) := by
  have hc := xfer_ok c e n dout din intr mem w hok
  rw [xfer_eq, hc]
  unfold xferLoopOf at hc ⊢
  obtain ⟨h1, h2, h3, h4, h5, h6, h7⟩ := xfer_loop_ok c e dout din intr n 0 _ mem _ hc
  simp only [Bool.false_eq_true, if_false]
  rw [h1, h2, h3, h4, h5, h6]
  simp only [Nat.zero_add]
  exact ⟨trivial, trivial, trivial, trivial, h7⟩

/-- The register writes of a successful transfer. -/
theorem xfer_ok_writes (c : Consts) (e : Env) (n : Nat) (dout din : Option Nat) (intr : Bool)
    (mem : Mem) (w : World) (hal : AliasOK dout din n)
    (hok : (e1000_spi_xfer c e n dout din intr mem w).1 = 0) :
    (e1000_spi_xfer c e n dout din intr mem w).2.2.writes
      = w.writes ++ xferWrites c e (fun m => outbit dout mem m (maskOf m)) n 0
          (rdAt e w.nread) (w.nread + 1) := by
  have hc := xfer_ok c e n dout din intr mem w hok
  rw [xfer_eq, hc]
  unfold xferLoopOf at hc ⊢
  simp only [Bool.false_eq_true, if_false]
  rw [xfer_loop_writes c e dout din intr n 0 _ mem _ (by simpa using hal) hc]

theorem outbit_eq (dout : Option Nat) (mem : Mem) (i : Nat) :
    outbit dout mem i (maskOf i) = outBitAt dout mem i := by
  cases dout with
  | none => rfl
  | some d => rw [outbit_some]; rfl

/-- Bit `i` of the destination after a successful transfer is the SO bit of
the read of iteration `i`. -/
theorem xfer_din_bit (c : Consts) (e : Env) (n : Nat) (dout : Option Nat) (a : Nat)
    (intr : Bool) (mem : Mem) (w : World)
    (hok : (e1000_spi_xfer c e n dout (some a) intr mem w).1 = 0) (i : Nat) (hi : i < n) :
    getBit (e1000_spi_xfer c e n dout (some a) intr mem w).2.1 a i
      = (rdAt e (w.nread + 1 + i) &&& c.E1000_FL_SO != 0) := by
  rw [(xfer_ok_state c e n dout (some a) intr mem w hok).1, getBit_clearRest a _ n i hi,
    getBit_captureAll, if_pos (by omega)]
  simp

/-- A successful transfer leaves the bytes outside the destination as they
were. -/
theorem xfer_din_other (c : Consts) (e : Env) (n : Nat) (dout : Option Nat) (a : Nat)
    (intr : Bool) (mem : Mem) (w : World)
    (hok : (e1000_spi_xfer c e n dout (some a) intr mem w).1 = 0) (x : Nat)
    (hx : x < a ∨ a + (n + 7) / 8 ≤ x) :
    (e1000_spi_xfer c e n dout (some a) intr mem w).2.1 x = mem x := by
  rw [(xfer_ok_state c e n dout (some a) intr mem w hok).1]
  by_cases h : n % 8 = 0
  · rw [clearRest_aligned a _ n _ h, captureAll_other]
    omega
  · rw [clearRest_other a _ n _ x (by omega), captureAll_other]
    omega

/-- Cancelled or not, the bit loop keeps the call log, and without a
destination the memory. -/
theorem xfer_loop_frame (c : Consts) (e : Env) (dout din : Option Nat) (intr : Bool) :
    ∀ (k i mask fla : Nat) (mem : Mem) (w : World),
      (xfer_loop c e dout din intr k i mask fla mem w).w.calls = w.calls ∧
      (din = none → (xfer_loop c e dout din intr k i mask fla mem w).mem = mem) := by
  intro k
  induction k with
  | zero => intro i mask fla mem w; exact ⟨rfl, fun _ => rfl⟩
  | succ k ih =>
    intro i mask fla mem w
    by_cases h : intr = true ∧ e.ctrl w.nctrl = true
    · obtain ⟨hi, hc⟩ := h
      subst hi
      rw [xfer_loop_stop c e dout din k i mask fla mem w hc]
      exact ⟨rfl, fun _ => rfl⟩
    · have h0 : intr = true → e.ctrl w.nctrl = false := by
        intro hi
        cases hc : e.ctrl w.nctrl
        · rfl
        · exact absurd ⟨hi, hc⟩ h
      rw [xfer_loop_go c e dout din intr k i mask fla mem w h0]
      obtain ⟨h1, h2⟩ := ih (i + 1) (nextMask mask)
        (xfer_body c e dout din i mask fla mem (afterChk intr w)).1
        (xfer_body c e dout din i mask fla mem (afterChk intr w)).2.1
        (xfer_body c e dout din i mask fla mem (afterChk intr w)).2.2
      refine ⟨by rw [h1, xfer_body_calls, afterChk_calls], fun hd => ?_⟩
      rw [h2 hd, xfer_body_mem]
      subst hd
      rfl

/-- A transfer without destination leaves the memory as it was. -/
theorem xfer_din_none (c : Consts) (e : Env) (n : Nat) (dout : Option Nat)
    (intr : Bool) (mem : Mem) (w : World) :
    (e1000_spi_xfer c e n dout none intr mem w).2.1 = mem := by
  rw [xfer_eq]
  split
  · exact (xfer_loop_frame c e dout none intr n 0 _ _ mem _).2 rfl
  · rw [clearRest_none]
    exact (xfer_loop_frame c e dout none intr n 0 _ _ mem _).2 rfl

/-- Every transfer appends exactly its own record to the call log. -/
theorem xfer_calls (c : Consts) (e : Env) (n : Nat) (dout din : Option Nat)
    (intr : Bool) (mem : Mem) (w : World) :
    (e1000_spi_xfer c e n dout din intr mem w).2.2.calls
      = w.calls ++ [xferCall n dout din intr mem] := by
  rw [xfer_eq]
  split <;> exact (xfer_loop_frame c e dout din intr n 0 _ _ mem _).1

/-- The three register writes of iteration `i` of a successful transfer. -/
theorem xfer_writes_get (c : Consts) (e : Env) (n : Nat) (dout din : Option Nat)
    (intr : Bool) (mem : Mem) (w : World) (hal : AliasOK dout din n)
    (hok : (e1000_spi_xfer c e n dout din intr mem w).1 = 0) (i : Nat) (hi : i < n) :
    (e1000_spi_xfer c e n dout din intr mem w).2.2.writes[w.writes.length + 3 * i]?
      = some (setSI c (flaIn c e (rdAt e w.nread) (w.nread + 1) i) (outBitAt dout mem i)) ∧
    (e1000_spi_xfer c e n dout din intr mem w).2.2.writes[w.writes.length + (3 * i + 1)]?
      = some (setSI c (flaIn c e (rdAt e w.nread) (w.nread + 1) i) (outBitAt dout mem i)
          ||| c.E1000_FL_NVM_SK) ∧
    (e1000_spi_xfer c e n dout din intr mem w).2.2.writes[w.writes.length + (3 * i + 2)]?
      = some (rdAt e (w.nread + 1 + i) &&& bnot32 c.E1000_FL_NVM_SK) ∧
    (e1000_spi_xfer c e n dout din intr mem w).2.2.writes.length = w.writes.length + 3 * n := by
  obtain ⟨h1, h2, h3⟩ := xferWrites_get c e (fun m => outbit dout mem m (maskOf m)) n 0
    (rdAt e w.nread) (w.nread + 1) i hi
  rw [Nat.zero_add, outbit_eq] at h1 h2
  rw [xfer_ok_writes c e n dout din intr mem w hal hok]
  refine ⟨?_, ?_, ?_, ?_⟩
  · rw [List.getElem?_append_right (by omega)]
    simpa using h1
  · rw [List.getElem?_append_right (by omega)]
    simpa using h2
  · rw [List.getElem?_append_right (by omega)]
    simpa using h3
  · rw [List.length_append, xferWrites_length]

theorem bytes_eq_iff (m1 m2 : Mem) (a d L : Nat) :
    bytes m1 a L = bytes m2 d L ↔ ∀ x, x < L → load m1 (a + x) = load m2 (d + x) := by
  unfold bytes
  rw [List.map_inj_left]
  simp only [List.mem_range]

theorem load_lt (mem : Mem) (a : Nat) : load mem a < 256 := Nat.mod_lt _ (by norm_num)

theorem load_testBit_ge (mem : Mem) (a j : Nat) (hj : 8 ≤ j) : (load mem a).testBit j = false := by
  apply Nat.testBit_lt_two_pow
  calc load mem a < 256 := load_lt mem a
    _ = 2 ^ 8 := by norm_num
    _ ≤ 2 ^ j := Nat.pow_le_pow_right (by norm_num) hj

/-- Two bytes are equal when their eight bits are. -/
theorem load_eq_of_bits (m1 m2 : Mem) (a d : Nat)
    (h : ∀ j, j < 8 → (load m1 a).testBit j = (load m2 d).testBit j) : load m1 a = load m2 d := by
  apply Nat.eq_of_testBit_eq
  intro j
  by_cases hj : j < 8
  · exact h j hj
  · rw [load_testBit_ge _ _ _ (by omega), load_testBit_ge _ _ _ (by omega)]

/-! ## The transfer: output bits, input bits, trailing bits -/

/-- C1: in a transfer of `n` bits that returns success (is not cancelled),
for every `i < n` the value `v` written before the `i`-th rising clock edge
(register write `3 * i` of the transfer) and the value `v ||| SK` written at
that edge (register write `3 * i + 1`) have the SI bit set exactly when bit
`7 - i mod 8` of byte `i div 8` of the source buffer is set; without a source
buffer (`outBitAt none` is `false`) SI is clear in all of them.  SI is one
register bit, different from SK; source and destination are the same
buffer or disjoint. -/
theorem C1_xfer_output_bits (c : Consts) (e : Env) (n : Nat) (dout din : Option Nat)
    (intr : Bool) (mem : Mem) (w : World)
    (hSI : IsBit c.E1000_FL_SI) (hSK : c.E1000_FL_NVM_SK &&& c.E1000_FL_SI = 0)
    (hal : AliasOK dout din n)
    (hok : (e1000_spi_xfer c e n dout din intr mem w).1 = 0) (i : Nat) (hi : i < n) :
    ∃ v, (e1000_spi_xfer c e n dout din intr mem w).2.2.writes[w.writes.length + 3 * i]?
          = some v ∧
      (e1000_spi_xfer c e n dout din intr mem w).2.2.writes[w.writes.length + (3 * i + 1)]?
          = some (v ||| c.E1000_FL_NVM_SK) ∧
      (v &&& c.E1000_FL_SI != 0) = outBitAt dout mem i ∧
      ((v ||| c.E1000_FL_NVM_SK) &&& c.E1000_FL_SI != 0) = outBitAt dout mem i := by
  obtain ⟨h1, h2, _, _⟩ := xfer_writes_get c e n dout din intr mem w hal hok i hi
  exact ⟨_, h1, h2, by rw [setSI_test c _ _ hSI],
    by rw [or_test _ _ _ hSI hSK, setSI_test c _ _ hSI]⟩

/-- C1 at a concrete transfer: 12 bits of the bytes `A5 F0`, bit 3. -/
theorem C1_xfer_output_bits_witness :
    (e1000_spi_xfer exampleConsts exampleEnv 12 (some 0) none false (opMem [0xA5, 0xF0])
        World.init).1 = 0 ∧
    ∃ v, (e1000_spi_xfer exampleConsts exampleEnv 12 (some 0) none false (opMem [0xA5, 0xF0])
          World.init).2.2.writes[World.init.writes.length + 3 * 3]? = some v ∧
      (e1000_spi_xfer exampleConsts exampleEnv 12 (some 0) none false (opMem [0xA5, 0xF0])
          World.init).2.2.writes[World.init.writes.length + (3 * 3 + 1)]?
          = some (v ||| exampleConsts.E1000_FL_NVM_SK) ∧
      (v &&& exampleConsts.E1000_FL_SI != 0) = outBitAt (some 0) (opMem [0xA5, 0xF0]) 3 ∧
      ((v ||| exampleConsts.E1000_FL_NVM_SK) &&& exampleConsts.E1000_FL_SI != 0)
        = outBitAt (some 0) (opMem [0xA5, 0xF0]) 3 :=
  ⟨by decide,
   C1_xfer_output_bits exampleConsts exampleEnv 12 (some 0) none false (opMem [0xA5, 0xF0])
    World.init ⟨2, by decide, rfl⟩ (by decide) (fun _ _ _ h => by cases h) (by decide) 3
    (by decide)⟩

/-- C2: after a transfer of `n` bits into the destination at `a` returns
success, for every `i < n` bit `7 - i mod 8` of destination byte `i div 8`
is the SO bit of the register value read right after the `i`-th rising clock
edge (the read of iteration `i`, which follows the pre-read of the
transfer), and every byte outside the first `ceil(n/8)` bytes of the
destination is unchanged. -/
theorem C2_xfer_input_bits (c : Consts) (e : Env) (n : Nat) (dout : Option Nat) (a : Nat)
    (intr : Bool) (mem : Mem) (w : World)
    (hok : (e1000_spi_xfer c e n dout (some a) intr mem w).1 = 0) :
    (∀ i, i < n →
      (load (e1000_spi_xfer c e n dout (some a) intr mem w).2.1 (a + i / 8)).testBit (7 - i % 8)
        = (e.reads (w.nread + 1 + i) % 4294967296 &&& c.E1000_FL_SO != 0)) ∧
    (∀ x, x < a ∨ a + (n + 7) / 8 ≤ x →
      (e1000_spi_xfer c e n dout (some a) intr mem w).2.1 x = mem x) :=
  ⟨fun i hi => xfer_din_bit c e n dout a intr mem w hok i hi,
   fun x hx => xfer_din_other c e n dout a intr mem w hok x hx⟩

/-- C2 at a concrete transfer: 12 bits captured into a buffer of `FF`s. -/
theorem C2_xfer_input_bits_witness :
    (e1000_spi_xfer exampleConsts exampleEnv 12 none (some 0) false (opMem [0xFF, 0xFF, 0xFF])
        World.init).1 = 0 ∧
    (∀ i, i < 12 →
      (load (e1000_spi_xfer exampleConsts exampleEnv 12 none (some 0) false
          (opMem [0xFF, 0xFF, 0xFF]) World.init).2.1 (0 + i / 8)).testBit (7 - i % 8)
        = (exampleEnv.reads (World.init.nread + 1 + i) % 4294967296
            &&& exampleConsts.E1000_FL_SO != 0)) ∧
    (∀ x, x < 0 ∨ 0 + (12 + 7) / 8 ≤ x →
      (e1000_spi_xfer exampleConsts exampleEnv 12 none (some 0) false
          (opMem [0xFF, 0xFF, 0xFF]) World.init).2.1 x = opMem [0xFF, 0xFF, 0xFF] x) :=
  ⟨by decide,
   C2_xfer_input_bits exampleConsts exampleEnv 12 none 0 false (opMem [0xFF, 0xFF, 0xFF])
    World.init (by decide)⟩

/-- C3: after a transfer of `n` bits, `n` not a multiple of 8, into the
destination at `a` returns success, the low `8 - n mod 8` bits of
destination byte `n div 8` are zero and its high `n mod 8` bits hold the
captured input bits: bit `j` is the SO bit read in iteration
`8 * (n div 8) + (7 - j)`. -/
theorem C3_xfer_trailing_bits (c : Consts) (e : Env) (n : Nat) (dout : Option Nat) (a : Nat)
    (intr : Bool) (mem : Mem) (w : World) (hn : n % 8 ≠ 0)
    (hok : (e1000_spi_xfer c e n dout (some a) intr mem w).1 = 0) :
    (∀ j, j < 8 - n % 8 →
      (load (e1000_spi_xfer c e n dout (some a) intr mem w).2.1 (a + n / 8)).testBit j = false) ∧
    (∀ j, 8 - n % 8 ≤ j → j < 8 →
      (load (e1000_spi_xfer c e n dout (some a) intr mem w).2.1 (a + n / 8)).testBit j
        = (e.reads (w.nread + 1 + (8 * (n / 8) + (7 - j))) % 4294967296
            &&& c.E1000_FL_SO != 0)) := by
  constructor
  · intro j hj
    rw [(xfer_ok_state c e n dout (some a) intr mem w hok).1, clearRest_testBit a _ n j hn]
    have : ¬ (8 - n % 8 ≤ j) := by omega
    simp [this]
  · intro j hj1 hj2
    have hlt : 8 * (n / 8) + (7 - j) < n := by omega
    have := xfer_din_bit c e n dout a intr mem w hok _ hlt
    unfold getBit at this
    have e1 : (8 * (n / 8) + (7 - j)) / 8 = n / 8 := by omega
    have e2 : 7 - (8 * (n / 8) + (7 - j)) % 8 = j := by omega
    rw [e1, e2] at this
    exact this

/-- C3 at a concrete transfer: 12 bits captured into a buffer of `FF`s. -/
theorem C3_xfer_trailing_bits_witness :
    12 % 8 ≠ 0 ∧
    (e1000_spi_xfer exampleConsts exampleEnv 12 none (some 0) false (opMem [0xFF, 0xFF, 0xFF])
        World.init).1 = 0 ∧
    (∀ j, j < 8 - 12 % 8 →
      (load (e1000_spi_xfer exampleConsts exampleEnv 12 none (some 0) false
          (opMem [0xFF, 0xFF, 0xFF]) World.init).2.1 (0 + 12 / 8)).testBit j = false) ∧
    (∀ j, 8 - 12 % 8 ≤ j → j < 8 →
      (load (e1000_spi_xfer exampleConsts exampleEnv 12 none (some 0) false
          (opMem [0xFF, 0xFF, 0xFF]) World.init).2.1 (0 + 12 / 8)).testBit j
        = (exampleEnv.reads (World.init.nread + 1 + (8 * (12 / 8) + (7 - j))) % 4294967296
            &&& exampleConsts.E1000_FL_SO != 0)) :=
  ⟨by decide, by decide,
   C3_xfer_trailing_bits exampleConsts exampleEnv 12 none 0 false (opMem [0xFF, 0xFF, 0xFF])
    World.init (by decide) (by decide)⟩

/-! ## Round trip through a loopback slave -/

/-- C4 (amended): shift the buffer at `d` out with a first transfer of `n`
bits while a slave records the SI bit at each rising clock edge (register
write `3 * i + 1` of the transfer), then capture `n` bits into the buffer at
`a` with a second transfer during which the slave replays the recorded bits
on SO in order.  Then the first `n` bits of the captured buffer are those of
the source, the remaining low bits of its last byte are zero when `n` is not
a multiple of 8, and the captured `ceil(n/8)` bytes equal the source bytes
exactly when `n` is a multiple of 8 or those low bits are zero in the source
as well. -/
theorem C4_loopback_roundtrip (c : Consts) (e1 e2 : Env) (n d a : Nat) (intr1 intr2 : Bool)
    (mem1 mem2 : Mem) (w1 w2 : World)
    (hSI : IsBit c.E1000_FL_SI) (hSK : c.E1000_FL_NVM_SK &&& c.E1000_FL_SI = 0)
    (hok1 : (e1000_spi_xfer c e1 n (some d) none intr1 mem1 w1).1 = 0)
    (hok2 : (e1000_spi_xfer c e2 n none (some a) intr2 mem2 w2).1 = 0)
    (hecho : ∀ i, i < n →
      (e2.reads (w2.nread + 1 + i) % 4294967296 &&& c.E1000_FL_SO != 0)
        = ((e1000_spi_xfer c e1 n (some d) none intr1 mem1 w1).2.2.writes.getD
            (w1.writes.length + (3 * i + 1)) 0 &&& c.E1000_FL_SI != 0)) :
    (∀ i, i < n →
      (load (e1000_spi_xfer c e2 n none (some a) intr2 mem2 w2).2.1 (a + i / 8)).testBit
          (7 - i % 8)
        = (load mem1 (d + i / 8)).testBit (7 - i % 8)) ∧
    (n % 8 ≠ 0 → ∀ j, j < 8 - n % 8 →
      (load (e1000_spi_xfer c e2 n none (some a) intr2 mem2 w2).2.1 (a + n / 8)).testBit j
        = false) ∧
    (bytes (e1000_spi_xfer c e2 n none (some a) intr2 mem2 w2).2.1 a ((n + 7) / 8)
        = bytes mem1 d ((n + 7) / 8) ↔
      (n % 8 ≠ 0 → ∀ j, j < 8 - n % 8 → (load mem1 (d + n / 8)).testBit j = false)) := by
  have hbits : ∀ i, i < n →
      (load (e1000_spi_xfer c e2 n none (some a) intr2 mem2 w2).2.1 (a + i / 8)).testBit
          (7 - i % 8)
        = (load mem1 (d + i / 8)).testBit (7 - i % 8) := by
    intro i hi
    have h2 := xfer_din_bit c e2 n none a intr2 mem2 w2 hok2 i hi
    unfold getBit rdAt at h2
    obtain ⟨_, hw, _, _⟩ := xfer_writes_get c e1 n (some d) none intr1 mem1 w1
      (fun _ _ _ h => by cases h) hok1 i hi
    rw [h2, hecho i hi, List.getD_eq_getElem?_getD, hw, Option.getD_some,
      or_test _ _ _ hSI hSK, setSI_test c _ _ hSI]
    rfl
  have hzero : n % 8 ≠ 0 → ∀ j, j < 8 - n % 8 →
      (load (e1000_spi_xfer c e2 n none (some a) intr2 mem2 w2).2.1 (a + n / 8)).testBit j
        = false := by
    intro hn j hj
    rw [(xfer_ok_state c e2 n none (some a) intr2 mem2 w2 hok2).1, clearRest_testBit a _ n j hn]
    have : ¬ (8 - n % 8 ≤ j) := by omega
    simp [this]
  refine ⟨hbits, hzero, ?_⟩
  rw [bytes_eq_iff]
  constructor
  · intro h hn j hj
    rw [← h (n / 8) (by omega)]
    exact hzero hn j hj
  · intro h x hx
    apply load_eq_of_bits
    intro j hj
    by_cases hm : 8 * x + (7 - j) < n
    · have := hbits _ hm
      have e1 : (8 * x + (7 - j)) / 8 = x := by omega
      have e2 : 7 - (8 * x + (7 - j)) % 8 = j := by omega
      rw [e1, e2] at this
      exact this
    · have hx2 : x = n / 8 := by omega
      have hn : n % 8 ≠ 0 := by omega
      subst hx2
      rw [hzero hn j (by omega), h hn j (by omega)]

/-- C4 at a concrete round trip: 12 bits of the bytes `A5 F0`, whose four
trailing bits are zero, come back unchanged. -/
theorem C4_loopback_roundtrip_witness :
    (e1000_spi_xfer exampleConsts exampleEnv 12 (some 0) none false (opMem [0xA5, 0xF0])
        World.init).1 = 0 ∧
    bytes (e1000_spi_xfer exampleConsts
        (replayEnv exampleConsts (recordSI exampleConsts
          (e1000_spi_xfer exampleConsts exampleEnv 12 (some 0) none false (opMem [0xA5, 0xF0])
            World.init).2.2.writes 0 12))
        12 none (some 0) false (opMem [0x11, 0x22]) World.init).2.1 0 ((12 + 7) / 8)
      = bytes (opMem [0xA5, 0xF0]) 0 ((12 + 7) / 8) :=
  ⟨by decide,
   (C4_loopback_roundtrip exampleConsts exampleEnv
      (replayEnv exampleConsts (recordSI exampleConsts
          (e1000_spi_xfer exampleConsts exampleEnv 12 (some 0) none false (opMem [0xA5, 0xF0])
            World.init).2.2.writes 0 12))
      12 0 0 false false (opMem [0xA5, 0xF0]) (opMem [0x11, 0x22]) World.init World.init
      ⟨2, by decide, rfl⟩ (by decide) (by decide) (by decide) (by decide)).2.2.mpr (by decide)⟩

/-- C4 as stated fails: 4 bits of the one-byte buffer `FF` through the
loopback come back as `F0`. -/
theorem C4_counterexample :
    (e1000_spi_xfer exampleConsts exampleEnv 4 (some 0) none false (opMem [0xFF])
        World.init).1 = 0 ∧
    (e1000_spi_xfer exampleConsts
        (replayEnv exampleConsts (recordSI exampleConsts
          (e1000_spi_xfer exampleConsts exampleEnv 4 (some 0) none false (opMem [0xFF])
            World.init).2.2.writes 0 4))
        4 none (some 0) false (opMem [0x00]) World.init).1 = 0 ∧
    (∀ i, i < 4 →
      ((replayEnv exampleConsts (recordSI exampleConsts
          (e1000_spi_xfer exampleConsts exampleEnv 4 (some 0) none false (opMem [0xFF])
            World.init).2.2.writes 0 4)).reads (World.init.nread + 1 + i) % 4294967296
          &&& exampleConsts.E1000_FL_SO != 0)
        = ((e1000_spi_xfer exampleConsts exampleEnv 4 (some 0) none false (opMem [0xFF])
            World.init).2.2.writes.getD (World.init.writes.length + (3 * i + 1)) 0
          &&& exampleConsts.E1000_FL_SI != 0)) ∧
    bytes (opMem [0xFF]) 0 ((4 + 7) / 8) = [0xFF] ∧
    bytes (e1000_spi_xfer exampleConsts
        (replayEnv exampleConsts (recordSI exampleConsts
          (e1000_spi_xfer exampleConsts exampleEnv 4 (some 0) none false (opMem [0xFF])
            World.init).2.2.writes 0 4))
        4 none (some 0) false (opMem [0x00]) World.init).2.1 0 ((4 + 7) / 8) = [0xF0] ∧
    bytes (e1000_spi_xfer exampleConsts
        (replayEnv exampleConsts (recordSI exampleConsts
          (e1000_spi_xfer exampleConsts exampleEnv 4 (some 0) none false (opMem [0xFF])
            World.init).2.2.writes 0 4))
        4 none (some 0) false (opMem [0x00]) World.init).2.1 0 ((4 + 7) / 8)
      ≠ bytes (opMem [0xFF]) 0 ((4 + 7) / 8) := by
  decide

/-! ## Lemmas on the command layer -/

theorem NoCtrlC.mono {e : Env} {w w2 : World} (h : NoCtrlC e w) (hle : w.nctrl ≤ w2.nctrl) :
    NoCtrlC e w2 := fun k hk => h k (le_trans hle hk)

theorem standby_nread (c : Consts) (e : Env) (hw : e1000_hw) (w : World) :
    (e1000_standby_flash c e hw w).nread = w.nread + 1 := by
  unfold e1000_standby_flash; split <;> rfl

theorem standby_nctrl (c : Consts) (e : Env) (hw : e1000_hw) (w : World) :
    (e1000_standby_flash c e hw w).nctrl = w.nctrl := by
  unfold e1000_standby_flash; split <;> rfl

theorem standby_calls (c : Consts) (e : Env) (hw : e1000_hw) (w : World) :
    (e1000_standby_flash c e hw w).calls = w.calls ++ [.standby] := by
  unfold e1000_standby_flash; split <;> rfl

/-- A transfer started when Ctrl-C is no longer pressed. -/
theorem xfer_nc (c : Consts) (e : Env) (n : Nat) (dout din : Option Nat) (intr : Bool)
    (mem : Mem) (w : World) (hnc : NoCtrlC e w) :
    (e1000_spi_xfer c e n dout din intr mem w).1 = 0 ∧
    (e1000_spi_xfer c e n dout din intr mem w).2.2.nread = w.nread + 1 + n ∧
    (e1000_spi_xfer c e n dout din intr mem w).2.2.calls
      = w.calls ++ [xferCall n dout din intr mem] ∧
    NoCtrlC e (e1000_spi_xfer c e n dout din intr mem w).2.2 := by
  have hok := xfer_nocancel c e n dout din intr mem w (fun _ j _ => hnc _ (by omega))
  obtain ⟨_, h2, h3, h4, _⟩ := xfer_ok_state c e n dout din intr mem w hok
  exact ⟨hok, h2, h3, hnc.mono (by rw [h4]; omega)⟩

/-! ## Lemmas on status polling and the dump -/

theorem and_one_beq_zero (x : Nat) : (x &&& 1 == 0) = !x.testBit 0 := by
  have h := and_two_pow_bne_zero x 0
  rw [pow_zero] at h
  rw [← h]
  cases hx : (x &&& 1 == 0) <;> simp_all

/-- A status read when Ctrl-C is no longer pressed. -/
theorem read_status_nc (c : Consts) (e : Env) (hw : e1000_hw) (intr : Bool) (w : World)
    (hnc : NoCtrlC e w) :
    0 ≤ (e1000_spi_flash_read_status c e hw intr w).1 ∧
    ((e1000_spi_flash_read_status c e hw intr w).1.toNat &&& SPI_FLASH_STATUS_BUSY == 0)
      = !busyAt c e w.nread ∧
    (e1000_spi_flash_read_status c e hw intr w).2.nread = w.nread + 18 ∧
    (e1000_spi_flash_read_status c e hw intr w).2.calls = w.calls ++ statusCalls intr ∧
    NoCtrlC e (e1000_spi_flash_read_status c e hw intr w).2 := by
  have hnc1 : NoCtrlC e (e1000_standby_flash c e hw (w.log .read_status)) :=
    hnc.mono (by rw [standby_nctrl]; exact le_refl _)
  obtain ⟨hok, hn, hcalls, hnc2⟩ := xfer_nc c e (8 * 2) (some 0) (some 0) intr
    (opMem [SPI_FLASH_READ_STATUS, 0]) _ hnc1
  have hbit := xfer_din_bit c e (8 * 2) (some 0) 0 intr (opMem [SPI_FLASH_READ_STATUS, 0]) _
    hok 15 (by norm_num)
  unfold getBit at hbit
  have e1 : 0 + 15 / 8 = 1 := by norm_num
  have e2 : 7 - 15 % 8 = 0 := by norm_num
  rw [e1, e2] at hbit
  rw [standby_nread] at hbit hn
  rw [standby_calls] at hcalls
  unfold e1000_spi_flash_read_status
  simp only [hok, ne_eq, not_true_eq_false, if_false]
  refine ⟨Int.natCast_nonneg _, ?_, ?_, ?_, hnc2⟩
  · rw [Int.toNat_natCast, SPI_FLASH_STATUS_BUSY, and_one_beq_zero, hbit]
    unfold busyAt World.log
    simp only [Nat.add_assoc]
  · rw [hn]; simp [World.log]
  · rw [hcalls]; simp [World.log, statusCalls, xferCall, bytes, load, opMem, SPI_FLASH_READ_STATUS]
    decide

/-- One round of the poll loop when Ctrl-C is no longer pressed. -/
theorem poll_loop_step (c : Consts) (e : Env) (hw : e1000_hw) (intr : Bool) (f : Nat) (w : World)
    (hnc : NoCtrlC e w) :
    poll_loop c e hw intr (f + 1) w =
      if busyAt c e w.nread then poll_loop c e hw intr f (e1000_spi_flash_read_status c e hw intr w).2
      else some (0, (e1000_spi_flash_read_status c e hw intr w).2) := by
  obtain ⟨h0, hb, _⟩ := read_status_nc c e hw intr w hnc
  simp only [poll_loop, ge_iff_le, h0, if_true, hb]
  cases busyAt c e w.nread <;> simp

/-- The poll loop returns success once the FLASH reports not busy. -/
theorem poll_loop_ready (c : Consts) (e : Env) (hw : e1000_hw) (intr : Bool) :
    ∀ (m : Nat) (w : World), NoCtrlC e w → busyAt c e (w.nread + 18 * m) = false →
      ∃ m0 w2, m0 ≤ m ∧
        (∀ fuel, m0 + 1 ≤ fuel → poll_loop c e hw intr fuel w = some (0, w2)) ∧
        w2.nread = w.nread + 18 * (m0 + 1) ∧
        w2.calls = w.calls ++ pollCalls intr (m0 + 1) ∧ NoCtrlC e w2 := by
  intro m
  induction m with
  | zero =>
    intro w hnc hb
    obtain ⟨_, _, hn, hcalls, hnc2⟩ := read_status_nc c e hw intr w hnc
    refine ⟨0, (e1000_spi_flash_read_status c e hw intr w).2, le_refl _, ?_, by rw [hn], ?_, hnc2⟩
    · intro fuel hf
      obtain ⟨f, rfl⟩ : ∃ f, fuel = f + 1 := ⟨fuel - 1, by omega⟩
      rw [poll_loop_step c e hw intr f w hnc]
      simp only [Nat.mul_zero, Nat.add_zero] at hb
      simp [hb]
    · rw [hcalls]; simp [pollCalls]
  | succ m ih =>
    intro w hnc hb
    obtain ⟨_, _, hn, hcalls, hnc2⟩ := read_status_nc c e hw intr w hnc
    by_cases hnow : busyAt c e w.nread = false
    · refine ⟨0, (e1000_spi_flash_read_status c e hw intr w).2, Nat.zero_le _, ?_, by rw [hn], ?_,
        hnc2⟩
      · intro fuel hf
        obtain ⟨f, rfl⟩ : ∃ f, fuel = f + 1 := ⟨fuel - 1, by omega⟩
        rw [poll_loop_step c e hw intr f w hnc]
        simp [hnow]
      · rw [hcalls]; simp [pollCalls]
    · have hnow2 : busyAt c e w.nread = true := by simpa using hnow
      have hb2 : busyAt c e ((e1000_spi_flash_read_status c e hw intr w).2.nread + 18 * m)
          = false := by
        rw [hn, ← hb]; congr 1; omega
      obtain ⟨m0, w2, hm0, hrun, hn2, hc2, hnc3⟩ := ih _ hnc2 hb2
      refine ⟨m0 + 1, w2, by omega, ?_, by rw [hn2, hn]; omega, ?_, hnc3⟩
      · intro fuel hf
        obtain ⟨f, rfl⟩ : ∃ f, fuel = f + 1 := ⟨fuel - 1, by omega⟩
        rw [poll_loop_step c e hw intr f w hnc, hnow2, if_pos rfl]
        exact hrun f (by omega)
      · rw [hc2, hcalls, List.append_assoc]
        rfl

/-- The poll loop never returns while the FLASH stays busy. -/
theorem poll_loop_busy (c : Consts) (e : Env) (hw : e1000_hw) (intr : Bool)
    (hbusy : ∀ k, busyAt c e k = true) :
    ∀ (fuel : Nat) (w : World), NoCtrlC e w → poll_loop c e hw intr fuel w = none := by
  intro fuel
  induction fuel with
  | zero => intro w _; rfl
  | succ f ih =>
    intro w hnc
    rw [poll_loop_step c e hw intr f w hnc, hbusy, if_pos rfl]
    exact ih _ (read_status_nc c e hw intr w hnc).2.2.2.2

/-- The wait for the FLASH returns success once it reports not busy. -/
theorem poll_ready_ready (c : Consts) (e : Env) (hw : e1000_hw) (intr : Bool) (m : Nat)
    (w : World) (hnc : NoCtrlC e w) (hb : busyAt c e (w.nread + 18 * m) = false) :
    ∃ m0 w2, m0 ≤ m ∧
      (∀ fuel, m0 + 1 ≤ fuel → e1000_spi_flash_poll_ready c e hw intr fuel w = some (0, w2)) ∧
      w2.nread = w.nread + 18 * (m0 + 1) ∧
      w2.calls = w.calls ++ Call.poll_ready :: pollCalls intr (m0 + 1) ∧ NoCtrlC e w2 := by
  obtain ⟨m0, w2, h1, h2, h3, h4, h5⟩ := poll_loop_ready c e hw intr m (w.log .poll_ready)
    hnc hb
  refine ⟨m0, w2, h1, h2, h3, ?_, h5⟩
  rw [h4]; simp [World.log]

theorem readPages_append (l1 l2 : List Call) :
    readPages (l1 ++ l2) = readPages l1 ++ readPages l2 := by
  induction l1 with
  | nil => rfl
  | cons a l ih => cases a <;> simp [readPages, ih]

theorem readPages_pollCalls (intr : Bool) : ∀ m, readPages (pollCalls intr m) = [] := by
  intro m
  induction m with
  | zero => rfl
  | succ m ih => simp [pollCalls, statusCalls, readPages, ih]

/-- A page read when Ctrl-C is no longer pressed. -/
theorem read_page_nc (c : Consts) (e : Env) (hw : e1000_hw) (data off len : Nat) (intr : Bool)
    (mem : Mem) (w : World) (hnc : NoCtrlC e w) :
    (e1000_spi_flash_read_page c e hw data off len intr mem w).1 = 0 ∧
    readPages (e1000_spi_flash_read_page c e hw data off len intr mem w).2.2.calls
      = readPages w.calls ++ [(off, len)] ∧
    NoCtrlC e (e1000_spi_flash_read_page c e hw data off len intr mem w).2.2 := by
  have hnc1 : NoCtrlC e (e1000_standby_flash c e hw (w.log (.read_page off len))) :=
    hnc.mono (by rw [standby_nctrl]; exact le_refl _)
  obtain ⟨hok1, _, hc1, hnc2⟩ := xfer_nc c e (8 + 24) (some 0) none intr
    (opMem [SPI_FLASH_READ_PAGE, (off >>> 16) &&& 0xff, (off >>> 8) &&& 0xff, off &&& 0xff])
    _ hnc1
  obtain ⟨hok2, _, hc2, hnc3⟩ := xfer_nc c e (len <<< 3) none (some data) intr mem _ hnc2
  unfold e1000_spi_flash_read_page
  simp only [hok1, hok2, ne_eq, not_true_eq_false, if_false]
  refine ⟨trivial, ?_, hnc3⟩
  rw [hc2, hc1, standby_calls]
  simp [World.log, readPages_append, readPages, xferCall]

theorem dump_pg_len_eq (hw : e1000_hw) (k off len : Nat) (hk : k ≤ 15)
    (hps : hw.page_size = 2 ^ k) :
    dump_pg_len hw off len = min (hw.page_size - off % hw.page_size) len := by
  have hpos : 0 < 2 ^ k := by positivity
  have hle : 2 ^ k ≤ 2 ^ 15 := Nat.pow_le_pow_right (by norm_num) hk
  have h15 : (2 : Nat) ^ 15 = 32768 := by norm_num
  have hmod : off % 2 ^ k < 2 ^ k := Nat.mod_lt _ hpos
  have hmask : (2 ^ k + 65535) % 65536 = 2 ^ k - 1 := by omega
  unfold dump_pg_len dump_pg_off
  rw [hps, hmask, Nat.and_pow_two_sub_one_eq_mod]
  have h1 : off % 2 ^ k % 65536 = off % 2 ^ k := Nat.mod_eq_of_lt (by omega)
  rw [h1]
  have h2 : (2 ^ k + 65536 - off % 2 ^ k) % 65536 = 2 ^ k - off % 2 ^ k := by omega
  rw [h2]
  simp only [gt_iff_lt]
  by_cases h : len < 2 ^ k - off % 2 ^ k
  · rw [if_pos h, Nat.min_eq_right (le_of_lt h)]
  · rw [if_neg h, Nat.min_eq_left (by omega)]

/-- The page loop of the dump when Ctrl-C is no longer pressed: it returns
success and its page reads form the chunking of the range. -/
theorem dump_loop_nc (c : Consts) (e : Env) (hw : e1000_hw) (intr : Bool) (k : Nat)
    (hk : k ≤ 15) (hps : hw.page_size = 2 ^ k) :
    ∀ (len data off : Nat) (mem : Mem) (w : World), NoCtrlC e w →
      ∃ mem2 w2 pages,
        (∀ fuel, len ≤ fuel → dump_loop c e hw intr fuel data off len mem w = some (0, mem2, w2)) ∧
        readPages w2.calls = readPages w.calls ++ pages ∧
        IsChunking hw.page_size off len pages ∧ NoCtrlC e w2 := by
  intro len
  induction len using Nat.strong_induction_on with
  | _ len ih =>
    intro data off mem w hnc
    by_cases hlen : len = 0
    · subst hlen
      refine ⟨mem, w, [], ?_, by simp, rfl, hnc⟩
      intro fuel _
      cases fuel <;> simp [dump_loop]
    · have hpos : 0 < 2 ^ k := by positivity
      have hmod : off % 2 ^ k < 2 ^ k := Nat.mod_lt _ hpos
      have hpl := dump_pg_len_eq hw k off len hk hps
      have hpl1 : 1 ≤ dump_pg_len hw off len := by
        rw [hpl, hps]; exact Nat.le_min.mpr ⟨by omega, by omega⟩
      have hpl2 : dump_pg_len hw off len ≤ len := by
        rw [hpl]; exact Nat.min_le_right _ _
      obtain ⟨hok, hrp, hnc2⟩ := read_page_nc c e hw data off (dump_pg_len hw off len) intr
        mem w hnc
      obtain ⟨mem2, w2, pages, hrun, hpages, hchunk, hnc3⟩ :=
        ih (len - dump_pg_len hw off len) (by omega) (data + dump_pg_len hw off len)
          ((off + dump_pg_len hw off len) % 65536) _ _ hnc2
      refine ⟨mem2, w2, (off, dump_pg_len hw off len) :: pages, ?_, ?_, ?_, hnc3⟩
      · intro fuel hf
        obtain ⟨f, rfl⟩ : ∃ f, fuel = f + 1 := ⟨fuel - 1, by omega⟩
        simp only [dump_loop, hlen, if_false, hok, ne_eq, not_true_eq_false]
        exact hrun f (by omega)
      · rw [hpages, hrp]; simp
      · exact ⟨by omega, rfl, hpl, hchunk⟩

theorem IsChunking_sum (ps : Nat) : ∀ (pages : List (Nat × Nat)) (off len : Nat),
    IsChunking ps off len pages → (pages.map Prod.snd).sum = len := by
  intro pages
  induction pages with
  | nil => intro off len h; simpa [IsChunking] using h.symm
  | cons p rest ih =>
    intro off len h
    obtain ⟨_, _, h3, h4⟩ := h
    have := ih _ _ h4
    have hle : p.2 ≤ len := by rw [h3]; exact Nat.min_le_right _ _
    simp only [List.map_cons, List.sum_cons, this]
    omega

theorem IsChunking_page (ps : Nat) (hps : 0 < ps) : ∀ (pages : List (Nat × Nat)) (off len : Nat),
    IsChunking ps off len pages → ∀ p ∈ pages, 1 ≤ p.2 ∧ p.1 % ps + p.2 ≤ ps := by
  intro pages
  induction pages with
  | nil => intro off len _ p hp; cases hp
  | cons q rest ih =>
    intro off len h p hp
    obtain ⟨h1, h2, h3, h4⟩ := h
    have hmod : off % ps < ps := Nat.mod_lt _ hps
    rcases List.mem_cons.mp hp with rfl | hp
    · rw [h2, h3]
      exact ⟨Nat.le_min.mpr ⟨by omega, by omega⟩,
        by have := Nat.min_le_left (ps - off % ps) len; omega⟩
    · exact ih _ _ h4 p hp

theorem IsChunking_example (pages : List (Nat × Nat)) (h : IsChunking 256 250 556 pages) :
    pages = [(250, 6), (256, 256), (512, 256), (768, 38)] := by
  match pages, h with
  | [p1, p2, p3, p4], ⟨_, a1, b1, _, a2, b2, _, a3, b3, _, a4, b4, _⟩ =>
    norm_num at b1; rw [b1] at a2 b2; norm_num at a2 b2; rw [b2] at a3 b3
    norm_num at a3 b3; rw [b3] at a4 b4; norm_num at a4 b4
    simp [Prod.ext_iff, a1, b1, a2, b2, a3, b3, a4, b4]
  | [], h => simp [IsChunking] at h
  | [p1], ⟨_, a1, b1, h⟩ => norm_num at b1; rw [b1] at h; simp [IsChunking] at h
  | [p1, p2], ⟨_, a1, b1, _, a2, b2, h⟩ =>
    norm_num at b1; rw [b1] at a2 b2 h; norm_num at a2 b2 h; rw [b2] at h
    simp [IsChunking] at h
  | [p1, p2, p3], ⟨_, a1, b1, _, a2, b2, _, a3, b3, h⟩ =>
    norm_num at b1; rw [b1] at a2 b2 a3 b3 h; norm_num at a2 b2 a3 b3 h
    rw [b2] at a3 b3 h; norm_num at a3 b3 h; rw [b3] at h
    simp [IsChunking] at h
  | p1 :: p2 :: p3 :: p4 :: p5 :: rest, ⟨_, a1, b1, _, a2, b2, _, a3, b3, _, a4, b4, h5, _⟩ =>
    norm_num at b1; rw [b1] at a2 b2 a3 b3 a4 b4 h5; norm_num at a2 b2 a3 b3 a4 b4 h5
    rw [b2] at a3 b3 a4 b4 h5; norm_num at a3 b3 a4 b4 h5
    rw [b3] at a4 b4 h5; norm_num at a4 b4 h5
    rw [b4] at h5; norm_num at h5

/-! ## The page loop of the dump -/

/-- C5 (amended): for a page size `2 ^ k` that fits the 16-bit `page_size`
field, when Ctrl-C is not pressed and the FLASH reports not busy at some
status poll `m` of the initial wait, `e1000_spi_flash_dump` returns success
(for every sufficient fuel) and the `read_page` commands it issues form the
chunking of the range: consecutive offsets modulo 2^16, each length the
smaller of `page_size - offset mod page_size` and the remaining length.
Their lengths sum to `len`, each is at least 1 and stays within its page, and
for page size 256, offset 250, length 556 the lengths are 6, 256, 256, 38. -/
theorem C5_dump_chunks (c : Consts) (e : Env) (hw : e1000_hw) (data off len : Nat)
    (intr : Bool) (mem : Mem) (w : World) (k : Nat) (hk : k ≤ 15)
    (hps : hw.page_size = 2 ^ k) (hnc : NoCtrlC e w) (m : Nat)
    (hready : busyAt c e (w.nread + 18 * m) = false) :
    ∃ F mem2 w2 pages,
      (∀ fuel, F ≤ fuel →
        e1000_spi_flash_dump c e hw data off len intr fuel mem w = some (0, mem2, w2)) ∧
      readPages w2.calls = readPages w.calls ++ pages ∧
      IsChunking hw.page_size off len pages ∧
      (pages.map Prod.snd).sum = len ∧
      (∀ p ∈ pages, 1 ≤ p.2 ∧ p.1 % hw.page_size + p.2 ≤ hw.page_size) ∧
      (hw.page_size = 256 → off = 250 → len = 556 →
        pages.map Prod.snd = [6, 256, 256, 38]) := by
  obtain ⟨m0, w1, _, hpoll, _, hc1, hnc1⟩ := poll_ready_ready c e hw intr m w hnc hready
  obtain ⟨mem2, w2, pages, hrun, hpages, hchunk, _⟩ :=
    dump_loop_nc c e hw intr k hk hps len data off mem w1 hnc1
  refine ⟨m0 + 1 + len, mem2, w2, pages, ?_, ?_, hchunk, IsChunking_sum _ _ _ _ hchunk,
    IsChunking_page _ (by rw [hps]; positivity) _ _ _ hchunk, ?_⟩
  · intro fuel hf
    unfold e1000_spi_flash_dump
    rw [hpoll fuel (by omega)]
    simp only [ne_eq, not_true_eq_false, if_false]
    exact hrun fuel (by omega)
  · rw [hpages, hc1, readPages_append]
    simp [readPages, readPages_pollCalls]
  · intro h1 h2 h3
    rw [h1, h2, h3] at hchunk
    rw [IsChunking_example pages hchunk]
    rfl

/-- C5 at a concrete dump: pages of 256 bytes, 556 bytes from offset 250, a
FLASH that is never busy. -/
theorem C5_dump_chunks_witness :
    exampleHw.page_size = 2 ^ 8 ∧ NoCtrlC idleEnv World.init ∧
    busyAt exampleConsts idleEnv (World.init.nread + 18 * 0) = false ∧
    ∃ F mem2 w2 pages,
      (∀ fuel, F ≤ fuel →
        e1000_spi_flash_dump exampleConsts idleEnv exampleHw 0 250 556 true fuel (fun _ => 0)
          World.init = some (0, mem2, w2)) ∧
      readPages w2.calls = readPages World.init.calls ++ pages ∧
      IsChunking exampleHw.page_size 250 556 pages ∧
      (pages.map Prod.snd).sum = 556 ∧
      (∀ p ∈ pages, 1 ≤ p.2 ∧ p.1 % exampleHw.page_size + p.2 ≤ exampleHw.page_size) ∧
      (exampleHw.page_size = 256 → 250 = 250 → 556 = 556 →
        pages.map Prod.snd = [6, 256, 256, 38]) :=
  ⟨by decide, fun _ _ => rfl, by decide,
   C5_dump_chunks exampleConsts idleEnv exampleHw 0 250 556 true (fun _ => 0) World.init 8
     (by decide) (by decide) (fun _ _ => rfl) 0 (by decide)⟩

/-! ## Call-log frames -/

theorem writePages_append (l1 l2 : List Call) :
    writePages (l1 ++ l2) = writePages l1 ++ writePages l2 := by
  induction l1 with
  | nil => rfl
  | cons a l ih => cases a <;> simp [writePages, ih]

theorem acquire_poll_calls (c : Consts) (e : Env) :
    ∀ (k fla : Nat) (w : World), (acquire_poll c e k fla w).2.calls = w.calls := by
  intro k
  induction k with
  | zero => intro fla w; rfl
  | succ k ih =>
    intro fla w
    simp only [acquire_poll]
    split
    · rfl
    · rw [ih]; rfl

theorem acquire_calls (c : Consts) (e : Env) (hw : e1000_hw) (w : World) :
    (e1000_acquire_flash c e hw w).2.calls = w.calls ++ [.acquire] := by
  unfold e1000_acquire_flash
  simp only
  split
  · split
    · simp [WRITE_REG, acquire_poll_calls, READ_REG, World.log]
    · simp [WRITE_REG, acquire_poll_calls, READ_REG, World.log]
  · rfl

theorem release_calls (c : Consts) (e : Env) (hw : e1000_hw) (w : World) :
    (e1000_release_flash c e hw w).calls = w.calls ++ [.release] := by
  unfold e1000_release_flash; split <;> rfl

theorem read_status_calls (c : Consts) (e : Env) (hw : e1000_hw) (intr : Bool) (w : World) :
    (e1000_spi_flash_read_status c e hw intr w).2.calls = w.calls ++ statusCalls intr := by
  unfold e1000_spi_flash_read_status
  simp only
  split <;>
  · rw [xfer_calls, standby_calls]
    simp [World.log, statusCalls, xferCall, bytes, load, opMem, SPI_FLASH_READ_STATUS]
    decide

theorem poll_loop_writePages (c : Consts) (e : Env) (hw : e1000_hw) (intr : Bool) :
    ∀ (fuel : Nat) (w : World) (r : Int × World), poll_loop c e hw intr fuel w = some r →
      writePages r.2.calls = writePages w.calls ∧ readPages r.2.calls = readPages w.calls := by
  intro fuel
  induction fuel with
  | zero => intro w r h; simp [poll_loop] at h
  | succ f ih =>
    intro w r h
    have hs := read_status_calls c e hw intr w
    have hw1 : writePages (e1000_spi_flash_read_status c e hw intr w).2.calls
        = writePages w.calls := by
      rw [hs, writePages_append]; simp [statusCalls, writePages]
    have hr1 : readPages (e1000_spi_flash_read_status c e hw intr w).2.calls
        = readPages w.calls := by
      rw [hs, readPages_append]; simp [statusCalls, readPages]
    simp only [poll_loop] at h
    split at h
    · split at h
      · cases h; exact ⟨hw1, hr1⟩
      · obtain ⟨h1, h2⟩ := ih _ _ h
        exact ⟨h1.trans hw1, h2.trans hr1⟩
    · cases h; exact ⟨hw1, hr1⟩

theorem read_page_writePages (c : Consts) (e : Env) (hw : e1000_hw) (data off len : Nat)
    (intr : Bool) (mem : Mem) (w : World) :
    writePages (e1000_spi_flash_read_page c e hw data off len intr mem w).2.2.calls
      = writePages w.calls := by
  unfold e1000_spi_flash_read_page
  simp only
  split
  · rw [xfer_calls, standby_calls]
    simp [World.log, writePages_append, writePages, xferCall]
  · split <;>
    · rw [xfer_calls, xfer_calls, standby_calls]
      simp [World.log, writePages_append, writePages, xferCall]

theorem dump_loop_writePages (c : Consts) (e : Env) (hw : e1000_hw) (intr : Bool) :
    ∀ (fuel data off len : Nat) (mem : Mem) (w : World) (r : Int × Mem × World),
      dump_loop c e hw intr fuel data off len mem w = some r →
      writePages r.2.2.calls = writePages w.calls := by
  intro fuel
  induction fuel with
  | zero =>
    intro data off len mem w r h
    simp only [dump_loop] at h
    split at h
    · cases h; rfl
    · cases h
  | succ f ih =>
    intro data off len mem w r h
    simp only [dump_loop] at h
    split at h
    · cases h; rfl
    · split at h
      · cases h; exact read_page_writePages c e hw data off _ intr mem w
      · rw [ih _ _ _ _ _ _ h]
        exact read_page_writePages c e hw data off _ intr mem w

/-- A dump issues no `write_page`, however it ends. -/
theorem dump_writePages (c : Consts) (e : Env) (hw : e1000_hw) (data off len : Nat)
    (intr : Bool) (fuel : Nat) (mem : Mem) (w : World) (r : Int × Mem × World)
    (h : e1000_spi_flash_dump c e hw data off len intr fuel mem w = some r) :
    writePages r.2.2.calls = writePages w.calls := by
  unfold e1000_spi_flash_dump at h
  split at h
  · cases h
  · rename_i p hp
    have hpw := (poll_loop_writePages c e hw intr fuel _ p hp).1
    have hlog : writePages (w.log Call.poll_ready).calls = writePages w.calls := by
      simp [World.log, writePages_append, writePages]
    split at h
    · cases h; exact hpw.trans hlog
    · rw [dump_loop_writePages c e hw intr fuel _ _ _ _ _ r h]
      exact hpw.trans hlog

/-! ## A dump that never returns -/

theorem pollState_calls (c : Consts) (e : Env) (hw : e1000_hw) (intr : Bool) :
    ∀ (j : Nat) (w : World), (pollState c e hw intr j w).calls = w.calls ++ pollCalls intr j := by
  intro j
  induction j with
  | zero => intro w; simp [pollState, pollCalls]
  | succ j ih =>
    intro w
    rw [pollState, ih, read_status_calls, pollCalls, List.append_assoc]

/-- While the FLASH stays busy and Ctrl-C is not pressed, the poll loop with
fuel `j + fuel` is, after `j` status reads, the poll loop with fuel `fuel`. -/
theorem poll_loop_pollState (c : Consts) (e : Env) (hw : e1000_hw) (intr : Bool)
    (hbusy : ∀ k, busyAt c e k = true) :
    ∀ (j fuel : Nat) (w : World), NoCtrlC e w →
      poll_loop c e hw intr (j + fuel) w = poll_loop c e hw intr fuel (pollState c e hw intr j w) := by
  intro j
  induction j with
  | zero => intro fuel w _; simp [pollState]
  | succ j ih =>
    intro fuel w hnc
    have e1 : j + 1 + fuel = (j + fuel) + 1 := by omega
    rw [e1, poll_loop_step c e hw intr _ w hnc, hbusy, if_pos rfl, pollState]
    exact ih fuel _ (read_status_nc c e hw intr w hnc).2.2.2.2

/-- C5 as stated fails: with Ctrl-C never pressed and a FLASH that always
reports busy, the dump of 556 bytes never gets past its initial wait: it
returns for no amount of fuel, and after any number `j` of status reads the
wait is still going on with no `read_page` issued. -/
theorem C5_counterexample :
    NoCtrlC busyEnv World.init ∧
    (∀ fuel, e1000_spi_flash_dump exampleConsts busyEnv exampleHw 0 250 556 true fuel
      (fun _ => 0) World.init = none) ∧
    (∀ j fuel, e1000_spi_flash_poll_ready exampleConsts busyEnv exampleHw true (j + fuel)
        World.init
      = poll_loop exampleConsts busyEnv exampleHw true fuel
          (pollState exampleConsts busyEnv exampleHw true j (World.init.log .poll_ready))) ∧
    (∀ j, readPages
      (pollState exampleConsts busyEnv exampleHw true j (World.init.log .poll_ready)).calls
        = []) := by
  have hbusy : ∀ k, busyAt exampleConsts busyEnv k = true := fun _ => by
    simp [busyAt, rdAt, busyEnv, exampleConsts]
  have hnc : NoCtrlC busyEnv (World.init.log .poll_ready) := fun _ _ => rfl
  refine ⟨fun _ _ => rfl, fun fuel => ?_, fun j fuel => ?_, fun j => ?_⟩
  · unfold e1000_spi_flash_dump e1000_spi_flash_poll_ready
    rw [poll_loop_busy exampleConsts busyEnv exampleHw true hbusy fuel _ hnc]
  · unfold e1000_spi_flash_poll_ready
    exact poll_loop_pollState exampleConsts busyEnv exampleHw true hbusy j fuel _ hnc
  · rw [pollState_calls, readPages_append, readPages_pollCalls]
    rfl

/-! ## Fuel monotonicity and checksum arithmetic -/

theorem poll_loop_mono (c : Consts) (e : Env) (hw : e1000_hw) (intr : Bool) :
    ∀ (f : Nat) (w : World) (r : Int × World), poll_loop c e hw intr f w = some r →
      ∀ f2, f ≤ f2 → poll_loop c e hw intr f2 w = some r := by
  intro f
  induction f with
  | zero => intro w r h; simp [poll_loop] at h
  | succ f ih =>
    intro w r h f2 hf
    obtain ⟨g, rfl⟩ : ∃ g, f2 = g + 1 := ⟨f2 - 1, by omega⟩
    simp only [poll_loop] at h ⊢
    split
    · rw [if_pos (by assumption)] at h
      split
      · rw [if_pos (by assumption)] at h; exact h
      · rw [if_neg (by assumption)] at h; exact ih _ _ h g (by omega)
    · rw [if_neg (by assumption)] at h; exact h

theorem dump_loop_mono (c : Consts) (e : Env) (hw : e1000_hw) (intr : Bool) :
    ∀ (f data off len : Nat) (mem : Mem) (w : World) (r : Int × Mem × World),
      dump_loop c e hw intr f data off len mem w = some r →
      ∀ f2, f ≤ f2 → dump_loop c e hw intr f2 data off len mem w = some r := by
  intro f
  induction f with
  | zero =>
    intro data off len mem w r h f2 _
    simp only [dump_loop] at h
    split at h
    · rename_i hl
      cases f2 <;> simp [dump_loop, hl, h]
    · cases h
  | succ f ih =>
    intro data off len mem w r h f2 hf
    obtain ⟨g, rfl⟩ : ∃ g, f2 = g + 1 := ⟨f2 - 1, by omega⟩
    simp only [dump_loop] at h ⊢
    split
    · rw [if_pos (by assumption)] at h; exact h
    · rw [if_neg (by assumption)] at h
      split
      · rw [if_pos (by assumption)] at h; exact h
      · rw [if_neg (by assumption)] at h; exact ih _ _ _ _ _ _ h g (by omega)

/-- A dump that returned returns the same with more fuel. -/
theorem dump_mono (c : Consts) (e : Env) (hw : e1000_hw) (data off len : Nat)
    (intr : Bool) (f : Nat) (mem : Mem) (w : World) (r : Int × Mem × World)
    (h : e1000_spi_flash_dump c e hw data off len intr f mem w = some r) (f2 : Nat)
    (hf : f ≤ f2) : e1000_spi_flash_dump c e hw data off len intr f2 mem w = some r := by
  unfold e1000_spi_flash_dump e1000_spi_flash_poll_ready at h ⊢
  cases hp : poll_loop c e hw intr f (w.log Call.poll_ready) with
  | none => rw [hp] at h; cases h
  | some p =>
    rw [hp] at h
    rw [poll_loop_mono c e hw intr f _ p hp f2 hf]
    simp only at h ⊢
    split
    · rw [if_pos (by assumption)] at h; exact h
    · rw [if_neg (by assumption)] at h
      exact dump_loop_mono c e hw intr f _ _ _ _ _ r h f2 hf

theorem foldl_add_mod (f : Nat → Nat) (M : Nat) : ∀ (l : List Nat) (acc : Nat),
    l.foldl (fun acc i => (acc + f i) % M) acc = (acc + (l.map f).sum) % M ∨ l = [] := by
  intro l
  induction l with
  | nil => intro acc; exact Or.inr rfl
  | cons a l ih =>
    intro acc
    left
    simp only [List.foldl_cons, List.map_cons, List.sum_cons]
    rcases ih ((acc + f a) % M) with h | h
    · rw [h, Nat.add_mod, Nat.mod_mod, ← Nat.add_mod, Nat.add_assoc]
    · subst h; simp

theorem checksum_sum_eq (c : Consts) (mem : Mem) :
    checksum_sum c mem = wordSum mem c.EEPROM_CHECKSUM_REG % 65536 := by
  unfold checksum_sum wordSum
  rcases foldl_add_mod (le16 mem) 65536 (List.range c.EEPROM_CHECKSUM_REG) 0 with h | h
  · rw [h, Nat.zero_add]
  · rw [h]; rfl

theorem le16_lt (mem : Mem) (i : Nat) : le16 mem i < 65536 := by
  have h1 := load_lt mem (2 * i)
  have h2 := load_lt mem (2 * i + 1)
  unfold le16; omega

theorem checksumValid_iff_total (c : Consts) (mem : Mem) :
    ChecksumValid c mem ↔
      wordSum mem (c.EEPROM_CHECKSUM_REG + 1) % 65536 = c.EEPROM_SUM % 65536 := by
  have h := le16_lt mem c.EEPROM_CHECKSUM_REG
  have hs : wordSum mem (c.EEPROM_CHECKSUM_REG + 1)
      = wordSum mem c.EEPROM_CHECKSUM_REG + le16 mem c.EEPROM_CHECKSUM_REG := by
    unfold wordSum
    rw [List.range_succ, List.map_append, List.sum_append]
    simp
  unfold ChecksumValid
  rw [hs]
  omega

/-! ## The checksum command without repair -/

/-- C6: run the checksum command without repair, let the bus acquisition
succeed and let the dump of the first `EEPROM_CHECKSUM_REG + 1` words
return uncancelled with the words `d.2.1`.  Then the command returns (with
every fuel at least that of the dump) 0 if the checksum word equals
`EEPROM_SUM` minus the sum of the words before it in 16-bit wraparound
arithmetic, and 1 otherwise; this holds exactly when the sum of all
`EEPROM_CHECKSUM_REG + 1` words is congruent to `EEPROM_SUM` modulo 2^16; no
`write_page` is issued; and with running sum 0x1234 and `EEPROM_SUM` 0xBABA the
last word 0xA886 is valid and 0xA887 is not. -/
theorem C6_checksum_verdict (c : Consts) (e : Env) (hw : e1000_hw) (buf : Mem) (fuel0 : Nat)
    (w : World) (d : Int × Mem × World)
    (ha : (e1000_acquire_flash c e hw w).1 = 0)
    (hd : e1000_spi_flash_dump c e hw 0 0 ((2 * (c.EEPROM_CHECKSUM_REG + 1)) % 65536) true
      fuel0 buf (e1000_acquire_flash c e hw w).2 = some d)
    (hd0 : 0 ≤ d.1) :
    ∃ r w2,
      (∀ fuel, fuel0 ≤ fuel →
        do_e1000_spi_checksum c e hw 0 false (some buf) fuel w = some (r, w2)) ∧
      (r = 0 ↔ ChecksumValid c d.2.1) ∧ (r = 1 ↔ ¬ ChecksumValid c d.2.1) ∧
      (ChecksumValid c d.2.1 ↔
        wordSum d.2.1 (c.EEPROM_CHECKSUM_REG + 1) % 65536 = c.EEPROM_SUM % 65536) ∧
      writePages w2.calls = writePages w.calls ∧
      (c.EEPROM_SUM = 0xBABA → wordSum d.2.1 c.EEPROM_CHECKSUM_REG % 65536 = 0x1234 →
        (le16 d.2.1 c.EEPROM_CHECKSUM_REG = 0xA886 → r = 0) ∧
        (le16 d.2.1 c.EEPROM_CHECKSUM_REG = 0xA887 → r = 1)) := by
  have hwp : writePages (e1000_release_flash c e hw d.2.2).calls = writePages w.calls := by
    rw [release_calls, writePages_append, dump_writePages c e hw _ _ _ _ _ _ _ d hd,
      acquire_calls, writePages_append]
    simp [writePages]
  have hrun : ∀ fuel, fuel0 ≤ fuel →
      do_e1000_spi_checksum c e hw 0 false (some buf) fuel w
        = some (if ChecksumValid c d.2.1 then 0 else 1, e1000_release_flash c e hw d.2.2) := by
    intro fuel hf
    have hd2 := dump_mono c e hw _ _ _ _ _ _ _ d hd fuel hf
    have hnlt : ¬ d.1 < 0 := by omega
    unfold do_e1000_spi_checksum
    simp only [ha, hd2, hnlt, checksum_sum_eq, true_or, not_true_eq_false, if_false, ne_eq,
      decide_False, Bool.false_eq_true, not_false_eq_true, if_true]
    unfold ChecksumValid
    split <;> rfl
  by_cases hv : ChecksumValid c d.2.1
  · refine ⟨0, _, fun fuel hf => by rw [hrun fuel hf, if_pos hv], by simp [hv], by simp [hv],
      checksumValid_iff_total c d.2.1, hwp, ?_⟩
    intro hs h1
    refine ⟨fun _ => rfl, fun h2 => ?_⟩
    unfold ChecksumValid at hv
    rw [hs, h1, h2] at hv
    norm_num at hv
  · refine ⟨1, _, fun fuel hf => by rw [hrun fuel hf, if_neg hv], by simp [hv], by simp [hv],
      checksumValid_iff_total c d.2.1, hwp, ?_⟩
    intro hs h1
    refine ⟨fun h2 => ?_, fun _ => rfl⟩
    exfalso; apply hv
    unfold ChecksumValid
    rw [hs, h1, h2]

theorem smallDump_isSome : smallDump.isSome = true := by decide

/-- C6 at a concrete run: a FLASH holding zeros, the checksum in word 1. -/
theorem C6_checksum_verdict_witness :
    (e1000_acquire_flash smallConsts grantEnv exampleHw World.init).1 = 0 ∧
    ∃ d, smallDump = some d ∧ 0 ≤ d.1 ∧
    ∃ r w2,
      (∀ fuel, 4 ≤ fuel →
        do_e1000_spi_checksum smallConsts grantEnv exampleHw 0 false (some (fun _ => 0)) fuel
          World.init = some (r, w2)) ∧
      (r = 0 ↔ ChecksumValid smallConsts d.2.1) ∧ (r = 1 ↔ ¬ ChecksumValid smallConsts d.2.1) ∧
      (ChecksumValid smallConsts d.2.1 ↔
        wordSum d.2.1 (smallConsts.EEPROM_CHECKSUM_REG + 1) % 65536
          = smallConsts.EEPROM_SUM % 65536) ∧
      writePages w2.calls = writePages World.init.calls ∧
      (smallConsts.EEPROM_SUM = 0xBABA →
        wordSum d.2.1 smallConsts.EEPROM_CHECKSUM_REG % 65536 = 0x1234 →
        (le16 d.2.1 smallConsts.EEPROM_CHECKSUM_REG = 0xA886 → r = 0) ∧
        (le16 d.2.1 smallConsts.EEPROM_CHECKSUM_REG = 0xA887 → r = 1)) :=
  ⟨by decide, smallDump.get smallDump_isSome, (Option.some_get smallDump_isSome).symm,
   by decide,
   C6_checksum_verdict smallConsts grantEnv exampleHw (fun _ => 0) 4 World.init
     (smallDump.get smallDump_isSome) (by decide)
     (Option.some_get smallDump_isSome).symm (by decide)⟩

/-! ## Lemmas on the programming loop -/

theorem cmds_append (l1 l2 : List Call) : cmds (l1 ++ l2) = cmds l1 ++ cmds l2 := by
  simp [cmds]

theorem cmds_pollCalls (intr : Bool) : ∀ m, cmds (pollCalls intr m) = [] := by
  intro m
  induction m with
  | zero => rfl
  | succ m ih =>
    rw [pollCalls, cmds_append, ih]
    simp [cmds, statusCalls, isCmd]

theorem writePages_cmds (l : List Call) : writePages (cmds l) = writePages l := by
  induction l with
  | nil => rfl
  | cons a l ih =>
    cases a <;> simp [cmds, isCmd, writePages] <;> exact ih

/-- `e1000_spi_flash_enable_wr` when Ctrl-C is no longer pressed. -/
theorem enable_wr_nc (c : Consts) (e : Env) (hw : e1000_hw) (intr : Bool) (w : World)
    (hnc : NoCtrlC e w) :
    (e1000_spi_flash_enable_wr c e hw intr w).1 = 0 ∧
    cmds (e1000_spi_flash_enable_wr c e hw intr w).2.calls = cmds w.calls ++ [.enable_wr] ∧
    NoCtrlC e (e1000_spi_flash_enable_wr c e hw intr w).2 := by
  have hnc1 : NoCtrlC e (e1000_standby_flash c e hw (w.log .enable_wr)) :=
    hnc.mono (by rw [standby_nctrl]; exact le_refl _)
  obtain ⟨hok, _, hc, hnc2⟩ := xfer_nc c e (8 * 1) (some 0) none intr
    (opMem [SPI_FLASH_ENABLE_WR]) _ hnc1
  unfold e1000_spi_flash_enable_wr
  refine ⟨hok, ?_, hnc2⟩
  simp only
  rw [hc, standby_calls]
  simp [World.log, cmds, isCmd, xferCall]

/-- `e1000_spi_flash_write_status` when Ctrl-C is no longer pressed. -/
theorem write_status_nc (c : Consts) (e : Env) (hw : e1000_hw) (status : Nat) (intr : Bool)
    (w : World) (hnc : NoCtrlC e w) :
    (e1000_spi_flash_write_status c e hw status intr w).1 = 0 ∧
    cmds (e1000_spi_flash_write_status c e hw status intr w).2.calls
      = cmds w.calls ++ [.write_status status, .enable_wr] ∧
    NoCtrlC e (e1000_spi_flash_write_status c e hw status intr w).2 := by
  obtain ⟨_, hc1, hnc1⟩ := enable_wr_nc c e hw intr (w.log (.write_status status)) hnc
  have hnc2 : NoCtrlC e (e1000_standby_flash c e hw
      (e1000_spi_flash_enable_wr c e hw intr (w.log (.write_status status))).2) :=
    hnc1.mono (by rw [standby_nctrl])
  obtain ⟨hok, _, hc, hnc3⟩ := xfer_nc c e (8 * 2) (some 0) none intr
    (opMem [SPI_FLASH_WRITE_STATUS, status]) _ hnc2
  unfold e1000_spi_flash_write_status
  refine ⟨hok, ?_, hnc3⟩
  simp only
  rw [hc, standby_calls, cmds_append, cmds_append, hc1]
  simp [World.log, cmds, isCmd, xferCall]

/-- `e1000_spi_flash_clear_bp` when Ctrl-C is no longer pressed. -/
theorem clear_bp_nc (c : Consts) (e : Env) (hw : e1000_hw) (intr : Bool) (w : World)
    (hnc : NoCtrlC e w) :
    (e1000_spi_flash_clear_bp c e hw intr w).1 = 0 ∧
    cmds (e1000_spi_flash_clear_bp c e hw intr w).2.calls
      = cmds w.calls ++ [.clear_bp, .write_status 0x43, .enable_wr] ∧
    NoCtrlC e (e1000_spi_flash_clear_bp c e hw intr w).2 := by
  have hst : bnot32 (SPI_FLASH_BPL_MASK ||| SPI_FLASH_BPL_RO) % 256 = 0x43 := by decide
  obtain ⟨h1, h2, h3⟩ := write_status_nc c e hw 0x43 intr (w.log .clear_bp) hnc
  unfold e1000_spi_flash_clear_bp
  rw [hst]
  refine ⟨h1, ?_, h3⟩
  rw [h2]
  simp [World.log, cmds, isCmd]

/-- `e1000_spi_flash_write_page` when Ctrl-C is no longer pressed. -/
theorem write_page_nc (c : Consts) (e : Env) (hw : e1000_hw) (data off len : Nat) (intr : Bool)
    (mem : Mem) (w : World) (hnc : NoCtrlC e w) :
    (e1000_spi_flash_write_page c e hw data off len intr mem w).1 = 0 ∧
    cmds (e1000_spi_flash_write_page c e hw data off len intr mem w).2.calls
      = cmds w.calls ++ [.write_page off len (bytes mem data len)] ∧
    NoCtrlC e (e1000_spi_flash_write_page c e hw data off len intr mem w).2 := by
  have hnc1 : NoCtrlC e (e1000_standby_flash c e hw
      (w.log (.write_page off len (bytes mem data len)))) :=
    hnc.mono (by rw [standby_nctrl]; exact le_refl _)
  obtain ⟨hok1, _, hc1, hnc2⟩ := xfer_nc c e (8 + 24) (some 0) none intr
    (opMem [SPI_FLASH_WRITE_PAGE, (off >>> 16) &&& 0xff, (off >>> 8) &&& 0xff, off &&& 0xff])
    _ hnc1
  obtain ⟨hok2, _, hc2, hnc3⟩ := xfer_nc c e (len <<< 3) (some data) none intr mem _ hnc2
  unfold e1000_spi_flash_write_page
  simp only [hok1, hok2, ne_eq, not_true_eq_false, if_false]
  refine ⟨trivial, ?_, hnc3⟩
  rw [hc2, hc1, standby_calls]
  simp [World.log, cmds, isCmd, xferCall]

/-- The wait for the FLASH, in terms of commands. -/
theorem poll_ready_nc (c : Consts) (e : Env) (hw : e1000_hw) (intr : Bool) (w : World)
    (hnc : NoCtrlC e w) (hready : EventuallyReady c e) :
    ∃ F w2, (∀ fuel, F ≤ fuel → e1000_spi_flash_poll_ready c e hw intr fuel w = some (0, w2)) ∧
      cmds w2.calls = cmds w.calls ++ [.poll_ready] ∧ NoCtrlC e w2 := by
  obtain ⟨m, hm⟩ := hready w.nread
  obtain ⟨m0, w2, _, hrun, _, hc, hnc2⟩ := poll_ready_ready c e hw intr m w hnc hm
  refine ⟨m0 + 1, w2, hrun, ?_, hnc2⟩
  rw [hc, cmds_append]
  have h1 : cmds (Call.poll_ready :: pollCalls intr (m0 + 1))
      = Call.poll_ready :: cmds (pollCalls intr (m0 + 1)) := by
    simp [cmds, isCmd]
  rw [h1, cmds_pollCalls]

/-- The page loop and final wait of the programming when Ctrl-C is no longer
pressed and the FLASH eventually reports not busy. -/
theorem program_loop_nc (c : Consts) (e : Env) (hw : e1000_hw) (intr : Bool) (mem : Mem)
    (hready : EventuallyReady c e) :
    ∀ (n data off : Nat) (w : World), NoCtrlC e w →
      ∃ F w2,
        (∀ fuel, F ≤ fuel → program_loop c e hw intr fuel mem n data off w = some (0, w2)) ∧
        cmds w2.calls = cmds w.calls ++ programRounds mem n data off ∧ NoCtrlC e w2 := by
  intro n
  induction n with
  | zero =>
    intro data off w hnc
    obtain ⟨F, w2, hrun, hc, hnc2⟩ := poll_ready_nc c e hw intr w hnc hready
    refine ⟨F, w2, fun fuel hf => ?_, by rw [hc]; rfl, hnc2⟩
    simp [program_loop, hrun fuel hf]
  | succ n ih =>
    intro data off w hnc
    obtain ⟨F1, w1, hrun1, hc1, hnc1⟩ := poll_ready_nc c e hw intr w hnc hready
    obtain ⟨he, hce, hnce⟩ := enable_wr_nc c e hw intr w1 hnc1
    obtain ⟨hp, hcp, hncp⟩ := write_page_nc c e hw data off 1 intr mem _ hnce
    obtain ⟨F2, w2, hrun2, hc2, hnc2⟩ := ih (data + 1) ((off + 1) % 65536) _ hncp
    refine ⟨max F1 F2, w2, fun fuel hf => ?_, ?_, hnc2⟩
    · simp only [program_loop, hrun1 fuel (le_trans (le_max_left _ _) hf), he, hp, ne_eq,
        not_true_eq_false, if_false]
      exact hrun2 fuel (le_trans (le_max_right _ _) hf)
    · rw [hc2, hcp, hce, hc1]
      simp [programRounds, bytes, List.range_succ]

/-! ## The programming loop -/

theorem programRounds_get (mem : Mem) : ∀ (n data off : Nat), off < 65536 →
    (programRounds mem n data off).length = 3 * n + 1 ∧
    (∀ i, i < n →
      (programRounds mem n data off)[3 * i]? = some .poll_ready ∧
      (programRounds mem n data off)[3 * i + 1]? = some .enable_wr ∧
      (programRounds mem n data off)[3 * i + 2]?
        = some (.write_page ((off + i) % 65536) 1 [load mem (data + i)])) ∧
    (programRounds mem n data off)[3 * n]? = some .poll_ready := by
  intro n
  induction n with
  | zero =>
    intro data off _
    exact ⟨rfl, fun i hi => absurd hi (Nat.not_lt_zero i), rfl⟩
  | succ n ih =>
    intro data off hoff
    obtain ⟨h1, h2, h3⟩ := ih (data + 1) ((off + 1) % 65536) (Nat.mod_lt _ (by norm_num))
    refine ⟨by simp only [programRounds, List.length_cons, h1]; omega, ?_, ?_⟩
    · intro i hi
      cases i with
      | zero =>
        simp only [programRounds, Nat.mul_zero, Nat.add_zero, Nat.zero_add,
          List.getElem?_cons_zero, List.getElem?_cons_succ, Nat.mod_eq_of_lt hoff]
        exact ⟨trivial, trivial, trivial⟩
      | succ i =>
        obtain ⟨g1, g2, g3⟩ := h2 i (by omega)
        have e0 : 3 * (i + 1) = 3 * i + 1 + 1 + 1 := by omega
        have e1 : 3 * (i + 1) + 1 = 3 * i + 1 + 1 + 1 + 1 := by omega
        have e2 : 3 * (i + 1) + 2 = 3 * i + 2 + 1 + 1 + 1 := by omega
        have eo : ((off + 1) % 65536 + i) % 65536 = (off + (i + 1)) % 65536 := by omega
        have ed : data + 1 + i = data + (i + 1) := by omega
        rw [eo, ed] at g3
        refine ⟨?_, ?_, ?_⟩
        · rw [e0]; simp only [programRounds, List.getElem?_cons_succ]; exact g1
        · rw [e1]; simp only [programRounds, List.getElem?_cons_succ]; exact g2
        · rw [e2]; simp only [programRounds, List.getElem?_cons_succ]; exact g3
    · have e0 : 3 * (n + 1) = 3 * n + 1 + 1 + 1 := by omega
      rw [e0]; simp only [programRounds, List.getElem?_cons_succ]; exact h3

/-- `e1000_spi_flash_program` when Ctrl-C is not pressed and the FLASH
eventually reports not busy. -/
theorem program_nc (c : Consts) (e : Env) (hw : e1000_hw) (data off n : Nat) (intr : Bool)
    (mem : Mem) (w : World) (hnc : NoCtrlC e w) (hready : EventuallyReady c e) :
    ∃ F w2,
      (∀ fuel, F ≤ fuel →
        e1000_spi_flash_program c e hw data off n intr fuel mem w = some (0, w2)) ∧
      cmds w2.calls = cmds w.calls ++ [.clear_bp, .write_status 0x43, .enable_wr]
        ++ programRounds mem n data off ∧ NoCtrlC e w2 := by
  obtain ⟨hb, hcb, hncb⟩ := clear_bp_nc c e hw true w hnc
  obtain ⟨F, w2, hrun, hc, hnc2⟩ := program_loop_nc c e hw intr mem hready n data off _ hncb
  refine ⟨F, w2, fun fuel hf => ?_, by rw [hc, hcb], hnc2⟩
  unfold e1000_spi_flash_program
  simp only [hb, lt_self_iff_false, if_false]
  exact hrun fuel hf

/-- C8: when Ctrl-C is not pressed and the FLASH eventually reports not
busy, `e1000_spi_flash_program` of `n` bytes returns success (for every
sufficient fuel), and the commands it issues are those of
`clear_block_protect` (`clear_bp`, `write_status 0x43`, `enable_wr`) followed
by `n` rounds of `poll_ready`, `enable_wr`, `write_page`, the `i`-th
`write_page` carrying the one byte `data[i]` at offset `(off + i) mod 2^16`,
followed by one final `poll_ready`; for `n = 0` only those of
`clear_block_protect` and the final `poll_ready`. -/
theorem C8_program_rounds (c : Consts) (e : Env) (hw : e1000_hw) (data off n : Nat)
    (intr : Bool) (mem : Mem) (w : World) (hoff : off < 65536) (hnc : NoCtrlC e w)
    (hready : EventuallyReady c e) :
    ∃ F w2 rounds,
      (∀ fuel, F ≤ fuel →
        e1000_spi_flash_program c e hw data off n intr fuel mem w = some (0, w2)) ∧
      cmds w2.calls = cmds w.calls ++ [.clear_bp, .write_status 0x43, .enable_wr] ++ rounds ∧
      rounds.length = 3 * n + 1 ∧
      (∀ i, i < n →
        rounds[3 * i]? = some .poll_ready ∧
        rounds[3 * i + 1]? = some .enable_wr ∧
        rounds[3 * i + 2]? = some (.write_page ((off + i) % 65536) 1 [load mem (data + i)])) ∧
      rounds[3 * n]? = some .poll_ready ∧
      (n = 0 → rounds = [.poll_ready]) := by
  obtain ⟨F, w2, hrun, hc, _⟩ := program_nc c e hw data off n intr mem w hnc hready
  obtain ⟨h1, h2, h3⟩ := programRounds_get mem n data off hoff
  exact ⟨F, w2, programRounds mem n data off, hrun, hc, h1, h2, h3, fun h0 => by subst h0; rfl⟩

/-- C8 at a concrete run: two bytes programmed from offset 0xFFFF, which
wraps to 0, into a FLASH that is never busy. -/
theorem C8_program_rounds_witness :
    (0xFFFF : Nat) < 65536 ∧ NoCtrlC idleEnv World.init ∧ EventuallyReady exampleConsts idleEnv ∧
    ∃ F w2 rounds,
      (∀ fuel, F ≤ fuel →
        e1000_spi_flash_program exampleConsts idleEnv exampleHw 0 0xFFFF 2 true fuel
          (opMem [7, 9]) World.init = some (0, w2)) ∧
      cmds w2.calls
        = cmds World.init.calls ++ [.clear_bp, .write_status 0x43, .enable_wr] ++ rounds ∧
      rounds.length = 3 * 2 + 1 ∧
      (∀ i, i < 2 →
        rounds[3 * i]? = some .poll_ready ∧
        rounds[3 * i + 1]? = some .enable_wr ∧
        rounds[3 * i + 2]?
          = some (.write_page ((0xFFFF + i) % 65536) 1 [load (opMem [7, 9]) (0 + i)])) ∧
      rounds[3 * 2]? = some .poll_ready ∧
      (2 = 0 → rounds = [.poll_ready]) :=
  ⟨by decide, fun _ _ => rfl, fun _ => ⟨0, by simp [busyAt, rdAt, idleEnv]⟩,
   C8_program_rounds exampleConsts idleEnv exampleHw 0 0xFFFF 2 true (opMem [7, 9]) World.init
     (by decide) (fun _ _ => rfl) (fun _ => ⟨0, by simp [busyAt, rdAt, idleEnv]⟩)⟩

/-! ## Lemmas on the checksum repair -/

/-- The checksum command without repair, once the dump returned. -/
theorem checksum_verify_run (c : Consts) (e : Env) (hw : e1000_hw) (buf : Mem) (fuel0 : Nat)
    (w : World) (d : Int × Mem × World)
    (ha : (e1000_acquire_flash c e hw w).1 = 0)
    (hd : e1000_spi_flash_dump c e hw 0 0 ((2 * (c.EEPROM_CHECKSUM_REG + 1)) % 65536) true
      fuel0 buf (e1000_acquire_flash c e hw w).2 = some d)
    (hd0 : 0 ≤ d.1) (fuel : Nat) (hf : fuel0 ≤ fuel) :
    do_e1000_spi_checksum c e hw 0 false (some buf) fuel w
      = some (if ChecksumValid c d.2.1 then 0 else 1, e1000_release_flash c e hw d.2.2) := by
  have hd2 := dump_mono c e hw _ _ _ _ _ _ _ d hd fuel hf
  have hnlt : ¬ d.1 < 0 := by omega
  unfold do_e1000_spi_checksum
  simp only [ha, hd2, hnlt, checksum_sum_eq, true_or, not_true_eq_false, if_false, ne_eq,
    decide_False, Bool.false_eq_true, not_false_eq_true, if_true]
  unfold ChecksumValid
  split <;> rfl

theorem wordSum_congr (m1 m2 : Mem) : ∀ n, (∀ x, x < 2 * n → load m1 x = load m2 x) →
    wordSum m1 n = wordSum m2 n := by
  intro n h
  unfold wordSum
  congr 1
  apply List.map_congr_left
  intro i hi
  have hi2 := List.mem_range.mp hi
  unfold le16
  rw [h (2 * i) (by omega), h (2 * i + 1) (by omega)]

theorem checksumValid_congr (c : Consts) (m1 m2 : Mem)
    (h : ∀ x, x < 2 * (c.EEPROM_CHECKSUM_REG + 1) → load m1 x = load m2 x) :
    ChecksumValid c m1 ↔ ChecksumValid c m2 := by
  unfold ChecksumValid le16
  rw [wordSum_congr m1 m2 c.EEPROM_CHECKSUM_REG (fun x hx => h x (by omega)),
    h (2 * c.EEPROM_CHECKSUM_REG) (by omega), h (2 * c.EEPROM_CHECKSUM_REG + 1) (by omega)]

theorem repairWord_lt (c : Consts) (mem : Mem) : repairWord c mem < 65536 :=
  Nat.mod_lt _ (by norm_num)

theorem le16_store_word (m : Mem) (i v : Nat) (hv : v < 65536) :
    le16 (store (store m (2 * i) (v % 256)) (2 * i + 1) (v / 256)) i = v := by
  unfold le16
  rw [load_store, if_neg (by omega), load_store, if_pos rfl, load_store, if_pos rfl]
  omega

/-- Storing the repair word makes the checksum valid. -/
theorem checksumValid_flashStore (c : Consts) (mem : Mem) :
    ChecksumValid c (flashStore mem
      [(2 * c.EEPROM_CHECKSUM_REG, 1, [repairWord c mem % 256]),
       (2 * c.EEPROM_CHECKSUM_REG + 1, 1, [repairWord c mem / 256])]) := by
  have hv := repairWord_lt c mem
  have hsum : wordSum (flashStore mem
      [(2 * c.EEPROM_CHECKSUM_REG, 1, [repairWord c mem % 256]),
       (2 * c.EEPROM_CHECKSUM_REG + 1, 1, [repairWord c mem / 256])]) c.EEPROM_CHECKSUM_REG
      = wordSum mem c.EEPROM_CHECKSUM_REG := by
    apply wordSum_congr
    intro x hx
    simp only [flashStore, storeBytes, load_store]
    rw [if_neg (by omega), if_neg (by omega)]
  unfold ChecksumValid
  rw [hsum]
  simp only [flashStore, storeBytes]
  rw [le16_store_word _ _ _ hv]
  rfl

/-- The checksum command with repair, once the dump returned words with a
wrong checksum, when Ctrl-C is no longer pressed and the FLASH eventually
reports not busy. -/
theorem checksum_repair_run (c : Consts) (e : Env) (hw : e1000_hw) (buf : Mem) (fuel0 : Nat)
    (w : World) (d : Int × Mem × World)
    (hreg : 2 * (c.EEPROM_CHECKSUM_REG + 1) ≤ 65536)
    (ha : (e1000_acquire_flash c e hw w).1 = 0)
    (hd : e1000_spi_flash_dump c e hw 0 0 ((2 * (c.EEPROM_CHECKSUM_REG + 1)) % 65536) true
      fuel0 buf (e1000_acquire_flash c e hw w).2 = some d)
    (hd0 : 0 ≤ d.1) (hmis : ¬ ChecksumValid c d.2.1) (hnc : NoCtrlC e d.2.2)
    (hready : EventuallyReady c e) :
    ∃ F w2,
      (∀ fuel, F ≤ fuel →
        do_e1000_spi_checksum c e hw 1 true (some buf) fuel w = some (0, w2)) ∧
      writePages w2.calls = writePages w.calls ++
        [(2 * c.EEPROM_CHECKSUM_REG, 1, [repairWord c d.2.1 % 256]),
         (2 * c.EEPROM_CHECKSUM_REG + 1, 1, [repairWord c d.2.1 / 256])] := by
  have hv := repairWord_lt c d.2.1
  obtain ⟨F, w2, hrun, hc, _⟩ := program_nc c e hw (2 * c.EEPROM_CHECKSUM_REG)
    ((c.EEPROM_CHECKSUM_REG * 2) % 65536) 2 true
    (store_le16 d.2.1 c.EEPROM_CHECKSUM_REG (repairWord c d.2.1)) d.2.2 hnc hready
  refine ⟨max F fuel0, e1000_release_flash c e hw w2, fun fuel hf => ?_, ?_⟩
  · have hd2 := dump_mono c e hw _ _ _ _ _ _ _ d hd fuel (le_trans (le_max_right _ _) hf)
    have hnlt : ¬ d.1 < 0 := by omega
    have hmis2 : ¬ le16 d.2.1 c.EEPROM_CHECKSUM_REG = repairWord c d.2.1 := hmis
    have hrun2 := hrun fuel (le_trans (le_max_left _ _) hf)
    unfold repairWord at hmis2 hrun2
    unfold do_e1000_spi_checksum
    simp only [ha, hd2, hnlt, checksum_sum_eq, hmis2, hrun2, and_self, or_true,
      not_true_eq_false, if_false, ne_eq, one_ne_zero, not_false_eq_true, decide_True,
      Bool.not_eq_true, Bool.true_eq_false]
  · have e1 : (c.EEPROM_CHECKSUM_REG * 2) % 65536 = 2 * c.EEPROM_CHECKSUM_REG := by omega
    have e2 : (2 * c.EEPROM_CHECKSUM_REG + 1) % 65536 = 2 * c.EEPROM_CHECKSUM_REG + 1 := by
      omega
    have l1 : load (store_le16 d.2.1 c.EEPROM_CHECKSUM_REG (repairWord c d.2.1))
        (2 * c.EEPROM_CHECKSUM_REG) = repairWord c d.2.1 % 256 := by
      unfold store_le16
      rw [load_store, if_neg (by omega), load_store, if_pos rfl]
      omega
    have l2 : load (store_le16 d.2.1 c.EEPROM_CHECKSUM_REG (repairWord c d.2.1))
        (2 * c.EEPROM_CHECKSUM_REG + 1) = repairWord c d.2.1 / 256 := by
      unfold store_le16
      rw [load_store, if_pos rfl]
      omega
    rw [release_calls, writePages_append, ← writePages_cmds w2.calls, hc, writePages_append,
      writePages_append, writePages_cmds, dump_writePages c e hw _ _ _ _ _ _ _ d hd,
      acquire_calls, writePages_append]
    simp only [programRounds, e1, e2, l1, l2, writePages, List.append_nil, List.nil_append]

/-! ## The checksum command with repair -/

/-- C7: run the checksum command with repair, let the bus acquisition
succeed and the dump return uncancelled with words `d.2.1` whose checksum
word is wrong; let Ctrl-C not be pressed afterwards and the FLASH
eventually report not busy (it completes each programmed byte).  Then the
command returns 0 (for every sufficient fuel), the `write_page` commands it
issues are exactly two, carrying the low byte of the word
`EEPROM_SUM - sum(words[0 .. EEPROM_CHECKSUM_REG))` at byte offset
`2 * EEPROM_CHECKSUM_REG` and its high byte at the next offset, and every
later checksum command without repair whose dump reads the content of a
FLASH that stored these two bytes returns 0 (valid). -/
theorem C7_checksum_repair (c : Consts) (e : Env) (hw : e1000_hw) (buf : Mem) (fuel0 : Nat)
    (w : World) (d : Int × Mem × World)
    (hreg : 2 * (c.EEPROM_CHECKSUM_REG + 1) ≤ 65536)
    (ha : (e1000_acquire_flash c e hw w).1 = 0)
    (hd : e1000_spi_flash_dump c e hw 0 0 ((2 * (c.EEPROM_CHECKSUM_REG + 1)) % 65536) true
      fuel0 buf (e1000_acquire_flash c e hw w).2 = some d)
    (hd0 : 0 ≤ d.1) (hmis : ¬ ChecksumValid c d.2.1) (hnc : NoCtrlC e d.2.2)
    (hready : EventuallyReady c e) :
    ∃ F w2,
      (∀ fuel, F ≤ fuel →
        do_e1000_spi_checksum c e hw 1 true (some buf) fuel w = some (0, w2)) ∧
      writePages w2.calls = writePages w.calls ++
        [(2 * c.EEPROM_CHECKSUM_REG, 1, [repairWord c d.2.1 % 256]),
         (2 * c.EEPROM_CHECKSUM_REG + 1, 1, [repairWord c d.2.1 / 256])] ∧
      ∀ (e2 : Env) (buf2 : Mem) (fuel2 : Nat) (w3 : World) (d2 : Int × Mem × World),
        (e1000_acquire_flash c e2 hw w3).1 = 0 →
        e1000_spi_flash_dump c e2 hw 0 0 ((2 * (c.EEPROM_CHECKSUM_REG + 1)) % 65536) true
          fuel2 buf2 (e1000_acquire_flash c e2 hw w3).2 = some d2 →
        0 ≤ d2.1 →
        (∀ x, x < 2 * (c.EEPROM_CHECKSUM_REG + 1) →
          load d2.2.1 x = load (flashStore d.2.1
            [(2 * c.EEPROM_CHECKSUM_REG, 1, [repairWord c d.2.1 % 256]),
             (2 * c.EEPROM_CHECKSUM_REG + 1, 1, [repairWord c d.2.1 / 256])]) x) →
        ∀ fuel, fuel2 ≤ fuel →
          ∃ w4, do_e1000_spi_checksum c e2 hw 0 false (some buf2) fuel w3 = some (0, w4) := by
  obtain ⟨F, w2, hrun, hwp⟩ := checksum_repair_run c e hw buf fuel0 w d hreg ha hd hd0 hmis
    hnc hready
  refine ⟨F, w2, hrun, hwp, ?_⟩
  intro e2 buf2 fuel2 w3 d2 ha2 hd2 hd20 hcontent fuel hf
  have hvalid : ChecksumValid c d2.2.1 :=
    (checksumValid_congr c _ _ hcontent).mpr (checksumValid_flashStore c d.2.1)
  refine ⟨e1000_release_flash c e2 hw d2.2.2, ?_⟩
  rw [checksum_verify_run c e2 hw buf2 fuel2 w3 d2 ha2 hd2 hd20 fuel hf, if_pos hvalid]

/-- C7 at a concrete run: a FLASH holding zeros, the checksum in word 1. -/
theorem C7_checksum_repair_witness :
    2 * (smallConsts.EEPROM_CHECKSUM_REG + 1) ≤ 65536 ∧
    (e1000_acquire_flash smallConsts grantEnv exampleHw World.init).1 = 0 ∧
    NoCtrlC grantEnv World.init ∧ EventuallyReady smallConsts grantEnv ∧
    ∃ d, smallDump = some d ∧ 0 ≤ d.1 ∧ ¬ ChecksumValid smallConsts d.2.1 ∧
    ∃ F w2,
      (∀ fuel, F ≤ fuel →
        do_e1000_spi_checksum smallConsts grantEnv exampleHw 1 true (some (fun _ => 0)) fuel
          World.init = some (0, w2)) ∧
      writePages w2.calls = writePages World.init.calls ++
        [(2 * smallConsts.EEPROM_CHECKSUM_REG, 1, [repairWord smallConsts d.2.1 % 256]),
         (2 * smallConsts.EEPROM_CHECKSUM_REG + 1, 1, [repairWord smallConsts d.2.1 / 256])] ∧
      ∀ (e2 : Env) (buf2 : Mem) (fuel2 : Nat) (w3 : World) (d2 : Int × Mem × World),
        (e1000_acquire_flash smallConsts e2 exampleHw w3).1 = 0 →
        e1000_spi_flash_dump smallConsts e2 exampleHw 0 0
          ((2 * (smallConsts.EEPROM_CHECKSUM_REG + 1)) % 65536) true
          fuel2 buf2 (e1000_acquire_flash smallConsts e2 exampleHw w3).2 = some d2 →
        0 ≤ d2.1 →
        (∀ x, x < 2 * (smallConsts.EEPROM_CHECKSUM_REG + 1) →
          load d2.2.1 x = load (flashStore d.2.1
            [(2 * smallConsts.EEPROM_CHECKSUM_REG, 1, [repairWord smallConsts d.2.1 % 256]),
             (2 * smallConsts.EEPROM_CHECKSUM_REG + 1, 1,
               [repairWord smallConsts d.2.1 / 256])]) x) →
        ∀ fuel, fuel2 ≤ fuel →
          ∃ w4, do_e1000_spi_checksum smallConsts e2 exampleHw 0 false (some buf2) fuel w3
            = some (0, w4) :=
  ⟨by decide, by decide, fun _ _ => rfl,
   fun _ => ⟨0, by simp [busyAt, rdAt, grantEnv, smallConsts, exampleConsts]; decide⟩,
   smallDump.get smallDump_isSome, (Option.some_get smallDump_isSome).symm,
   by decide, by decide,
   C7_checksum_repair smallConsts grantEnv exampleHw (fun _ => 0) 4 World.init
     (smallDump.get smallDump_isSome) (by decide) (by decide)
     (Option.some_get smallDump_isSome).symm (by decide) (by decide) (fun _ _ => rfl)
     (fun _ => ⟨0, by simp [busyAt, rdAt, grantEnv, smallConsts, exampleConsts]; decide⟩)⟩

/-! ## Failures that are not reported -/

/-- Whenever the bus is acquired and `e1000_spi_flash_clear_bp` fails,
`do_e1000_spi_program` returns 0 after releasing the bus twice. -/
theorem program_command_after_clear_bp_failure (c : Consts) (e : Env) (hw : e1000_hw)
    (arg0 arg1 arg2 fuel : Nat) (mem : Mem) (w : World)
    (ha : (e1000_acquire_flash c e hw w).1 = 0)
    (hb : (e1000_spi_flash_clear_bp c e hw true (e1000_acquire_flash c e hw w).2).1 < 0) :
    do_e1000_spi_program c e hw 3 arg0 arg1 arg2 fuel mem w
      = some (0, e1000_release_flash c e hw (e1000_release_flash c e hw
          (e1000_spi_flash_clear_bp c e hw true (e1000_acquire_flash c e hw w).2).2)) := by
  unfold do_e1000_spi_program e1000_spi_flash_program
  simp [ha, hb]

/-- C9, the code at a failing input: with Ctrl-C pressed at the first check
of the write-status transfer of `clear_block_protect` (the 9th `ctrlc()`,
after the 8 checks of the write-enable transfer),
`e1000_spi_flash_clear_bp` fails (-1) and `e1000_spi_flash_program` returns 1
after releasing the bus, but `do_e1000_spi_program` only tests for a
negative result: it releases the bus a second time and returns 0
(success).  No `write_page` is issued. -/
theorem C9_program_command_reports_success :
    (e1000_spi_flash_clear_bp exampleConsts (ctrlcAt 8) exampleHw true
      (e1000_acquire_flash exampleConsts (ctrlcAt 8) exampleHw World.init).2).1 = -1 ∧
    (e1000_spi_flash_program exampleConsts (ctrlcAt 8) exampleHw 0 0 2 true 10 (opMem [7, 9])
      (e1000_acquire_flash exampleConsts (ctrlcAt 8) exampleHw World.init).2).map Prod.fst
      = some 1 ∧
    (do_e1000_spi_program exampleConsts (ctrlcAt 8) exampleHw 3 0 0 2 10 (opMem [7, 9])
      World.init).map Prod.fst = some 0 ∧
    (do_e1000_spi_program exampleConsts (ctrlcAt 8) exampleHw 3 0 0 2 10 (opMem [7, 9])
      World.init).map (fun r => writePages r.2.calls) = some [] ∧
    (do_e1000_spi_program exampleConsts (ctrlcAt 8) exampleHw 3 0 0 2 10 (opMem [7, 9])
      World.init).map (fun r => r.2.calls.count Call.release) = some 2 := by
  decide

/-- C10, the code at failing inputs.  With Ctrl-C pressed at the first
`ctrlc()`, the transfer of `e1000_spi_flash_enable_wr` inside
`e1000_spi_flash_write_status` is cancelled (-1), yet
`e1000_spi_flash_write_status` and `e1000_spi_flash_clear_bp` return 0.  With
Ctrl-C pressed at the 25th `ctrlc()`, after the 8 + 16 checks of
`clear_block_protect`, the write-enable transfer of `do_e1000_spi_erase` is
cancelled (-1), yet `do_e1000_spi_erase` returns 0. -/
theorem C10_cancelled_transfer_swallowed :
    (e1000_spi_flash_enable_wr exampleConsts (ctrlcAt 0) exampleHw true
      (World.init.log (.write_status 0x43))).1 = -1 ∧
    (e1000_spi_flash_write_status exampleConsts (ctrlcAt 0) exampleHw 0x43 true
      World.init).1 = 0 ∧
    (e1000_spi_flash_clear_bp exampleConsts (ctrlcAt 0) exampleHw true World.init).1 = 0 ∧
    (e1000_spi_flash_enable_wr exampleConsts (ctrlcAt 24) exampleHw true
      (e1000_spi_flash_clear_bp exampleConsts (ctrlcAt 24) exampleHw true
        (e1000_standby_flash exampleConsts (ctrlcAt 24) exampleHw
          (e1000_acquire_flash exampleConsts (ctrlcAt 24) exampleHw World.init).2)).2).1 = -1 ∧
    (do_e1000_spi_erase exampleConsts (ctrlcAt 24) exampleHw true World.init).1 = 0 := by
  decide

/-! ## Cancelled transfers -/

/-- A cancellable loop whose first pending cancellation is met at the check
before bit `k` ran the `k` uncancelled iterations of the loop for `k` bits
and then stopped at that check. -/
theorem xfer_loop_cancel_at (c : Consts) (e : Env) (dout din : Option Nat) :
    ∀ (k n i mask fla : Nat) (mem : Mem) (w : World), k < n →
      (∀ j, j < k → e.ctrl (w.nctrl + j) = false) → e.ctrl (w.nctrl + k) = true →
      xfer_loop c e dout din true n i mask fla mem w =
        ⟨true, (xfer_loop c e dout din true k i mask fla mem w).i,
          (xfer_loop c e dout din true k i mask fla mem w).mask,
          (xfer_loop c e dout din true k i mask fla mem w).mem,
          { (xfer_loop c e dout din true k i mask fla mem w).w with
            nctrl := (xfer_loop c e dout din true k i mask fla mem w).w.nctrl + 1 }⟩ := by
  intro k
  induction k with
  | zero =>
    intro n i mask fla mem w hn _ hk
    obtain ⟨n2, rfl⟩ : ∃ n2, n = n2 + 1 := ⟨n - 1, by omega⟩
    rw [xfer_loop_stop c e dout din n2 i mask fla mem w (by simpa using hk)]
    rfl
  | succ k ih =>
    intro n i mask fla mem w hn hpre hk
    obtain ⟨n2, rfl⟩ : ∃ n2, n = n2 + 1 := ⟨n - 1, by omega⟩
    have h0 : true = true → e.ctrl w.nctrl = false := fun _ => by
      simpa using hpre 0 (Nat.succ_pos k)
    rw [xfer_loop_go c e dout din true n2 i mask fla mem w h0,
      xfer_loop_go c e dout din true k i mask fla mem w h0]
    apply ih
    · omega
    · intro j hj
      rw [xfer_body_nctrl, afterChk_nctrl]
      have := hpre (j + 1) (by omega)
      rw [← this]; congr 1; simp; omega
    · rw [xfer_body_nctrl, afterChk_nctrl]
      rw [← hk]; congr 1; simp; omega

/-- A cancelled loop was cancellable and met its first pending cancellation
at some check `k`. -/
theorem xfer_loop_cancelled (c : Consts) (e : Env) (dout din : Option Nat) (intr : Bool) :
    ∀ (n i mask fla : Nat) (mem : Mem) (w : World),
      (xfer_loop c e dout din intr n i mask fla mem w).cancelled = true →
      intr = true ∧ ∃ k, k < n ∧ (∀ j, j < k → e.ctrl (w.nctrl + j) = false) ∧
        e.ctrl (w.nctrl + k) = true := by
  intro n
  induction n with
  | zero => intro i mask fla mem w h; simp [xfer_loop_zero] at h
  | succ n ih =>
    intro i mask fla mem w h
    by_cases h0 : intr = true ∧ e.ctrl w.nctrl = true
    · exact ⟨h0.1, 0, Nat.succ_pos n, fun j hj => absurd hj (Nat.not_lt_zero j), by simpa using h0.2⟩
    · have h1 : intr = true → e.ctrl w.nctrl = false := by
        intro hi
        cases hc : e.ctrl w.nctrl
        · rfl
        · exact absurd ⟨hi, hc⟩ h0
      rw [xfer_loop_go c e dout din intr n i mask fla mem w h1] at h
      obtain ⟨hi, k, hk, hpre, hat⟩ := ih _ _ _ _ _ h
      rw [xfer_body_nctrl, afterChk_nctrl] at hpre hat
      simp only [hi, if_true] at hpre hat
      refine ⟨hi, k + 1, by omega, ?_, ?_⟩
      · intro j hj
        cases j with
        | zero => simpa using h1 hi
        | succ j =>
          have := hpre j (by omega)
          rw [← this]; congr 1; omega
      · rw [← hat]; congr 1; omega

/-- The register writes of an uncancelled loop, whatever the buffers: those
of `xferWrites` for some output bits. -/
theorem xfer_loop_shape (c : Consts) (e : Env) (dout din : Option Nat) (intr : Bool) :
    ∀ (k i fla : Nat) (mem : Mem) (w : World),
      (xfer_loop c e dout din intr k i (maskOf i) fla mem w).cancelled = false →
      ∃ bits : Nat → Bool,
        (xfer_loop c e dout din intr k i (maskOf i) fla mem w).w.writes
          = w.writes ++ xferWrites c e bits k i fla w.nread := by
  intro k
  induction k with
  | zero => intro i fla mem w _; exact ⟨fun _ => false, by simp [xfer_loop_zero, xferWrites]⟩
  | succ k ih =>
    intro i fla mem w hc
    have h0 := xfer_loop_first c e dout din intr k i (maskOf i) fla mem w hc
    rw [xfer_loop_go c e dout din intr k i (maskOf i) fla mem w h0] at hc ⊢
    rw [nextMask_maskOf] at hc ⊢
    obtain ⟨bits, hb⟩ := ih _ _ _ _ hc
    refine ⟨fun m => if m = i then outbit dout mem i (maskOf i) else bits m, ?_⟩
    rw [hb, xfer_body_writes, xfer_body_nread, xfer_body_fla]
    simp only [afterChk_nread, afterChk_writes, xferWrites, if_true]
    rw [xferWrites_congr c e bits
      (fun m => if m = i then outbit dout mem i (maskOf i) else bits m) k (i + 1) _ _
      (fun m h1 _ => by have hm : m ≠ i := by omega
                        simp [hm])]
    simp

/-- A transfer that does not return 0 was cancellable and met its first
pending cancellation at some check `k` before bit `k < n`. -/
theorem xfer_cancelled (c : Consts) (e : Env) (n : Nat) (dout din : Option Nat) (intr : Bool)
    (mem : Mem) (w : World) (h : (e1000_spi_xfer c e n dout din intr mem w).1 ≠ 0) :
    intr = true ∧ ∃ k, k < n ∧ (∀ j, j < k → e.ctrl (w.nctrl + j) = false) ∧
      e.ctrl (w.nctrl + k) = true := by
  rw [xfer_ret] at h
  have hc : (xferLoopOf c e n dout din intr mem w).cancelled = true := by
    cases hx : (xferLoopOf c e n dout din intr mem w).cancelled
    · rw [hx] at h; simp at h
    · rfl
  exact xfer_loop_cancelled c e dout din intr n 0 (maskOf 0) (rdAt e w.nread) mem
    ⟨w.nread + 1, w.nctrl, w.writes, w.calls ++ [xferCall n dout din intr mem]⟩ hc

/-- A cancellable transfer whose first pending cancellation is met at the
check before bit `k < n`: result, memory, counters and register writes. -/
theorem xfer_cancel_at (c : Consts) (e : Env) (n k : Nat) (dout din : Option Nat)
    (mem : Mem) (w : World) (hk : k < n)
    (hpre : ∀ j, j < k → e.ctrl (w.nctrl + j) = false) (hat : e.ctrl (w.nctrl + k) = true) :
    (e1000_spi_xfer c e n dout din true mem w).1 = -1 ∧
    (e1000_spi_xfer c e n dout din true mem w).2.1 = captureAll c e din k 0 (w.nread + 1) mem ∧
    (e1000_spi_xfer c e n dout din true mem w).2.2.nread = w.nread + 1 + k ∧
    (e1000_spi_xfer c e n dout din true mem w).2.2.nctrl = w.nctrl + k + 1 ∧
    (e1000_spi_xfer c e n dout din true mem w).2.2.calls
      = w.calls ++ [xferCall n dout din true mem] ∧
    (∃ bits : Nat → Bool, (e1000_spi_xfer c e n dout din true mem w).2.2.writes
      = w.writes ++ xferWrites c e bits k 0 (rdAt e w.nread) (w.nread + 1)) ∧
    (AliasOK dout din k → (e1000_spi_xfer c e n dout din true mem w).2.2.writes
      = w.writes ++ xferWrites c e (fun m => outbit dout mem m (maskOf m)) k 0
          (rdAt e w.nread) (w.nread + 1)) := by
  have hL := xfer_loop_cancel_at c e dout din k n 0 (maskOf 0) (rdAt e w.nread) mem
    ⟨w.nread + 1, w.nctrl, w.writes, w.calls ++ [xferCall n dout din true mem]⟩ hk hpre hat
  have hnc := xfer_loop_nocancel c e dout din true k 0 (maskOf 0) (rdAt e w.nread) mem
    ⟨w.nread + 1, w.nctrl, w.writes, w.calls ++ [xferCall n dout din true mem]⟩
    (fun _ j hj => hpre j hj)
  obtain ⟨_, _, hm, hr, hcl, hct, _⟩ := xfer_loop_ok c e dout din true k 0 (rdAt e w.nread) mem
    ⟨w.nread + 1, w.nctrl, w.writes, w.calls ++ [xferCall n dout din true mem]⟩ hnc
  have hsh := xfer_loop_shape c e dout din true k 0 (rdAt e w.nread) mem
    ⟨w.nread + 1, w.nctrl, w.writes, w.calls ++ [xferCall n dout din true mem]⟩ hnc
  have hwr := fun hal : AliasOK dout din k =>
    xfer_loop_writes c e dout din true k 0 (rdAt e w.nread) mem
    ⟨w.nread + 1, w.nctrl, w.writes, w.calls ++ [xferCall n dout din true mem]⟩
    (by simpa using hal) hnc
  rw [xfer_eq]
  unfold xferLoopOf
  rw [hL]
  simp only [if_true]
  refine ⟨trivial, hm, ?_, ?_, hcl, hsh, hwr⟩
  · simpa using hr
  · simp [hct]

/-! ## Cancellation of a transfer -/

theorem xferWrites_edges (c : Consts) (e : Env) (bit : Nat → Bool) (k i fla nread : Nat) :
    EdgePairs c (xferWrites c e bit k i fla nread) k := by
  refine ⟨xferWrites_length c e bit k i fla nread, fun j hj => ?_⟩
  obtain ⟨h0, h1, h2⟩ := xferWrites_get c e bit k i fla nread j hj
  exact ⟨_, _, h0, h1, h2⟩

/-- The register writes of a transfer that returned 0, whatever the
buffers. -/
theorem xfer_ok_shape (c : Consts) (e : Env) (n : Nat) (dout din : Option Nat) (intr : Bool)
    (mem : Mem) (w : World) (hok : (e1000_spi_xfer c e n dout din intr mem w).1 = 0) :
    ∃ bits : Nat → Bool, (e1000_spi_xfer c e n dout din intr mem w).2.2.writes
      = w.writes ++ xferWrites c e bits n 0 (rdAt e w.nread) (w.nread + 1) := by
  have hc := xfer_ok c e n dout din intr mem w hok
  have hsh := xfer_loop_shape c e dout din intr n 0 (rdAt e w.nread) mem
    ⟨w.nread + 1, w.nctrl, w.writes, w.calls ++ [xferCall n dout din intr mem]⟩ hc
  rw [xfer_eq]
  rw [hc]
  exact hsh

/-- C12: for every bit length `n` and `k < n`, a cancellable transfer whose
cancellation signal is first pending at the check before bit `k` returns -1,
has issued exactly `k` rising and `k` falling clock edges (exactly `3 * k`
register writes) and leaves the destination bits of index `k` and above, and
every byte outside the destination, unmodified; a transfer that is not
cancellable, or meets no pending cancellation at any of its `n` checks,
returns 0 and has issued exactly `n` edge pairs (`3 * n` register
writes). -/
theorem C12_xfer_cancellation (c : Consts) (e : Env) (n : Nat) (dout din : Option Nat)
    (intr : Bool) (mem : Mem) (w : World) :
    (∀ k, k < n → intr = true → (∀ j, j < k → e.ctrl (w.nctrl + j) = false) →
      e.ctrl (w.nctrl + k) = true →
      (e1000_spi_xfer c e n dout din intr mem w).1 = -1 ∧
      (∃ l, (e1000_spi_xfer c e n dout din intr mem w).2.2.writes = w.writes ++ l ∧
        l.length = 3 * k ∧ EdgePairs c l k) ∧
      (∀ a, din = some a →
        (∀ m, k ≤ m → getBit (e1000_spi_xfer c e n dout din intr mem w).2.1 a m = getBit mem a m) ∧
        (∀ x, x < a ∨ a + (k + 7) / 8 ≤ x →
          (e1000_spi_xfer c e n dout din intr mem w).2.1 x = mem x))) ∧
    ((intr = false ∨ ∀ j, j < n → e.ctrl (w.nctrl + j) = false) →
      (e1000_spi_xfer c e n dout din intr mem w).1 = 0 ∧
      ∃ l, (e1000_spi_xfer c e n dout din intr mem w).2.2.writes = w.writes ++ l ∧
        l.length = 3 * n ∧ EdgePairs c l n) := by
  constructor
  · intro k hk hi hpre hat
    subst hi
    obtain ⟨hr, hm, _, _, _, ⟨bits, hb⟩, _⟩ := xfer_cancel_at c e n k dout din mem w hk hpre hat
    refine ⟨hr, ⟨_, hb, xferWrites_length c e bits k 0 _ _, xferWrites_edges c e bits k 0 _ _⟩, ?_⟩
    intro a ha
    subst ha
    rw [hm]
    refine ⟨fun m hm2 => ?_, fun x hx => ?_⟩
    · rw [getBit_captureAll, if_neg (by omega)]
    · exact captureAll_other c e a k 0 _ mem x (by simpa using hx)
  · intro h
    have hok : (e1000_spi_xfer c e n dout din intr mem w).1 = 0 := by
      apply xfer_nocancel
      intro hi
      rcases h with h | h
      · rw [h] at hi; exact absurd hi (by decide)
      · exact h
    obtain ⟨bits, hb⟩ := xfer_ok_shape c e n dout din intr mem w hok
    exact ⟨hok, _, hb, xferWrites_length c e bits n 0 _ _, xferWrites_edges c e bits n 0 _ _⟩

/-- C12 at two concrete 16-bit transfers: one cancelled at the check before
bit 4 (its 5th bit), one never cancelled. -/
theorem C12_xfer_cancellation_witness :
    ((e1000_spi_xfer exampleConsts (ctrlcAt 4) 16 (some 0) (some 0) true (opMem [5, 0])
        World.init).1 = -1 ∧
      (∃ l, (e1000_spi_xfer exampleConsts (ctrlcAt 4) 16 (some 0) (some 0) true (opMem [5, 0])
          World.init).2.2.writes = World.init.writes ++ l ∧
        l.length = 3 * 4 ∧ EdgePairs exampleConsts l 4) ∧
      (∀ a, some 0 = some a →
        (∀ m, 4 ≤ m → getBit (e1000_spi_xfer exampleConsts (ctrlcAt 4) 16 (some 0) (some 0) true
            (opMem [5, 0]) World.init).2.1 a m = getBit (opMem [5, 0]) a m) ∧
        (∀ x, x < a ∨ a + (4 + 7) / 8 ≤ x →
          (e1000_spi_xfer exampleConsts (ctrlcAt 4) 16 (some 0) (some 0) true (opMem [5, 0])
            World.init).2.1 x = opMem [5, 0] x))) ∧
    ((e1000_spi_xfer exampleConsts exampleEnv 16 (some 0) (some 0) true (opMem [5, 0])
        World.init).1 = 0 ∧
      ∃ l, (e1000_spi_xfer exampleConsts exampleEnv 16 (some 0) (some 0) true (opMem [5, 0])
          World.init).2.2.writes = World.init.writes ++ l ∧
        l.length = 3 * 16 ∧ EdgePairs exampleConsts l 16) :=
  ⟨(C12_xfer_cancellation exampleConsts (ctrlcAt 4) 16 (some 0) (some 0) true (opMem [5, 0])
      World.init).1 4 (by decide) rfl (by decide) (by decide),
   (C12_xfer_cancellation exampleConsts exampleEnv 16 (some 0) (some 0) true (opMem [5, 0])
      World.init).2 (Or.inr (fun _ _ => rfl))⟩

/-! ## Propagation of a cancelled status read -/

theorem read_status_eq (c : Consts) (e : Env) (hw : e1000_hw) (intr : Bool) (w : World) :
    e1000_spi_flash_read_status c e hw intr w =
      if (statusXfer c e hw intr w).1 ≠ 0 then ((-1 : Int), (statusXfer c e hw intr w).2.2)
      else (((load (statusXfer c e hw intr w).2.1 1 : Nat) : Int), (statusXfer c e hw intr w).2.2) := rfl

/-- A status read whose transfer is cancelled returns -1 in the state the
transfer left. -/
theorem read_status_cancelled (c : Consts) (e : Env) (hw : e1000_hw) (intr : Bool) (w : World)
    (hx : (statusXfer c e hw intr w).1 ≠ 0) :
    e1000_spi_flash_read_status c e hw intr w = (-1, (statusXfer c e hw intr w).2.2) := by
  rw [read_status_eq, if_pos hx]

/-- After `j` status reads that return a busy status, the poll loop with
fuel `j + fuel` goes on as the poll loop with fuel `fuel`. -/
theorem poll_loop_busy_steps (c : Consts) (e : Env) (hw : e1000_hw) (intr : Bool) :
    ∀ (j fuel : Nat) (w : World),
      (∀ i, i < j →
        0 ≤ (e1000_spi_flash_read_status c e hw intr (pollState c e hw intr i w)).1 ∧
        ((e1000_spi_flash_read_status c e hw intr (pollState c e hw intr i w)).1.toNat
          &&& SPI_FLASH_STATUS_BUSY == 0) = false) →
      poll_loop c e hw intr (j + fuel) w = poll_loop c e hw intr fuel (pollState c e hw intr j w) := by
  intro j
  induction j with
  | zero => intro fuel w _; simp [pollState]
  | succ j ih =>
    intro fuel w h
    have e1 : j + 1 + fuel = (j + fuel) + 1 := by omega
    obtain ⟨h0, hb⟩ := h 0 (Nat.succ_pos j)
    simp only [pollState] at h0 hb
    rw [e1, pollState]
    simp only [poll_loop, ge_iff_le, h0, if_true, hb]
    simp only [Bool.false_eq_true, if_false]
    apply ih
    intro i hi
    have := h (i + 1) (by omega)
    simpa only [pollState] using this

/-- C11: whenever the 16-bit status transfer issued by
`e1000_spi_flash_read_status` is cancelled (here in the status read number
`j` of the initial wait of a dump, after `j` reads that returned a busy
status), the transfer, the status read, `e1000_spi_flash_poll_ready` and
`e1000_spi_flash_dump` each return -1, and each of them leaves the state the
transfer left when it detected the cancellation at its check `k`: the
register writes are those of the `k` clock cycles completed before that
check, and the dump has issued no `read_page`. -/
theorem C11_status_cancel_propagates (c : Consts) (e : Env) (hw : e1000_hw) (intr : Bool)
    (data off len j fuel : Nat) (mem : Mem) (w : World)
    (hbusy : ∀ i, i < j →
      0 ≤ (e1000_spi_flash_read_status c e hw intr
            (pollState c e hw intr i (w.log .poll_ready))).1 ∧
      ((e1000_spi_flash_read_status c e hw intr
            (pollState c e hw intr i (w.log .poll_ready))).1.toNat
          &&& SPI_FLASH_STATUS_BUSY == 0) = false)
    (hx : (statusXfer c e hw intr (pollState c e hw intr j (w.log .poll_ready))).1 ≠ 0) :
    (statusXfer c e hw intr (pollState c e hw intr j (w.log .poll_ready))).1 = -1 ∧
    e1000_spi_flash_read_status c e hw intr (pollState c e hw intr j (w.log .poll_ready))
      = (-1, (statusXfer c e hw intr (pollState c e hw intr j (w.log .poll_ready))).2.2) ∧
    e1000_spi_flash_poll_ready c e hw intr (j + (fuel + 1)) w
      = some (-1, (statusXfer c e hw intr (pollState c e hw intr j (w.log .poll_ready))).2.2) ∧
    e1000_spi_flash_dump c e hw data off len intr (j + (fuel + 1)) mem w
      = some (-1, mem,
          (statusXfer c e hw intr (pollState c e hw intr j (w.log .poll_ready))).2.2) ∧
    (∃ k, k < 16 ∧ intr = true ∧
      (∀ i, i < k → e.ctrl ((pollState c e hw intr j (w.log .poll_ready)).nctrl + i) = false) ∧
      e.ctrl ((pollState c e hw intr j (w.log .poll_ready)).nctrl + k) = true ∧
      ∃ l, (statusXfer c e hw intr (pollState c e hw intr j (w.log .poll_ready))).2.2.writes
          = (e1000_standby_flash c e hw
              ((pollState c e hw intr j (w.log .poll_ready)).log .read_status)).writes ++ l ∧
        EdgePairs c l k) ∧
    readPages (statusXfer c e hw intr (pollState c e hw intr j (w.log .poll_ready))).2.2.calls
      = readPages w.calls := by
  have hrs := read_status_cancelled c e hw intr _ hx
  have hpl : e1000_spi_flash_poll_ready c e hw intr (j + (fuel + 1)) w
      = some (-1, (statusXfer c e hw intr (pollState c e hw intr j (w.log .poll_ready))).2.2) := by
    unfold e1000_spi_flash_poll_ready
    rw [poll_loop_busy_steps c e hw intr j (fuel + 1) _ hbusy]
    simp only [poll_loop, hrs]
    rfl
  obtain ⟨hi, k, hk, hpre, hat⟩ := xfer_cancelled c e (8 * 2) (some 0) (some 0) intr
    (opMem [SPI_FLASH_READ_STATUS, 0]) _ hx
  subst hi
  obtain ⟨hr, _, _, _, hcalls, ⟨bits, hb⟩, _⟩ := xfer_cancel_at c e (8 * 2) k (some 0) (some 0)
    (opMem [SPI_FLASH_READ_STATUS, 0]) _ hk hpre hat
  rw [standby_nctrl] at hpre hat
  refine ⟨hr, hrs, hpl, ?_, ⟨k, hk, rfl, hpre, hat, _, hb, xferWrites_edges c e bits k 0 _ _⟩, ?_⟩
  · unfold e1000_spi_flash_dump
    rw [hpl]
    rfl
  · unfold statusXfer
    rw [hcalls, standby_calls]
    simp only [World.log, pollState_calls, readPages_append, readPages_pollCalls]
    simp [readPages, xferCall]

/-- C11 at a concrete dump: the first status read returns a busy status, the
second is cancelled at its 5th bit, after the 2 register writes of the
standby and the 12 of 4 clock cycles. -/
theorem C11_status_cancel_propagates_witness :
    (statusXfer exampleConsts (busyCtrlcAt 20) exampleHw true
      (pollState exampleConsts (busyCtrlcAt 20) exampleHw true 1
        (World.init.log .poll_ready))).2.2.writes.length = (2 + 3 * 16) + (2 + 3 * 4) ∧
    (statusXfer exampleConsts (busyCtrlcAt 20) exampleHw true
      (pollState exampleConsts (busyCtrlcAt 20) exampleHw true 1
        (World.init.log .poll_ready))).1 = -1 ∧
    e1000_spi_flash_read_status exampleConsts (busyCtrlcAt 20) exampleHw true
        (pollState exampleConsts (busyCtrlcAt 20) exampleHw true 1 (World.init.log .poll_ready))
      = (-1, (statusXfer exampleConsts (busyCtrlcAt 20) exampleHw true
          (pollState exampleConsts (busyCtrlcAt 20) exampleHw true 1
            (World.init.log .poll_ready))).2.2) ∧
    e1000_spi_flash_poll_ready exampleConsts (busyCtrlcAt 20) exampleHw true (1 + (0 + 1))
        World.init
      = some (-1, (statusXfer exampleConsts (busyCtrlcAt 20) exampleHw true
          (pollState exampleConsts (busyCtrlcAt 20) exampleHw true 1
            (World.init.log .poll_ready))).2.2) ∧
    e1000_spi_flash_dump exampleConsts (busyCtrlcAt 20) exampleHw 0 0 4 true (1 + (0 + 1))
        (fun _ => 0) World.init
      = some (-1, fun _ => 0, (statusXfer exampleConsts (busyCtrlcAt 20) exampleHw true
          (pollState exampleConsts (busyCtrlcAt 20) exampleHw true 1
            (World.init.log .poll_ready))).2.2) ∧
    (∃ k, k < 16 ∧ true = true ∧
      (∀ i, i < k → (busyCtrlcAt 20).ctrl
        ((pollState exampleConsts (busyCtrlcAt 20) exampleHw true 1
          (World.init.log .poll_ready)).nctrl + i) = false) ∧
      (busyCtrlcAt 20).ctrl
        ((pollState exampleConsts (busyCtrlcAt 20) exampleHw true 1
          (World.init.log .poll_ready)).nctrl + k) = true ∧
      ∃ l, (statusXfer exampleConsts (busyCtrlcAt 20) exampleHw true
            (pollState exampleConsts (busyCtrlcAt 20) exampleHw true 1
              (World.init.log .poll_ready))).2.2.writes
          = (e1000_standby_flash exampleConsts (busyCtrlcAt 20) exampleHw
              ((pollState exampleConsts (busyCtrlcAt 20) exampleHw true 1
                (World.init.log .poll_ready)).log .read_status)).writes ++ l ∧
        EdgePairs exampleConsts l k) ∧
    readPages (statusXfer exampleConsts (busyCtrlcAt 20) exampleHw true
      (pollState exampleConsts (busyCtrlcAt 20) exampleHw true 1
        (World.init.log .poll_ready))).2.2.calls = readPages World.init.calls :=
  ⟨by decide,
   C11_status_cancel_propagates exampleConsts (busyCtrlcAt 20) exampleHw true 0 0 4 1 0
    (fun _ => 0) World.init (by decide) (by decide)⟩

/-! ## Bus arbitration -/

/-- The grant polling loop: it performs `m ≤ k` register reads and no
register write, stops before `k` reads only on a value with GNT set, and
returns the last value, having seen GNT in none before. -/
theorem acquire_poll_spec (c : Consts) (e : Env) :
    ∀ (k fla : Nat) (w : World),
      (acquire_poll c e k fla w).2.writes = w.writes ∧
      (acquire_poll c e k fla w).2.nctrl = w.nctrl ∧
      ∃ m, m ≤ k ∧ (acquire_poll c e k fla w).2.nread = w.nread + m ∧
        (acquire_poll c e k fla w).1 = pollVal e fla w.nread m ∧
        (∀ j, j < m → pollVal e fla w.nread j &&& c.E1000_FL_GNT = 0) ∧
        (m < k → pollVal e fla w.nread m &&& c.E1000_FL_GNT ≠ 0) := by
  intro k
  induction k with
  | zero =>
    intro fla w
    exact ⟨rfl, rfl, 0, le_refl _, rfl, rfl, fun j hj => absurd hj (Nat.not_lt_zero j),
      fun h => absurd h (Nat.not_lt_zero 0)⟩
  | succ k ih =>
    intro fla w
    simp only [acquire_poll]
    by_cases hg : fla &&& c.E1000_FL_GNT = 0
    · have hg2 : (fla &&& c.E1000_FL_GNT != 0) = false := by simp [hg]
      rw [hg2]
      simp only [Bool.false_eq_true, if_false]
      obtain ⟨hw, hc, m, hm, hn, hv, hpre, hstop⟩ := ih (READ_REG e w).1 (READ_REG e w).2
      refine ⟨hw, hc, m + 1, by omega, ?_, ?_, ?_, ?_⟩
      · rw [hn]; simp only [READ_REG]; omega
      · rw [hv]
        cases m with
        | zero => rfl
        | succ m => simp only [pollVal, READ_REG]; congr 1; omega
      · intro j hj
        cases j with
        | zero => exact hg
        | succ j =>
          have := hpre j (by omega)
          cases j with
          | zero => exact this
          | succ j =>
            simp only [pollVal, READ_REG] at this ⊢
            rw [← this]; congr 2; omega
      · intro hlt
        have := hstop (by omega)
        cases m with
        | zero => exact this
        | succ m =>
          simp only [pollVal, READ_REG] at this ⊢
          intro h0; apply this; rw [← h0]; congr 2; omega
    · have hg2 : (fla &&& c.E1000_FL_GNT != 0) = true := by simp [hg]
      rw [hg2]
      simp only [if_true]
      exact ⟨trivial, trivial, 0, Nat.zero_le _, rfl, rfl,
        fun j hj => absurd hj (Nat.not_lt_zero j), fun _ => hg⟩

theorem or_and_disjoint (x m s : Nat) (h : m &&& s = 0) : (x ||| m) &&& s = x &&& s := by
  apply Nat.eq_of_testBit_eq
  intro i
  have hi : (m &&& s).testBit i = false := by rw [h]; exact Nat.zero_testBit i
  rw [Nat.testBit_and] at hi
  rw [Nat.testBit_and, Nat.testBit_and, Nat.testBit_or]
  cases hx : x.testBit i <;> cases hm : m.testBit i <;> cases hs : s.testBit i <;> simp_all

theorem and_bnot32_self (x m : Nat) (hm : m < 4294967296) : (x &&& bnot32 m) &&& m = 0 := by
  apply Nat.eq_of_testBit_eq
  intro i
  rw [Nat.testBit_and, Nat.testBit_and, testBit_bnot32, Nat.zero_testBit]
  by_cases hi : i < 32
  · cases hmi : m.testBit i <;> simp [hi]
  · have : m.testBit i = false := by
      apply Nat.testBit_lt_two_pow
      calc m < 2 ^ 32 := hm
        _ ≤ 2 ^ i := Nat.pow_le_pow_right (by decide) (by omega)
    simp [this]

/-- The facts about `e1000_acquire_flash` with a FLASH attached: the number
`m` of polling reads, what they returned, and the result. -/
theorem acquire_flash_spec (c : Consts) (e : Env) (hw : e1000_hw) (w : World)
    (hflash : hw.type_is_flash = true)
    (hRG : c.E1000_FL_REQ &&& c.E1000_FL_GNT = 0) (hREQ : c.E1000_FL_REQ < 4294967296) :
    ∃ m, m ≤ c.E1000_EEPROM_GRANT_ATTEMPTS ∧
      (e1000_acquire_flash c e hw w).2.nread = w.nread + 1 + m ∧
      (∀ j, j < m → rdAt e (w.nread + j) &&& c.E1000_FL_GNT = 0) ∧
      (m < c.E1000_EEPROM_GRANT_ATTEMPTS → rdAt e (w.nread + m) &&& c.E1000_FL_GNT ≠ 0) ∧
      (rdAt e (w.nread + m) &&& c.E1000_FL_GNT ≠ 0 →
        (e1000_acquire_flash c e hw w).1 = c.E1000_SUCCESS) ∧
      (rdAt e (w.nread + m) &&& c.E1000_FL_GNT = 0 →
        (e1000_acquire_flash c e hw w).1 = -c.E1000_ERR_EEPROM ∧
        ∃ v, (e1000_acquire_flash c e hw w).2.writes.getLast? = some v ∧
          v &&& c.E1000_FL_REQ = 0) := by
  have hval : ∀ j, pollVal e (rdAt e w.nread ||| c.E1000_FL_REQ) (w.nread + 1) j
      &&& c.E1000_FL_GNT = rdAt e (w.nread + j) &&& c.E1000_FL_GNT := by
    intro j
    cases j with
    | zero => exact or_and_disjoint _ _ _ hRG
    | succ j => simp only [pollVal]; congr 2; omega
  obtain ⟨hwr, _, m, hm, hn, hv, hpre, hstop⟩ := acquire_poll_spec c e
    c.E1000_EEPROM_GRANT_ATTEMPTS (rdAt e w.nread ||| c.E1000_FL_REQ)
    (WRITE_REG (READ_REG e (w.log .acquire)).2 (rdAt e w.nread ||| c.E1000_FL_REQ))
  have hunf : e1000_acquire_flash c e hw w =
      if (acquire_poll c e c.E1000_EEPROM_GRANT_ATTEMPTS (rdAt e w.nread ||| c.E1000_FL_REQ)
          (WRITE_REG (READ_REG e (w.log .acquire)).2 (rdAt e w.nread ||| c.E1000_FL_REQ))).1
          &&& c.E1000_FL_GNT == 0
      then (-c.E1000_ERR_EEPROM,
        WRITE_REG (acquire_poll c e c.E1000_EEPROM_GRANT_ATTEMPTS
            (rdAt e w.nread ||| c.E1000_FL_REQ)
            (WRITE_REG (READ_REG e (w.log .acquire)).2 (rdAt e w.nread ||| c.E1000_FL_REQ))).2
          ((acquire_poll c e c.E1000_EEPROM_GRANT_ATTEMPTS (rdAt e w.nread ||| c.E1000_FL_REQ)
            (WRITE_REG (READ_REG e (w.log .acquire)).2 (rdAt e w.nread ||| c.E1000_FL_REQ))).1
            &&& bnot32 c.E1000_FL_REQ))
      else (c.E1000_SUCCESS,
        WRITE_REG (acquire_poll c e c.E1000_EEPROM_GRANT_ATTEMPTS
            (rdAt e w.nread ||| c.E1000_FL_REQ)
            (WRITE_REG (READ_REG e (w.log .acquire)).2 (rdAt e w.nread ||| c.E1000_FL_REQ))).2
          ((acquire_poll c e c.E1000_EEPROM_GRANT_ATTEMPTS (rdAt e w.nread ||| c.E1000_FL_REQ)
            (WRITE_REG (READ_REG e (w.log .acquire)).2 (rdAt e w.nread ||| c.E1000_FL_REQ))).1
            &&& bnot32 (c.E1000_FL_SI ||| c.E1000_FL_CEN ||| c.E1000_FL_NVM_SK))) := by
    unfold e1000_acquire_flash
    simp only [hflash, if_true]
    rfl
  have hnr : (WRITE_REG (READ_REG e (w.log .acquire)).2
      (rdAt e w.nread ||| c.E1000_FL_REQ)).nread = w.nread + 1 := rfl
  rw [hnr] at hn hv hpre hstop
  have hn2 : (e1000_acquire_flash c e hw w).2.nread = w.nread + 1 + m := by
    rw [hunf]
    split <;> exact hn
  refine ⟨m, hm, hn2, fun j hj => by rw [← hval]; exact hpre j hj,
    fun h => by rw [← hval]; exact hstop h, ?_, ?_⟩
  · intro hg
    rw [← hval, ← hv] at hg
    rw [hunf, if_neg (by simpa using hg)]
  · intro hg
    rw [← hval, ← hv] at hg
    rw [hunf, if_pos (by simpa using hg)]
    refine ⟨rfl, _, ?_, and_bnot32_self ((acquire_poll c e c.E1000_EEPROM_GRANT_ATTEMPTS
      (rdAt e w.nread ||| c.E1000_FL_REQ)
      (WRITE_REG (READ_REG e (w.log .acquire)).2 (rdAt e w.nread ||| c.E1000_FL_REQ))).1)
      _ hREQ⟩
    simp [WRITE_REG]

/-- C13: with a FLASH attached and for every sequence of register reads,
`e1000_acquire_flash` returns after `m ≤ E1000_EEPROM_GRANT_ATTEMPTS`
polling reads (it stops earlier than the bound only on a read with GNT set);
it returns `E1000_SUCCESS` exactly when GNT is set in the initial read
(`j = 0`) or in one of those polling reads (`1 ≤ j ≤ m`); when GNT was never
observed it returns `-E1000_ERR_EEPROM` and the last value it writes has REQ
cleared. -/
theorem C13_acquire_grant (c : Consts) (e : Env) (hw : e1000_hw) (w : World)
    (hflash : hw.type_is_flash = true)
    (hRG : c.E1000_FL_REQ &&& c.E1000_FL_GNT = 0) (hREQ : c.E1000_FL_REQ < 4294967296)
    (hne : c.E1000_SUCCESS ≠ -c.E1000_ERR_EEPROM) :
    ∃ m, m ≤ c.E1000_EEPROM_GRANT_ATTEMPTS ∧
      (e1000_acquire_flash c e hw w).2.nread = w.nread + 1 + m ∧
      (m < c.E1000_EEPROM_GRANT_ATTEMPTS → rdAt e (w.nread + m) &&& c.E1000_FL_GNT ≠ 0) ∧
      ((e1000_acquire_flash c e hw w).1 = c.E1000_SUCCESS ↔
        ∃ j, j ≤ m ∧ rdAt e (w.nread + j) &&& c.E1000_FL_GNT ≠ 0) ∧
      ((∀ j, j ≤ m → rdAt e (w.nread + j) &&& c.E1000_FL_GNT = 0) →
        (e1000_acquire_flash c e hw w).1 = -c.E1000_ERR_EEPROM ∧
        ∃ v, (e1000_acquire_flash c e hw w).2.writes.getLast? = some v ∧
          v &&& c.E1000_FL_REQ = 0) := by
  obtain ⟨m, hm, hn, hpre, hstop, hyes, hno⟩ := acquire_flash_spec c e hw w hflash hRG hREQ
  refine ⟨m, hm, hn, hstop, ⟨fun hs => ?_, fun hj => ?_⟩, fun h => hno (h m (le_refl m))⟩
  · by_cases hg : rdAt e (w.nread + m) &&& c.E1000_FL_GNT = 0
    · rw [(hno hg).1] at hs
      exact absurd hs.symm hne
    · exact ⟨m, le_refl m, hg⟩
  · obtain ⟨j, hjm, hg⟩ := hj
    apply hyes
    rcases Nat.lt_or_ge j m with h | h
    · exact absurd (hpre j h) hg
    · have : j = m := by omega
      rw [← this]; exact hg

/-- C13 at a concrete bus that never grants: every register read is 0. -/
theorem C13_acquire_grant_witness :
    exampleHw.type_is_flash = true ∧
    ∃ m, m ≤ exampleConsts.E1000_EEPROM_GRANT_ATTEMPTS ∧
      (e1000_acquire_flash exampleConsts idleEnv exampleHw World.init).2.nread
        = World.init.nread + 1 + m ∧
      (m < exampleConsts.E1000_EEPROM_GRANT_ATTEMPTS →
        rdAt idleEnv (World.init.nread + m) &&& exampleConsts.E1000_FL_GNT ≠ 0) ∧
      ((e1000_acquire_flash exampleConsts idleEnv exampleHw World.init).1
          = exampleConsts.E1000_SUCCESS ↔
        ∃ j, j ≤ m ∧ rdAt idleEnv (World.init.nread + j) &&& exampleConsts.E1000_FL_GNT ≠ 0) ∧
      ((∀ j, j ≤ m → rdAt idleEnv (World.init.nread + j) &&& exampleConsts.E1000_FL_GNT = 0) →
        (e1000_acquire_flash exampleConsts idleEnv exampleHw World.init).1
          = -exampleConsts.E1000_ERR_EEPROM ∧
        ∃ v, (e1000_acquire_flash exampleConsts idleEnv exampleHw World.init).2.writes.getLast?
            = some v ∧ v &&& exampleConsts.E1000_FL_REQ = 0) :=
  ⟨rfl, C13_acquire_grant exampleConsts idleEnv exampleHw World.init rfl (by decide)
    (by decide) (by decide)⟩

/-- C14: when the EEPROM type is not flash, for every register value
`e1000_acquire_flash` returns `E1000_SUCCESS`, and `e1000_acquire_flash`,
`e1000_release_flash` and `e1000_standby_flash` each perform no register
write, so that an acquire followed by a release leaves the register as it
was. -/
theorem C14_not_flash_no_write (c : Consts) (e : Env) (hw : e1000_hw) (w : World)
    (hflash : hw.type_is_flash = false) :
    (e1000_acquire_flash c e hw w).1 = c.E1000_SUCCESS ∧
    (e1000_acquire_flash c e hw w).2.writes = w.writes ∧
    (e1000_release_flash c e hw w).writes = w.writes ∧
    (e1000_standby_flash c e hw w).writes = w.writes ∧
    (e1000_release_flash c e hw (e1000_acquire_flash c e hw w).2).writes = w.writes := by
  simp [e1000_acquire_flash, e1000_release_flash, e1000_standby_flash, hflash, READ_REG,
    World.log]

/-- C14 at a concrete interface without FLASH. -/
theorem C14_not_flash_no_write_witness :
    eepromHw.type_is_flash = false ∧
    (e1000_acquire_flash exampleConsts exampleEnv eepromHw World.init).1
      = exampleConsts.E1000_SUCCESS ∧
    (e1000_acquire_flash exampleConsts exampleEnv eepromHw World.init).2.writes
      = World.init.writes ∧
    (e1000_release_flash exampleConsts exampleEnv eepromHw World.init).writes
      = World.init.writes ∧
    (e1000_standby_flash exampleConsts exampleEnv eepromHw World.init).writes
      = World.init.writes ∧
    (e1000_release_flash exampleConsts exampleEnv eepromHw
      (e1000_acquire_flash exampleConsts exampleEnv eepromHw World.init).2).writes
      = World.init.writes :=
  ⟨rfl, C14_not_flash_no_write exampleConsts exampleEnv eepromHw World.init rfl⟩

/-! ## Bits the core leaves alone -/

theorem AgreeOff.rfl (c : Consts) (r : Nat) : AgreeOff c r r := fun _ _ _ _ _ => Eq.refl _

theorem covered_SK (c : Consts) : Covered c c.E1000_FL_NVM_SK := fun _ h => Or.inl h

theorem covered_SI (c : Consts) : Covered c c.E1000_FL_SI := fun _ h => Or.inr (Or.inl h)

theorem covered_CEN (c : Consts) : Covered c c.E1000_FL_CEN :=
  fun _ h => Or.inr (Or.inr (Or.inl h))

theorem covered_REQ (c : Consts) : Covered c c.E1000_FL_REQ :=
  fun _ h => Or.inr (Or.inr (Or.inr h))

theorem covered_or (c : Consts) (m1 m2 : Nat) (h1 : Covered c m1) (h2 : Covered c m2) :
    Covered c (m1 ||| m2) := by
  intro j hj
  rw [Nat.testBit_or, Bool.or_eq_true] at hj
  rcases hj with h | h
  · exact h1 j h
  · exact h2 j h

theorem covered_off (c : Consts) (m j : Nat) (hm : Covered c m)
    (h1 : c.E1000_FL_NVM_SK.testBit j = false) (h2 : c.E1000_FL_SI.testBit j = false)
    (h3 : c.E1000_FL_CEN.testBit j = false) (h4 : c.E1000_FL_REQ.testBit j = false) :
    m.testBit j = false := by
  cases h : m.testBit j
  · rfl
  · rcases hm j h with h5 | h5 | h5 | h5
    · rw [h1] at h5; cases h5
    · rw [h2] at h5; cases h5
    · rw [h3] at h5; cases h5
    · rw [h4] at h5; cases h5

theorem agree_or (c : Consts) (v r m : Nat) (hm : Covered c m) (h : AgreeOff c v r) :
    AgreeOff c (v ||| m) r := by
  intro j h1 h2 h3 h4
  rw [Nat.testBit_or, covered_off c m j hm h1 h2 h3 h4, Bool.or_false]
  exact h j h1 h2 h3 h4

theorem rdAt_lt (e : Env) (k : Nat) : rdAt e k < 4294967296 :=
  Nat.mod_lt _ (by decide)

theorem testBit_ge_32 (r j : Nat) (hr : r < 4294967296) (hj : ¬ j < 32) : r.testBit j = false := by
  apply Nat.testBit_lt_two_pow
  calc r < 2 ^ 32 := hr
    _ ≤ 2 ^ j := Nat.pow_le_pow_right (by decide) (by omega)

theorem agree_andnot (c : Consts) (v r m : Nat) (hm : Covered c m) (hr : r < 4294967296)
    (h : AgreeOff c v r) : AgreeOff c (v &&& bnot32 m) r := by
  intro j h1 h2 h3 h4
  rw [Nat.testBit_and, testBit_bnot32, covered_off c m j hm h1 h2 h3 h4]
  by_cases hj : j < 32
  · simp [hj, h j h1 h2 h3 h4]
  · simp [hj, testBit_ge_32 r j hr hj]

theorem agree_setSI (c : Consts) (v r : Nat) (b : Bool) (hr : r < 4294967296)
    (h : AgreeOff c v r) : AgreeOff c (setSI c v b) r := by
  unfold setSI
  cases b
  · exact agree_andnot c v r _ (covered_SI c) hr h
  · exact agree_or c v r _ (covered_SI c) h

/-- Two values that agree off SK, SI, CEN and REQ agree under every mask
disjoint from these four. -/
theorem agree_mask (c : Consts) (v r m : Nat) (h : AgreeOff c v r)
    (hm : m &&& (c.E1000_FL_NVM_SK ||| c.E1000_FL_SI ||| c.E1000_FL_CEN ||| c.E1000_FL_REQ) = 0) :
    v &&& m = r &&& m := by
  apply Nat.eq_of_testBit_eq
  intro j
  rw [Nat.testBit_and, Nat.testBit_and]
  cases hmj : m.testBit j
  · simp
  · have h0 : (m &&& (c.E1000_FL_NVM_SK ||| c.E1000_FL_SI ||| c.E1000_FL_CEN
        ||| c.E1000_FL_REQ)).testBit j = false := by rw [hm]; exact Nat.zero_testBit j
    simp only [Nat.testBit_and, Nat.testBit_or, hmj, Bool.true_and, Bool.or_eq_false_iff] at h0
    obtain ⟨⟨⟨h1, h2⟩, h3⟩, h4⟩ := h0
    rw [h j h1 h2 h3 h4]

/-- Every write of the bit loop agrees with the most recent read off SK, SI,
CEN and REQ, when the cached value the loop was entered with does. -/
theorem xferWrites_agree (c : Consts) (e : Env) (bit : Nat → Bool) (k i nread p v : Nat)
    (hp : (xferWrites c e bit k i (rdAt e nread) (nread + 1))[p]? = some v) :
    AgreeOff c v (lastRead e nread p) := by
  have hlen := xferWrites_length c e bit k i (rdAt e nread) (nread + 1)
  have hpl : p < 3 * k := by
    rw [← hlen]
    exact (List.getElem?_eq_some_iff.mp hp).1
  obtain ⟨h0, h1, h2⟩ := xferWrites_get c e bit k i (rdAt e nread) (nread + 1) (p / 3) (by omega)
  have hfla : AgreeOff c (flaIn c e (rdAt e nread) (nread + 1) (p / 3)) (rdAt e (nread + p / 3)) := by
    cases hj : p / 3 with
    | zero => exact AgreeOff.rfl c _
    | succ j =>
      simp only [flaIn]
      have e1 : nread + 1 + j = nread + (j + 1) := by omega
      rw [e1]
      exact agree_andnot c _ _ _ (covered_SK c) (rdAt_lt e _) (AgreeOff.rfl c _)
  unfold lastRead
  rcases (by omega : p = 3 * (p / 3) ∨ p = 3 * (p / 3) + 1 ∨ p = 3 * (p / 3) + 2) with h | h | h
  · rw [← h, hp] at h0
    have e1 : (p + 1) / 3 = p / 3 := by omega
    rw [Option.some.inj h0, e1]
    exact agree_setSI c _ _ _ (rdAt_lt e _) hfla
  · rw [← h, hp] at h1
    have e1 : (p + 1) / 3 = p / 3 := by omega
    rw [Option.some.inj h1, e1]
    exact agree_or c _ _ _ (covered_SK c) (agree_setSI c _ _ _ (rdAt_lt e _) hfla)
  · rw [← h, hp] at h2
    have e1 : (p + 1) / 3 = p / 3 + 1 := by omega
    have e2 : nread + 1 + p / 3 = nread + (p / 3 + 1) := by omega
    rw [Option.some.inj h2, e1, e2]
    exact agree_andnot c _ _ _ (covered_SK c) (rdAt_lt e _) (AgreeOff.rfl c _)

/-- The register writes of any transfer, cancelled or not, are those of the
first `k ≤ n` cycles of the bit loop. -/
theorem xfer_writes_any (c : Consts) (e : Env) (n : Nat) (dout din : Option Nat) (intr : Bool)
    (mem : Mem) (w : World) :
    ∃ k bits, k ≤ n ∧ (e1000_spi_xfer c e n dout din intr mem w).2.2.writes
      = w.writes ++ xferWrites c e bits k 0 (rdAt e w.nread) (w.nread + 1) := by
  by_cases hok : (e1000_spi_xfer c e n dout din intr mem w).1 = 0
  · obtain ⟨bits, hb⟩ := xfer_ok_shape c e n dout din intr mem w hok
    exact ⟨n, bits, le_refl n, hb⟩
  · obtain ⟨hi, k, hk, hpre, hat⟩ := xfer_cancelled c e n dout din intr mem w hok
    subst hi
    obtain ⟨_, _, _, _, _, ⟨bits, hb⟩, _⟩ := xfer_cancel_at c e n k dout din mem w hk hpre hat
    exact ⟨k, bits, le_of_lt hk, hb⟩

/-- The register writes of `e1000_acquire_flash` agree with the most recent
read off SK, SI, CEN and REQ. -/
theorem acquire_agree (c : Consts) (e : Env) (hw : e1000_hw) (w : World) :
    ∃ l, (e1000_acquire_flash c e hw w).2.writes = w.writes ++ l ∧ l.length ≤ 2 ∧
      ∀ p v, l[p]? = some v →
        AgreeOff c v (rdAt e (if p = 0 then w.nread
          else (e1000_acquire_flash c e hw w).2.nread - 1)) := by
  cases hf : hw.type_is_flash
  · refine ⟨[], ?_, by simp, fun p v h => by simp at h⟩
    simp [e1000_acquire_flash, hf, READ_REG, World.log]
  · obtain ⟨hwr, _, m, _, hn, hv, _, _⟩ := acquire_poll_spec c e
      c.E1000_EEPROM_GRANT_ATTEMPTS (rdAt e w.nread ||| c.E1000_FL_REQ)
      (WRITE_REG (READ_REG e (w.log .acquire)).2 (rdAt e w.nread ||| c.E1000_FL_REQ))
    have hnr : (WRITE_REG (READ_REG e (w.log .acquire)).2
        (rdAt e w.nread ||| c.E1000_FL_REQ)).nread = w.nread + 1 := rfl
    have hwr0 : (WRITE_REG (READ_REG e (w.log .acquire)).2
        (rdAt e w.nread ||| c.E1000_FL_REQ)).writes
          = w.writes ++ [rdAt e w.nread ||| c.E1000_FL_REQ] := rfl
    rw [hnr] at hn hv
    rw [hwr0] at hwr
    have hlast : AgreeOff c (acquire_poll c e c.E1000_EEPROM_GRANT_ATTEMPTS
        (rdAt e w.nread ||| c.E1000_FL_REQ)
        (WRITE_REG (READ_REG e (w.log .acquire)).2 (rdAt e w.nread ||| c.E1000_FL_REQ))).1
        (rdAt e (w.nread + m)) := by
      rw [hv]
      cases m with
      | zero => exact agree_or c _ _ _ (covered_REQ c) (AgreeOff.rfl c _)
      | succ j =>
        simp only [pollVal]
        have e1 : w.nread + 1 + j = w.nread + (j + 1) := by omega
        rw [e1]
        exact AgreeOff.rfl c _
    have hunf : e1000_acquire_flash c e hw w =
        if (acquire_poll c e c.E1000_EEPROM_GRANT_ATTEMPTS (rdAt e w.nread ||| c.E1000_FL_REQ)
            (WRITE_REG (READ_REG e (w.log .acquire)).2 (rdAt e w.nread ||| c.E1000_FL_REQ))).1
            &&& c.E1000_FL_GNT == 0
        then (-c.E1000_ERR_EEPROM,
          WRITE_REG (acquire_poll c e c.E1000_EEPROM_GRANT_ATTEMPTS
              (rdAt e w.nread ||| c.E1000_FL_REQ)
              (WRITE_REG (READ_REG e (w.log .acquire)).2 (rdAt e w.nread ||| c.E1000_FL_REQ))).2
            ((acquire_poll c e c.E1000_EEPROM_GRANT_ATTEMPTS (rdAt e w.nread ||| c.E1000_FL_REQ)
              (WRITE_REG (READ_REG e (w.log .acquire)).2 (rdAt e w.nread ||| c.E1000_FL_REQ))).1
              &&& bnot32 c.E1000_FL_REQ))
        else (c.E1000_SUCCESS,
          WRITE_REG (acquire_poll c e c.E1000_EEPROM_GRANT_ATTEMPTS
              (rdAt e w.nread ||| c.E1000_FL_REQ)
              (WRITE_REG (READ_REG e (w.log .acquire)).2 (rdAt e w.nread ||| c.E1000_FL_REQ))).2
            ((acquire_poll c e c.E1000_EEPROM_GRANT_ATTEMPTS (rdAt e w.nread ||| c.E1000_FL_REQ)
              (WRITE_REG (READ_REG e (w.log .acquire)).2 (rdAt e w.nread ||| c.E1000_FL_REQ))).1
              &&& bnot32 (c.E1000_FL_SI ||| c.E1000_FL_CEN ||| c.E1000_FL_NVM_SK))) := by
      unfold e1000_acquire_flash
      simp only [hf, if_true]
      rfl
    have hn2 : (e1000_acquire_flash c e hw w).2.nread = w.nread + 1 + m := by
      rw [hunf]
      split <;> exact hn
    have hww : ∀ (W : World) (v : Nat), (WRITE_REG W v).writes = W.writes ++ [v] :=
      fun _ _ => rfl
    have key : ∀ x, AgreeOff c x (rdAt e (w.nread + m)) →
        ∀ p v, [rdAt e w.nread ||| c.E1000_FL_REQ, x][p]? = some v →
        AgreeOff c v (rdAt e (if p = 0 then w.nread
          else (e1000_acquire_flash c e hw w).2.nread - 1)) := by
      intro x hx p v hp
      rw [hn2]
      cases p with
      | zero =>
        simp only [List.getElem?_cons_zero, Option.some.injEq] at hp
        rw [← hp, if_pos rfl]
        exact agree_or c _ _ _ (covered_REQ c) (AgreeOff.rfl c _)
      | succ p =>
        cases p with
        | zero =>
          simp only [List.getElem?_cons_succ, List.getElem?_cons_zero, Option.some.injEq] at hp
          rw [← hp, if_neg (by omega)]
          have e1 : w.nread + 1 + m - 1 = w.nread + m := by omega
          rw [e1]
          exact hx
        | succ p => simp at hp
    by_cases hg : ((acquire_poll c e c.E1000_EEPROM_GRANT_ATTEMPTS
        (rdAt e w.nread ||| c.E1000_FL_REQ)
        (WRITE_REG (READ_REG e (w.log .acquire)).2 (rdAt e w.nread ||| c.E1000_FL_REQ))).1
        &&& c.E1000_FL_GNT == 0) = true
    · refine ⟨[rdAt e w.nread ||| c.E1000_FL_REQ, _], ?_, by simp,
        key _ (agree_andnot c _ _ _ (covered_REQ c) (rdAt_lt e _) hlast)⟩
      rw [hunf, if_pos hg, hww, hwr]
      simp
    · refine ⟨[rdAt e w.nread ||| c.E1000_FL_REQ, _], ?_, by simp,
        key _ (agree_andnot c _ _ _
          (covered_or c _ _ (covered_or c _ _ (covered_SI c) (covered_CEN c)) (covered_SK c))
          (rdAt_lt e _) hlast)⟩
      rw [hunf, if_neg hg, hww, hwr]
      simp

/-- The register writes of `e1000_standby_flash` agree with its register
read off SK, SI, CEN and REQ. -/
theorem standby_agree (c : Consts) (e : Env) (hw : e1000_hw) (w : World) :
    ∃ l, (e1000_standby_flash c e hw w).writes = w.writes ++ l ∧
      ∀ v, v ∈ l → AgreeOff c v (rdAt e w.nread) := by
  cases hf : hw.type_is_flash
  · exact ⟨[], by simp [e1000_standby_flash, hf, READ_REG, World.log], fun v h => by simp at h⟩
  · refine ⟨[rdAt e w.nread ||| c.E1000_FL_CEN,
      (rdAt e w.nread ||| c.E1000_FL_CEN) &&& bnot32 c.E1000_FL_CEN], ?_, ?_⟩
    · simp [e1000_standby_flash, hf, READ_REG, World.log, WRITE_REG, rdAt]
    · intro v hv
      simp only [List.mem_cons, List.mem_singleton, List.not_mem_nil, or_false] at hv
      have h1 := agree_or c _ _ _ (covered_CEN c) (AgreeOff.rfl c (rdAt e w.nread))
      rcases hv with h | h
      · rw [h]; exact h1
      · rw [h]; exact agree_andnot c _ _ _ (covered_CEN c) (rdAt_lt e _) h1

/-- The register writes of `e1000_release_flash` agree with its register
read off SK, SI, CEN and REQ. -/
theorem release_agree (c : Consts) (e : Env) (hw : e1000_hw) (w : World) :
    ∃ l, (e1000_release_flash c e hw w).writes = w.writes ++ l ∧
      ∀ v, v ∈ l → AgreeOff c v (rdAt e w.nread) := by
  cases hf : hw.type_is_flash
  · exact ⟨[], by simp [e1000_release_flash, hf, READ_REG, World.log], fun v h => by simp at h⟩
  · refine ⟨[(rdAt e w.nread ||| c.E1000_FL_CEN) &&& bnot32 c.E1000_FL_NVM_SK,
      ((rdAt e w.nread ||| c.E1000_FL_CEN) &&& bnot32 c.E1000_FL_NVM_SK)
        &&& bnot32 c.E1000_FL_REQ], ?_, ?_⟩
    · simp [e1000_release_flash, hf, READ_REG, World.log, WRITE_REG, rdAt]
    · intro v hv
      simp only [List.mem_cons, List.mem_singleton, List.not_mem_nil, or_false] at hv
      have h1 := agree_andnot c _ _ _ (covered_SK c) (rdAt_lt e _)
        (agree_or c _ _ _ (covered_CEN c) (AgreeOff.rfl c (rdAt e w.nread)))
      rcases hv with h | h
      · rw [h]; exact h1
      · rw [h]; exact agree_andnot c _ _ _ (covered_REQ c) (rdAt_lt e _) h1

/-- C17: for every operation of the core and every sequence of register
reads, every value written to the control register agrees with the most
recently read register value on every bit other than SK, SI, CEN and REQ.
For `e1000_raise_fl_clk` and `e1000_lower_fl_clk`, which do not read, the
most recent read is any `r` their caller's cached value agrees with; for
`e1000_spi_xfer` it is `lastRead`; for `e1000_standby_flash` and
`e1000_release_flash` their one read; for `e1000_acquire_flash` the initial
read for the first write and the last polling read for the second.  In
particular the written and the read value agree under every mask disjoint
from the four, such as GNT, SO and the unnamed bits. -/
theorem C17_core_preserves_other_bits (c : Consts) (e : Env) (hw : e1000_hw) (n : Nat)
    (dout din : Option Nat) (intr : Bool) (mem : Mem) (w : World) :
    (∀ fla r, r < 4294967296 → AgreeOff c fla r →
      (∃ v, (e1000_raise_fl_clk c fla w).2.writes = w.writes ++ [v] ∧ AgreeOff c v r) ∧
      (∃ v, (e1000_lower_fl_clk c fla w).2.writes = w.writes ++ [v] ∧ AgreeOff c v r)) ∧
    (∃ l, (e1000_spi_xfer c e n dout din intr mem w).2.2.writes = w.writes ++ l ∧
      ∀ p v, l[p]? = some v → AgreeOff c v (lastRead e w.nread p)) ∧
    (∃ l, (e1000_standby_flash c e hw w).writes = w.writes ++ l ∧
      ∀ v, v ∈ l → AgreeOff c v (rdAt e w.nread)) ∧
    (∃ l, (e1000_release_flash c e hw w).writes = w.writes ++ l ∧
      ∀ v, v ∈ l → AgreeOff c v (rdAt e w.nread)) ∧
    (∃ l, (e1000_acquire_flash c e hw w).2.writes = w.writes ++ l ∧ l.length ≤ 2 ∧
      ∀ p v, l[p]? = some v →
        AgreeOff c v (rdAt e (if p = 0 then w.nread
          else (e1000_acquire_flash c e hw w).2.nread - 1))) ∧
    (∀ v r m, AgreeOff c v r →
      m &&& (c.E1000_FL_NVM_SK ||| c.E1000_FL_SI ||| c.E1000_FL_CEN ||| c.E1000_FL_REQ) = 0 →
      v &&& m = r &&& m) := by
  refine ⟨fun fla r hr h => ⟨⟨_, rfl, agree_or c _ _ _ (covered_SK c) h⟩,
      ⟨_, rfl, agree_andnot c _ _ _ (covered_SK c) hr h⟩⟩, ?_,
    standby_agree c e hw w, release_agree c e hw w, acquire_agree c e hw w,
    fun v r m h hm => agree_mask c v r m h hm⟩
  obtain ⟨k, bits, _, hb⟩ := xfer_writes_any c e n dout din intr mem w
  exact ⟨_, hb, fun p v hp => xferWrites_agree c e bits k 0 w.nread p v hp⟩

/-- C17 at a concrete status transfer: the GNT bit (0x20) of the read before
the loop is written back by the first register write, and the second
register write of `e1000_acquire_flash` carries the GNT bit of the last
polling read. -/
theorem C17_core_preserves_other_bits_witness :
    (∃ l, (e1000_spi_xfer exampleConsts grantEnv 16 (some 0) (some 0) true (opMem [5, 0])
        World.init).2.2.writes = World.init.writes ++ l ∧
      ∀ p v, l[p]? = some v → v &&& 0x20 = lastRead grantEnv World.init.nread p &&& 0x20) ∧
    (∃ l, (e1000_acquire_flash exampleConsts grantEnv exampleHw World.init).2.writes
        = World.init.writes ++ l ∧ l.length ≤ 2 ∧
      ∀ p v, l[p]? = some v →
        v &&& 0x20 = rdAt grantEnv (if p = 0 then World.init.nread
          else (e1000_acquire_flash exampleConsts grantEnv exampleHw World.init).2.nread - 1)
            &&& 0x20) :=
  ⟨(C17_core_preserves_other_bits exampleConsts grantEnv exampleHw 16 (some 0) (some 0) true
      (opMem [5, 0]) World.init).2.1.imp (fun _ h => ⟨h.1, fun p v hp =>
        (C17_core_preserves_other_bits exampleConsts grantEnv exampleHw 16 (some 0) (some 0) true
          (opMem [5, 0]) World.init).2.2.2.2.2 _ _ 0x20 (h.2 p v hp) (by decide)⟩),
   (C17_core_preserves_other_bits exampleConsts grantEnv exampleHw 16 (some 0) (some 0) true
      (opMem [5, 0]) World.init).2.2.2.2.1.imp (fun _ h => ⟨h.1, h.2.1, fun p v hp =>
        (C17_core_preserves_other_bits exampleConsts grantEnv exampleHw 16 (some 0) (some 0) true
          (opMem [5, 0]) World.init).2.2.2.2.2 _ _ 0x20 (h.2.2 p v hp) (by decide)⟩)⟩

/-! ## Transfers out of and into the same buffer -/

theorem World.eq_of (w1 w2 : World) (h1 : w1.nread = w2.nread) (h2 : w1.nctrl = w2.nctrl)
    (h3 : w1.writes = w2.writes) (h4 : w1.calls = w2.calls) : w1 = w2 := by
  cases w1; cases w2; simp_all

theorem load_getBit (mem : Mem) (p x j : Nat) (hj : j < 8) :
    (load mem (p + x)).testBit j = getBit mem p (8 * x + (7 - j)) := by
  unfold getBit
  have e1 : (8 * x + (7 - j)) / 8 = x := by omega
  have e2 : 7 - (8 * x + (7 - j)) % 8 = j := by omega
  rw [e1, e2]

theorem getBit_clearRest_full (a : Nat) (mem : Mem) (n m : Nat) :
    getBit (clearRest (some a) mem n (maskOf n)) a m =
      if n ≤ m ∧ m / 8 = n / 8 ∧ n % 8 ≠ 0 then false else getBit mem a m := by
  by_cases hm : m < n
  · rw [getBit_clearRest a mem n m hm, if_neg (by omega)]
  · by_cases h : n % 8 = 0
    · rw [clearRest_aligned a mem n _ h, if_neg (by omega)]
    · by_cases hb : m / 8 = n / 8
      · rw [if_pos ⟨by omega, hb, h⟩]
        unfold getBit
        rw [hb, clearRest_testBit a mem n _ h]
        have : ¬ 8 - n % 8 ≤ 7 - m % 8 := by omega
        simp [this]
      · rw [if_neg (by omega)]
        unfold getBit load
        rw [clearRest_other a mem n _ _ (by omega)]

/-- The bits of the first `ceil(n/8)` destination bytes after a transfer
that returned 0: the captured SO bits, then zeros. -/
theorem xfer_ok_bit (c : Consts) (e : Env) (n : Nat) (dout : Option Nat) (a : Nat)
    (intr : Bool) (mem : Mem) (w : World)
    (hok : (e1000_spi_xfer c e n dout (some a) intr mem w).1 = 0) (m : Nat)
    (hm : m / 8 < (n + 7) / 8) :
    getBit (e1000_spi_xfer c e n dout (some a) intr mem w).2.1 a m
      = (decide (m < n) && (rdAt e (w.nread + 1 + m) &&& c.E1000_FL_SO != 0)) := by
  rw [(xfer_ok_state c e n dout (some a) intr mem w hok).1, getBit_clearRest_full,
    getBit_captureAll]
  by_cases h : m < n
  · rw [if_neg (by omega), if_pos ⟨Nat.zero_le _, by omega⟩]
    simp [h]
  · rw [if_pos ⟨by omega, by omega, by omega⟩]
    simp [h]

/-- A transfer out of and into the same buffer at `a` against a transfer out
of a copy at `d` of that buffer into a destination at `b` apart from the
copy: same result and same state, so the same register writes. -/
theorem xfer_alias_world (c : Consts) (e : Env) (n a d b : Nat) (intr : Bool)
    (mem mem2 : Mem) (w : World)
    (hsrc : ∀ x, x < (n + 7) / 8 → load mem2 (d + x) = load mem (a + x))
    (hdisj : b + (n + 7) / 8 ≤ d ∨ d + (n + 7) / 8 ≤ b) :
    (e1000_spi_xfer c e n (some a) (some a) intr mem w).1
      = (e1000_spi_xfer c e n (some d) (some b) intr mem2 w).1 ∧
    (e1000_spi_xfer c e n (some a) (some a) intr mem w).2.2
      = (e1000_spi_xfer c e n (some d) (some b) intr mem2 w).2.2 := by
  have hcall : xferCall n (some a) (some a) intr mem = xferCall n (some d) (some b) intr mem2 := by
    unfold xferCall
    simp only [Option.map_some', Option.isSome_some]
    rw [(bytes_eq_iff mem mem2 a d ((n + 7) / 8)).mpr (fun x hx => (hsrc x hx).symm)]
  have hbits : ∀ k, k ≤ n → ∀ fla nread,
      xferWrites c e (fun m => outbit (some a) mem m (maskOf m)) k 0 fla nread
        = xferWrites c e (fun m => outbit (some d) mem2 m (maskOf m)) k 0 fla nread := by
    intro k hk fla nread
    apply xferWrites_congr
    intro m _ hm
    simp only [outbit_eq, outBitAt]
    rw [hsrc (m / 8) (by omega)]
  have hA : ∀ k, AliasOK (some a) (some a) k := fun k x y hx hy => by
    cases hx; cases hy; exact Or.inl rfl
  have hB : ∀ k, k ≤ n → AliasOK (some d) (some b) k := fun k hk x y hx hy => by
    cases hx; cases hy
    right
    have : (k + 7) / 8 ≤ (n + 7) / 8 := Nat.div_le_div_right (by omega)
    omega
  by_cases hok : (e1000_spi_xfer c e n (some a) (some a) intr mem w).1 = 0
  · obtain ⟨_, hr, hc, hn, hnc⟩ := xfer_ok_state c e n (some a) (some a) intr mem w hok
    have hok2 := xfer_nocancel c e n (some d) (some b) intr mem2 w hnc
    obtain ⟨_, hr2, hc2, hn2, _⟩ := xfer_ok_state c e n (some d) (some b) intr mem2 w hok2
    refine ⟨by rw [hok, hok2], World.eq_of _ _ (by rw [hr, hr2]) (by rw [hn, hn2]) ?_
      (by rw [hc, hc2, hcall])⟩
    rw [xfer_ok_writes c e n _ _ intr mem w (hA n) hok,
      xfer_ok_writes c e n _ _ intr mem2 w (hB n (le_refl n)) hok2]
    rw [hbits n (le_refl n)]
  · obtain ⟨hi, k, hk, hpre, hat⟩ := xfer_cancelled c e n _ _ intr mem w hok
    subst hi
    obtain ⟨h1, _, hr, hn, hc, _, hw1⟩ := xfer_cancel_at c e n k (some a) (some a) mem w hk hpre hat
    obtain ⟨h2, _, hr2, hn2, hc2, _, hw2⟩ :=
      xfer_cancel_at c e n k (some d) (some b) mem2 w hk hpre hat
    refine ⟨by rw [h1, h2], World.eq_of _ _ (by rw [hr, hr2]) (by rw [hn, hn2]) ?_
      (by rw [hc, hc2, hcall])⟩
    rw [hw1 (hA k), hw2 (hB k (le_of_lt hk))]
    rw [hbits k (le_of_lt hk)]

/-- The content the two transfers of `xfer_alias_world` leave in their
destinations: the same after a result of 0, and the same in every case when
the separate destination started with the content of the buffer. -/
theorem xfer_alias_mem (c : Consts) (e : Env) (n a b : Nat) (dout dout2 : Option Nat)
    (intr : Bool) (mem mem2 : Mem) (w : World)
    (hret : (e1000_spi_xfer c e n dout (some a) intr mem w).1
      = (e1000_spi_xfer c e n dout2 (some b) intr mem2 w).1)
    (hinit : (e1000_spi_xfer c e n dout (some a) intr mem w).1 ≠ 0 →
      ∀ x, x < (n + 7) / 8 → load mem2 (b + x) = load mem (a + x))
    (x : Nat) (hx : x < (n + 7) / 8) :
    load (e1000_spi_xfer c e n dout (some a) intr mem w).2.1 (a + x)
      = load (e1000_spi_xfer c e n dout2 (some b) intr mem2 w).2.1 (b + x) := by
  apply load_eq_of_bits
  intro j hj
  rw [load_getBit _ _ _ _ hj, load_getBit _ _ _ _ hj]
  by_cases hok : (e1000_spi_xfer c e n dout (some a) intr mem w).1 = 0
  · rw [xfer_ok_bit c e n dout a intr mem w hok _ (by omega),
      xfer_ok_bit c e n dout2 b intr mem2 w (by rw [← hret]; exact hok) _ (by omega)]
  · obtain ⟨hi, k, hk, hpre, hat⟩ := xfer_cancelled c e n _ _ intr mem w hok
    subst hi
    rw [(xfer_cancel_at c e n k dout (some a) mem w hk hpre hat).2.1,
      (xfer_cancel_at c e n k dout2 (some b) mem2 w hk hpre hat).2.1,
      getBit_captureAll, getBit_captureAll]
    by_cases hm : 0 ≤ 8 * x + (7 - j) ∧ 8 * x + (7 - j) < 0 + k
    · rw [if_pos hm, if_pos hm]
    · rw [if_neg hm, if_neg hm, ← load_getBit _ _ _ _ hj, ← load_getBit _ _ _ _ hj,
        hinit hok x hx]

/-- A status read whose transfer is not cancelled: the ghost record of the
transfer, the SI bit at each rising clock edge, and the result. -/
theorem read_status_ok_spec (c : Consts) (e : Env) (hw : e1000_hw) (intr : Bool) (w : World)
    (hSI : IsBit c.E1000_FL_SI) (hSK : c.E1000_FL_NVM_SK &&& c.E1000_FL_SI = 0)
    (hok : (statusXfer c e hw intr w).1 = 0) :
    (e1000_spi_flash_read_status c e hw intr w).2.calls
      = w.calls ++ [.read_status, .standby, .xfer 16 (some [0x05, 0x00]) true intr] ∧
    (∀ i, i < 16 → ∃ v,
      (e1000_spi_flash_read_status c e hw intr w).2.writes[
        (e1000_standby_flash c e hw (w.log .read_status)).writes.length + (3 * i + 1)]? = some v ∧
      (v &&& c.E1000_FL_SI != 0) = getBit (opMem [0x05, 0x00]) 0 i) ∧
    (e1000_spi_flash_read_status c e hw intr w).1
      = ((load (statusXfer c e hw intr w).2.1 1 : Nat) : Int) ∧
    (∀ j, j < 8 → (e1000_spi_flash_read_status c e hw intr w).1.toNat.testBit j
      = (rdAt e (w.nread + 2 + (8 + (7 - j))) &&& c.E1000_FL_SO != 0)) := by
  have hrs : e1000_spi_flash_read_status c e hw intr w
      = (((load (statusXfer c e hw intr w).2.1 1 : Nat) : Int), (statusXfer c e hw intr w).2.2) := by
    rw [read_status_eq, if_neg (by simpa using hok)]
  have hal : AliasOK (some 0) (some 0) (8 * 2) := fun x y hx hy => by
    cases hx; cases hy; exact Or.inl rfl
  refine ⟨?_, fun i hi => ?_, by rw [hrs], fun j hj => ?_⟩
  · rw [read_status_calls]; rfl
  · obtain ⟨_, h2, _, _⟩ := xfer_writes_get c e (8 * 2) (some 0) (some 0) intr
      (opMem [SPI_FLASH_READ_STATUS, 0]) (e1000_standby_flash c e hw (w.log .read_status)) hal hok
      i hi
    refine ⟨_, by rw [hrs]; exact h2, ?_⟩
    rw [or_test _ _ _ hSI hSK, setSI_test c _ _ hSI]
    rfl
  · rw [hrs]
    simp only [Int.toNat_ofNat]
    have h := xfer_din_bit c e (8 * 2) (some 0) 0 intr (opMem [SPI_FLASH_READ_STATUS, 0])
      (e1000_standby_flash c e hw (w.log .read_status)) hok (8 * 1 + (7 - j)) (by omega)
    rw [← load_getBit _ _ _ _ hj, standby_nread] at h
    have e1 : w.nread + 2 + (8 + (7 - j))
        = (w.log Call.read_status).nread + 1 + 1 + (8 * 1 + (7 - j)) := by
      show w.nread + 2 + (8 + (7 - j)) = w.nread + 1 + 1 + (8 * 1 + (7 - j))
      omega
    rw [e1, ← h]
    unfold statusXfer
    simp

/-- C18: `e1000_spi_xfer` with the buffer at `a` as source and destination
returns the same result and performs exactly the same register writes (it
leaves the same state) as with a copy at `d` of the buffer's initial content
as source and a destination at `b` apart from the copy; the first
`ceil(n/8)` bytes the two leave in their destinations are the same after a
result of 0, and in every case when the separate destination started with
the buffer's content.  Consequently a status read whose transfer is not
cancelled shifts out the bytes `05 00`, bit by bit at the rising clock
edges, and returns the second captured byte. -/
theorem C18_aliased_transfer (c : Consts) (e : Env) (hw : e1000_hw) (n a d b : Nat)
    (intr : Bool) (mem mem2 : Mem) (w : World)
    (hSI : IsBit c.E1000_FL_SI) (hSK : c.E1000_FL_NVM_SK &&& c.E1000_FL_SI = 0)
    (hsrc : ∀ x, x < (n + 7) / 8 → load mem2 (d + x) = load mem (a + x))
    (hdisj : b + (n + 7) / 8 ≤ d ∨ d + (n + 7) / 8 ≤ b) :
    (e1000_spi_xfer c e n (some a) (some a) intr mem w).1
      = (e1000_spi_xfer c e n (some d) (some b) intr mem2 w).1 ∧
    (e1000_spi_xfer c e n (some a) (some a) intr mem w).2.2.writes
      = (e1000_spi_xfer c e n (some d) (some b) intr mem2 w).2.2.writes ∧
    (e1000_spi_xfer c e n (some a) (some a) intr mem w).2.2
      = (e1000_spi_xfer c e n (some d) (some b) intr mem2 w).2.2 ∧
    ((e1000_spi_xfer c e n (some a) (some a) intr mem w).1 = 0 ∨
        (∀ x, x < (n + 7) / 8 → load mem2 (b + x) = load mem (a + x)) →
      ∀ x, x < (n + 7) / 8 →
        load (e1000_spi_xfer c e n (some a) (some a) intr mem w).2.1 (a + x)
          = load (e1000_spi_xfer c e n (some d) (some b) intr mem2 w).2.1 (b + x)) ∧
    ((statusXfer c e hw intr w).1 = 0 →
      (e1000_spi_flash_read_status c e hw intr w).2.calls
        = w.calls ++ [.read_status, .standby, .xfer 16 (some [0x05, 0x00]) true intr] ∧
      (∀ i, i < 16 → ∃ v,
        (e1000_spi_flash_read_status c e hw intr w).2.writes[
          (e1000_standby_flash c e hw (w.log .read_status)).writes.length + (3 * i + 1)]?
            = some v ∧
        (v &&& c.E1000_FL_SI != 0) = getBit (opMem [0x05, 0x00]) 0 i) ∧
      (e1000_spi_flash_read_status c e hw intr w).1
        = ((load (statusXfer c e hw intr w).2.1 1 : Nat) : Int) ∧
      (∀ j, j < 8 → (e1000_spi_flash_read_status c e hw intr w).1.toNat.testBit j
        = (rdAt e (w.nread + 2 + (8 + (7 - j))) &&& c.E1000_FL_SO != 0))) := by
  obtain ⟨h1, h2⟩ := xfer_alias_world c e n a d b intr mem mem2 w hsrc hdisj
  refine ⟨h1, by rw [h2], h2, fun h x hx => ?_, read_status_ok_spec c e hw intr w hSI hSK⟩
  apply xfer_alias_mem c e n a b _ _ intr mem mem2 w h1 _ x hx
  intro hne
  rcases h with h | h
  · exact absurd h hne
  · exact h

/-- C18 at a concrete transfer of 12 bits: the buffer `A5 F0` at address 0
against its copy at address 2 of a memory whose destination at address 4
holds `FF FF`; and at a concrete status read. -/
theorem C18_aliased_transfer_witness :
    (e1000_spi_xfer exampleConsts exampleEnv 12 (some 0) (some 0) true (opMem [0xA5, 0xF0])
        World.init).1 = 0 ∧
    (e1000_spi_xfer exampleConsts exampleEnv 12 (some 0) (some 0) true (opMem [0xA5, 0xF0])
        World.init).1
      = (e1000_spi_xfer exampleConsts exampleEnv 12 (some 2) (some 4) true
          (opMem [0, 0, 0xA5, 0xF0, 0xFF, 0xFF]) World.init).1 ∧
    (e1000_spi_xfer exampleConsts exampleEnv 12 (some 0) (some 0) true (opMem [0xA5, 0xF0])
        World.init).2.2.writes
      = (e1000_spi_xfer exampleConsts exampleEnv 12 (some 2) (some 4) true
          (opMem [0, 0, 0xA5, 0xF0, 0xFF, 0xFF]) World.init).2.2.writes ∧
    (e1000_spi_xfer exampleConsts exampleEnv 12 (some 0) (some 0) true (opMem [0xA5, 0xF0])
        World.init).2.2
      = (e1000_spi_xfer exampleConsts exampleEnv 12 (some 2) (some 4) true
          (opMem [0, 0, 0xA5, 0xF0, 0xFF, 0xFF]) World.init).2.2 ∧
    ((e1000_spi_xfer exampleConsts exampleEnv 12 (some 0) (some 0) true (opMem [0xA5, 0xF0])
          World.init).1 = 0 ∨
        (∀ x, x < (12 + 7) / 8 →
          load (opMem [0, 0, 0xA5, 0xF0, 0xFF, 0xFF]) (4 + x) = load (opMem [0xA5, 0xF0]) (0 + x)) →
      ∀ x, x < (12 + 7) / 8 →
        load (e1000_spi_xfer exampleConsts exampleEnv 12 (some 0) (some 0) true
            (opMem [0xA5, 0xF0]) World.init).2.1 (0 + x)
          = load (e1000_spi_xfer exampleConsts exampleEnv 12 (some 2) (some 4) true
              (opMem [0, 0, 0xA5, 0xF0, 0xFF, 0xFF]) World.init).2.1 (4 + x)) ∧
    ((statusXfer exampleConsts exampleEnv exampleHw true World.init).1 = 0 →
      (e1000_spi_flash_read_status exampleConsts exampleEnv exampleHw true World.init).2.calls
        = World.init.calls ++ [.read_status, .standby, .xfer 16 (some [0x05, 0x00]) true true] ∧
      (∀ i, i < 16 → ∃ v,
        (e1000_spi_flash_read_status exampleConsts exampleEnv exampleHw true World.init).2.writes[
          (e1000_standby_flash exampleConsts exampleEnv exampleHw
            (World.init.log .read_status)).writes.length + (3 * i + 1)]? = some v ∧
        (v &&& exampleConsts.E1000_FL_SI != 0) = getBit (opMem [0x05, 0x00]) 0 i) ∧
      (e1000_spi_flash_read_status exampleConsts exampleEnv exampleHw true World.init).1
        = ((load (statusXfer exampleConsts exampleEnv exampleHw true World.init).2.1 1 : Nat)
            : Int) ∧
      (∀ j, j < 8 →
        (e1000_spi_flash_read_status exampleConsts exampleEnv exampleHw true
            World.init).1.toNat.testBit j
          = (rdAt exampleEnv (World.init.nread + 2 + (8 + (7 - j)))
              &&& exampleConsts.E1000_FL_SO != 0))) :=
  ⟨by decide,
   C18_aliased_transfer exampleConsts exampleEnv exampleHw 12 0 2 4 true (opMem [0xA5, 0xF0])
    (opMem [0, 0, 0xA5, 0xF0, 0xFF, 0xFF]) World.init ⟨2, by decide, rfl⟩ (by decide)
    (by decide) (by decide)⟩

/-! ## Header and payload of the page commands -/

theorem recordSI_append (c : Consts) (l1 l2 : List Nat) (base n : Nat)
    (h : base + 3 * n ≤ l1.length) :
    recordSI c (l1 ++ l2) base n = recordSI c l1 base n := by
  unfold recordSI
  apply List.map_congr_left
  intro i hi
  rw [List.mem_range] at hi
  rw [List.getD_eq_getElem?_getD, List.getD_eq_getElem?_getD,
    List.getElem?_append_left (by omega)]

/-- The SI bits sampled at the rising clock edges of a transfer that
returned 0 are the bits of the source, whatever is written afterwards. -/
theorem xfer_ok_record (c : Consts) (e : Env) (n : Nat) (dout din : Option Nat) (intr : Bool)
    (mem : Mem) (w : World) (hSI : IsBit c.E1000_FL_SI)
    (hSK : c.E1000_FL_NVM_SK &&& c.E1000_FL_SI = 0) (hal : AliasOK dout din n)
    (hok : (e1000_spi_xfer c e n dout din intr mem w).1 = 0) (l2 : List Nat) :
    recordSI c ((e1000_spi_xfer c e n dout din intr mem w).2.2.writes ++ l2) w.writes.length n
      = (List.range n).map (outBitAt dout mem) := by
  rw [recordSI_append]
  · unfold recordSI
    apply List.map_congr_left
    intro i hi
    rw [List.mem_range] at hi
    obtain ⟨_, h2, _, _⟩ := xfer_writes_get c e n dout din intr mem w hal hok i hi
    rw [List.getD_eq_getElem?_getD, h2, Option.getD_some, or_test _ _ _ hSI hSK,
      setSI_test c _ _ hSI]
  · rw [xfer_ok_writes c e n dout din intr mem w hal hok, List.length_append, xferWrites_length]

theorem header_eq (opcode off : Nat) (hoff : off < 65536) :
    [opcode, (off >>> 16) &&& 0xff, (off >>> 8) &&& 0xff, off &&& 0xff] = pageHeader opcode off := by
  unfold pageHeader
  have h1 : off >>> 16 = 0 := by
    rw [Nat.shiftRight_eq_div_pow]; exact Nat.div_eq_of_lt (by norm_num; exact hoff)
  have h2 : off >>> 8 &&& 0xff = off >>> 8 := by
    have : (0xff : Nat) = 2 ^ 8 - 1 := by norm_num
    rw [this, Nat.and_pow_two_sub_one_eq_mod, Nat.shiftRight_eq_div_pow]
    apply Nat.mod_eq_of_lt
    have : off / 2 ^ 8 < 256 := Nat.div_lt_of_lt_mul (by norm_num; exact hoff)
    simpa using this
  rw [h1, h2]
  simp

theorem shl3 (len : Nat) : len <<< 3 = 8 * len := by
  rw [Nat.shiftLeft_eq]; omega

theorem standby_writes_length (c : Consts) (e : Env) (hw : e1000_hw) (w : World) (x : Call) :
    (e1000_standby_flash c e hw (w.log x)).writes = (e1000_standby_flash c e hw w).writes := by
  unfold e1000_standby_flash; split <;> rfl

theorem bytes_pageHeader (opcode off : Nat) (hop : opcode < 256) (hoff : off < 65536) :
    bytes (opMem (pageHeader opcode off)) 0 ((8 + 24 + 7) / 8) = pageHeader opcode off := by
  have h1 : off >>> 8 < 256 := by
    rw [Nat.shiftRight_eq_div_pow]
    exact Nat.div_lt_of_lt_mul (by norm_num; exact hoff)
  have h2 : off &&& 0xff < 256 := by
    have : (0xff : Nat) = 2 ^ 8 - 1 := by norm_num
    rw [this, Nat.and_pow_two_sub_one_eq_mod]
    exact Nat.mod_lt _ (by norm_num)
  simp only [bytes, pageHeader, load, opMem]
  simp [List.range_succ, Nat.mod_eq_of_lt hop, Nat.mod_eq_of_lt h1, Nat.mod_eq_of_lt h2]

theorem pageHdrXfer_calls (c : Consts) (e : Env) (hw : e1000_hw) (opcode off : Nat)
    (intr : Bool) (w0 : World) (hop : opcode < 256) (hoff : off < 65536) :
    (pageHdrXfer c e hw opcode off intr w0).2.2.calls
      = w0.calls ++ [.standby, .xfer 32 (some (pageHeader opcode off)) false intr] := by
  unfold pageHdrXfer
  rw [xfer_calls, standby_calls, header_eq opcode off hoff]
  simp only [xferCall, Option.map_some', Option.isSome_none, bytes_pageHeader opcode off hop hoff]
  simp

/-- A header transfer cancelled at the check before bit `k`. -/
theorem pageHdrXfer_cancel (c : Consts) (e : Env) (hw : e1000_hw) (opcode off k : Nat)
    (w0 : World) (hk : k < 32) (hpre : ∀ j, j < k → e.ctrl (w0.nctrl + j) = false)
    (hat : e.ctrl (w0.nctrl + k) = true) :
    (pageHdrXfer c e hw opcode off true w0).1 = -1 ∧
    (pageHdrXfer c e hw opcode off true w0).2.2.writes.length
      = (e1000_standby_flash c e hw w0).writes.length + 3 * k := by
  obtain ⟨h1, _, _, _, _, ⟨bits, hb⟩, _⟩ := xfer_cancel_at c e (8 + 24) k (some 0) none
    (opMem [opcode, (off >>> 16) &&& 0xff, (off >>> 8) &&& 0xff, off &&& 0xff])
    (e1000_standby_flash c e hw w0) (by omega) (by rw [standby_nctrl]; exact hpre)
    (by rw [standby_nctrl]; exact hat)
  refine ⟨h1, ?_⟩
  unfold pageHdrXfer
  rw [hb, List.length_append, xferWrites_length]

/-- A header transfer that is not cancelled. -/
theorem pageHdrXfer_ok (c : Consts) (e : Env) (hw : e1000_hw) (opcode off : Nat) (intr : Bool)
    (w0 : World) (hSI : IsBit c.E1000_FL_SI) (hSK : c.E1000_FL_NVM_SK &&& c.E1000_FL_SI = 0)
    (hoff : off < 65536)
    (hnc : intr = true → ∀ j, j < 32 → e.ctrl (w0.nctrl + j) = false) :
    (pageHdrXfer c e hw opcode off intr w0).1 = 0 ∧
    (∀ l2, recordSI c ((pageHdrXfer c e hw opcode off intr w0).2.2.writes ++ l2)
        (e1000_standby_flash c e hw w0).writes.length 32
      = (List.range 32).map (getBit (opMem (pageHeader opcode off)) 0)) ∧
    (pageHdrXfer c e hw opcode off intr w0).2.2.nread = w0.nread + 34 ∧
    (pageHdrXfer c e hw opcode off intr w0).2.2.nctrl = w0.nctrl + (if intr then 32 else 0) ∧
    (pageHdrXfer c e hw opcode off intr w0).2.2.writes.length
      = (e1000_standby_flash c e hw w0).writes.length + 96 ∧
    (∃ l, (pageHdrXfer c e hw opcode off intr w0).2.2.writes
      = (e1000_standby_flash c e hw w0).writes ++ l) := by
  have hal : AliasOK (some 0) none (8 + 24) := fun _ _ _ h => by cases h
  have hok : (pageHdrXfer c e hw opcode off intr w0).1 = 0 := by
    apply xfer_nocancel
    rw [standby_nctrl]
    exact hnc
  obtain ⟨_, hr, _, hn, _⟩ := xfer_ok_state c e (8 + 24) (some 0) none intr
    (opMem [opcode, (off >>> 16) &&& 0xff, (off >>> 8) &&& 0xff, off &&& 0xff])
    (e1000_standby_flash c e hw w0) hok
  have hw1 := xfer_ok_writes c e (8 + 24) (some 0) none intr
    (opMem [opcode, (off >>> 16) &&& 0xff, (off >>> 8) &&& 0xff, off &&& 0xff])
    (e1000_standby_flash c e hw w0) hal hok
  refine ⟨hok, fun l2 => ?_, ?_, ?_, ?_, ⟨_, hw1⟩⟩
  · have := xfer_ok_record c e (8 + 24) (some 0) none intr
      (opMem [opcode, (off >>> 16) &&& 0xff, (off >>> 8) &&& 0xff, off &&& 0xff])
      (e1000_standby_flash c e hw w0) hSI hSK hal hok l2
    exact this.trans (by rw [header_eq opcode off hoff]; rfl)
  · unfold pageHdrXfer; rw [hr, standby_nread]
  · unfold pageHdrXfer; rw [hn, standby_nctrl]
  · unfold pageHdrXfer; rw [hw1, List.length_append, xferWrites_length]

theorem write_page_eq (c : Consts) (e : Env) (hw : e1000_hw) (data off len : Nat)
    (intr : Bool) (mem : Mem) (w : World) :
    e1000_spi_flash_write_page c e hw data off len intr mem w =
      if (pageHdrXfer c e hw SPI_FLASH_WRITE_PAGE off intr
          (w.log (.write_page off len (bytes mem data len)))).1 ≠ 0
      then (-1, (pageHdrXfer c e hw SPI_FLASH_WRITE_PAGE off intr
          (w.log (.write_page off len (bytes mem data len)))).2.2)
      else if (e1000_spi_xfer c e (len <<< 3) (some data) none intr mem
          (pageHdrXfer c e hw SPI_FLASH_WRITE_PAGE off intr
            (w.log (.write_page off len (bytes mem data len)))).2.2).1 ≠ 0
      then (-1, (e1000_spi_xfer c e (len <<< 3) (some data) none intr mem
          (pageHdrXfer c e hw SPI_FLASH_WRITE_PAGE off intr
            (w.log (.write_page off len (bytes mem data len)))).2.2).2.2)
      else (0, (e1000_spi_xfer c e (len <<< 3) (some data) none intr mem
          (pageHdrXfer c e hw SPI_FLASH_WRITE_PAGE off intr
            (w.log (.write_page off len (bytes mem data len)))).2.2).2.2) := rfl

theorem read_page_eq (c : Consts) (e : Env) (hw : e1000_hw) (data off len : Nat)
    (intr : Bool) (mem : Mem) (w : World) :
    e1000_spi_flash_read_page c e hw data off len intr mem w =
      if (pageHdrXfer c e hw SPI_FLASH_READ_PAGE off intr (w.log (.read_page off len))).1 ≠ 0
      then (-1, mem, (pageHdrXfer c e hw SPI_FLASH_READ_PAGE off intr
          (w.log (.read_page off len))).2.2)
      else if (e1000_spi_xfer c e (len <<< 3) none (some data) intr mem
          (pageHdrXfer c e hw SPI_FLASH_READ_PAGE off intr (w.log (.read_page off len))).2.2).1 ≠ 0
      then (-1, (e1000_spi_xfer c e (len <<< 3) none (some data) intr mem
          (pageHdrXfer c e hw SPI_FLASH_READ_PAGE off intr (w.log (.read_page off len))).2.2).2)
      else (0, (e1000_spi_xfer c e (len <<< 3) none (some data) intr mem
          (pageHdrXfer c e hw SPI_FLASH_READ_PAGE off intr
            (w.log (.read_page off len))).2.2).2) := rfl

/-- The header and the payload of `e1000_spi_flash_write_page`. -/
theorem write_page_spec (c : Consts) (e : Env) (hw : e1000_hw) (data off len : Nat)
    (intr : Bool) (mem : Mem) (w : World) (hSI : IsBit c.E1000_FL_SI)
    (hSK : c.E1000_FL_NVM_SK &&& c.E1000_FL_SI = 0) (hoff : off < 65536) :
    (∀ k, k < 32 → intr = true → (∀ j, j < k → e.ctrl (w.nctrl + j) = false) →
      e.ctrl (w.nctrl + k) = true →
      (e1000_spi_flash_write_page c e hw data off len intr mem w).1 = -1 ∧
      (e1000_spi_flash_write_page c e hw data off len intr mem w).2.calls
        = w.calls ++ [.write_page off len (bytes mem data len), .standby,
            .xfer 32 (some (pageHeader 0x02 off)) false intr] ∧
      (e1000_spi_flash_write_page c e hw data off len intr mem w).2.writes.length
        = (e1000_standby_flash c e hw w).writes.length + 3 * k) ∧
    ((intr = true → ∀ j, j < 32 → e.ctrl (w.nctrl + j) = false) →
      recordSI c (e1000_spi_flash_write_page c e hw data off len intr mem w).2.writes
          (e1000_standby_flash c e hw w).writes.length 32
        = (List.range 32).map (getBit (opMem (pageHeader 0x02 off)) 0) ∧
      (e1000_spi_flash_write_page c e hw data off len intr mem w).2.calls
        = w.calls ++ [.write_page off len (bytes mem data len), .standby,
            .xfer 32 (some (pageHeader 0x02 off)) false intr,
            .xfer (8 * len) (some (bytes mem data len)) false intr]) ∧
    ((intr = true → ∀ j, j < 32 + 8 * len → e.ctrl (w.nctrl + j) = false) →
      (e1000_spi_flash_write_page c e hw data off len intr mem w).1 = 0 ∧
      recordSI c (e1000_spi_flash_write_page c e hw data off len intr mem w).2.writes
          ((e1000_standby_flash c e hw w).writes.length + 96) (8 * len)
        = (List.range (8 * len)).map (getBit mem data) ∧
      (e1000_spi_flash_write_page c e hw data off len intr mem w).2.writes.length
        = (e1000_standby_flash c e hw w).writes.length + 96 + 3 * (8 * len)) := by
  have hbase := standby_writes_length c e hw w (.write_page off len (bytes mem data len))
  have hcalls := pageHdrXfer_calls c e hw SPI_FLASH_WRITE_PAGE off intr
    (w.log (.write_page off len (bytes mem data len))) (by decide) hoff
  have h8 : (8 * len + 7) / 8 = len := by omega
  refine ⟨fun k hk hi hpre hat => ?_, fun hnc => ?_, fun hnc => ?_⟩
  · subst hi
    obtain ⟨h1, h2⟩ := pageHdrXfer_cancel c e hw SPI_FLASH_WRITE_PAGE off k
      (w.log (.write_page off len (bytes mem data len))) hk hpre hat
    rw [write_page_eq, if_pos (by rw [h1]; decide)]
    refine ⟨rfl, ?_, by rw [← hbase]; exact h2⟩
    show (pageHdrXfer c e hw SPI_FLASH_WRITE_PAGE off true
      (w.log (.write_page off len (bytes mem data len)))).2.2.calls = _
    rw [hcalls]
    simp [World.log, SPI_FLASH_WRITE_PAGE]
  · obtain ⟨h1, hrec, _, _, _, _⟩ := pageHdrXfer_ok c e hw SPI_FLASH_WRITE_PAGE off intr
      (w.log (.write_page off len (bytes mem data len))) hSI hSK hoff hnc
    obtain ⟨k, bits, _, hb⟩ := xfer_writes_any c e (len <<< 3) (some data) none intr mem
      (pageHdrXfer c e hw SPI_FLASH_WRITE_PAGE off intr
        (w.log (.write_page off len (bytes mem data len)))).2.2
    have hW : (e1000_spi_flash_write_page c e hw data off len intr mem w).2
        = (e1000_spi_xfer c e (len <<< 3) (some data) none intr mem
          (pageHdrXfer c e hw SPI_FLASH_WRITE_PAGE off intr
            (w.log (.write_page off len (bytes mem data len)))).2.2).2.2 := by
      rw [write_page_eq, if_neg (by rw [h1]; decide)]
      split <;> rfl
    rw [hW]
    refine ⟨by rw [hb, ← hbase, hrec]; rfl, ?_⟩
    rw [xfer_calls, hcalls]
    simp [xferCall, shl3, h8, World.log, SPI_FLASH_WRITE_PAGE]
  · obtain ⟨h1, _, _, hn, hlen, _⟩ := pageHdrXfer_ok c e hw SPI_FLASH_WRITE_PAGE off intr
      (w.log (.write_page off len (bytes mem data len))) hSI hSK hoff
      (fun hi j hj => hnc hi j (by omega))
    have hal : AliasOK (some data) none (len <<< 3) := fun _ _ _ h => by cases h
    have hok : (e1000_spi_xfer c e (len <<< 3) (some data) none intr mem
        (pageHdrXfer c e hw SPI_FLASH_WRITE_PAGE off intr
          (w.log (.write_page off len (bytes mem data len)))).2.2).1 = 0 := by
      apply xfer_nocancel
      intro hi j hj
      rw [shl3] at hj
      have := hnc hi (32 + j) (by omega)
      rw [← this, hn]; congr 1
      simp only [World.log, hi, if_true]; omega
    have hrec := xfer_ok_record c e (len <<< 3) (some data) none intr mem _ hSI hSK hal hok []
    have hwl := xfer_ok_writes c e (len <<< 3) (some data) none intr mem _ hal hok
    rw [write_page_eq, if_neg (by rw [h1]; decide), if_neg (by rw [hok]; decide)]
    rw [List.append_nil, hlen, hbase] at hrec
    refine ⟨rfl, ?_, ?_⟩
    · rw [← shl3]; exact hrec
    · show (e1000_spi_xfer c e (len <<< 3) (some data) none intr mem
        (pageHdrXfer c e hw SPI_FLASH_WRITE_PAGE off intr
          (w.log (.write_page off len (bytes mem data len)))).2.2).2.2.writes.length = _
      rw [hwl, List.length_append, xferWrites_length, hlen, hbase, shl3]

/-- The header and the payload of `e1000_spi_flash_read_page`. -/
theorem read_page_spec (c : Consts) (e : Env) (hw : e1000_hw) (data off len : Nat)
    (intr : Bool) (mem : Mem) (w : World) (hSI : IsBit c.E1000_FL_SI)
    (hSK : c.E1000_FL_NVM_SK &&& c.E1000_FL_SI = 0) (hoff : off < 65536) :
    (∀ k, k < 32 → intr = true → (∀ j, j < k → e.ctrl (w.nctrl + j) = false) →
      e.ctrl (w.nctrl + k) = true →
      (e1000_spi_flash_read_page c e hw data off len intr mem w).1 = -1 ∧
      (e1000_spi_flash_read_page c e hw data off len intr mem w).2.1 = mem ∧
      (e1000_spi_flash_read_page c e hw data off len intr mem w).2.2.calls
        = w.calls ++ [.read_page off len, .standby,
            .xfer 32 (some (pageHeader 0x03 off)) false intr] ∧
      (e1000_spi_flash_read_page c e hw data off len intr mem w).2.2.writes.length
        = (e1000_standby_flash c e hw w).writes.length + 3 * k) ∧
    ((intr = true → ∀ j, j < 32 → e.ctrl (w.nctrl + j) = false) →
      recordSI c (e1000_spi_flash_read_page c e hw data off len intr mem w).2.2.writes
          (e1000_standby_flash c e hw w).writes.length 32
        = (List.range 32).map (getBit (opMem (pageHeader 0x03 off)) 0) ∧
      (e1000_spi_flash_read_page c e hw data off len intr mem w).2.2.calls
        = w.calls ++ [.read_page off len, .standby,
            .xfer 32 (some (pageHeader 0x03 off)) false intr,
            .xfer (8 * len) none true intr]) ∧
    ((intr = true → ∀ j, j < 32 + 8 * len → e.ctrl (w.nctrl + j) = false) →
      (e1000_spi_flash_read_page c e hw data off len intr mem w).1 = 0 ∧
      recordSI c (e1000_spi_flash_read_page c e hw data off len intr mem w).2.2.writes
          ((e1000_standby_flash c e hw w).writes.length + 96) (8 * len)
        = (List.range (8 * len)).map (fun _ => false) ∧
      (∀ i, i < 8 * len →
        getBit (e1000_spi_flash_read_page c e hw data off len intr mem w).2.1 data i
          = (rdAt e (w.nread + 35 + i) &&& c.E1000_FL_SO != 0)) ∧
      (∀ x, x < data ∨ data + len ≤ x →
        (e1000_spi_flash_read_page c e hw data off len intr mem w).2.1 x = mem x) ∧
      (e1000_spi_flash_read_page c e hw data off len intr mem w).2.2.writes.length
        = (e1000_standby_flash c e hw w).writes.length + 96 + 3 * (8 * len)) := by
  have hbase := standby_writes_length c e hw w (.read_page off len)
  have hcalls := pageHdrXfer_calls c e hw SPI_FLASH_READ_PAGE off intr
    (w.log (.read_page off len)) (by decide) hoff
  have h8 : (8 * len + 7) / 8 = len := by omega
  refine ⟨fun k hk hi hpre hat => ?_, fun hnc => ?_, fun hnc => ?_⟩
  · subst hi
    obtain ⟨h1, h2⟩ := pageHdrXfer_cancel c e hw SPI_FLASH_READ_PAGE off k
      (w.log (.read_page off len)) hk hpre hat
    rw [read_page_eq, if_pos (by rw [h1]; decide)]
    refine ⟨rfl, rfl, ?_, by rw [← hbase]; exact h2⟩
    show (pageHdrXfer c e hw SPI_FLASH_READ_PAGE off true (w.log (.read_page off len))).2.2.calls
      = _
    rw [hcalls]
    simp [World.log, SPI_FLASH_READ_PAGE]
  · obtain ⟨h1, hrec, _, _, _, _⟩ := pageHdrXfer_ok c e hw SPI_FLASH_READ_PAGE off intr
      (w.log (.read_page off len)) hSI hSK hoff hnc
    obtain ⟨k, bits, _, hb⟩ := xfer_writes_any c e (len <<< 3) none (some data) intr mem
      (pageHdrXfer c e hw SPI_FLASH_READ_PAGE off intr (w.log (.read_page off len))).2.2
    have hW : (e1000_spi_flash_read_page c e hw data off len intr mem w).2.2
        = (e1000_spi_xfer c e (len <<< 3) none (some data) intr mem
          (pageHdrXfer c e hw SPI_FLASH_READ_PAGE off intr
            (w.log (.read_page off len))).2.2).2.2 := by
      rw [read_page_eq, if_neg (by rw [h1]; decide)]
      split <;> rfl
    rw [hW]
    refine ⟨by rw [hb, ← hbase, hrec]; rfl, ?_⟩
    rw [xfer_calls, hcalls]
    simp [xferCall, shl3, World.log, SPI_FLASH_READ_PAGE]
  · obtain ⟨h1, _, hr, hn, hlen, _⟩ := pageHdrXfer_ok c e hw SPI_FLASH_READ_PAGE off intr
      (w.log (.read_page off len)) hSI hSK hoff (fun hi j hj => hnc hi j (by omega))
    have hal : AliasOK none (some data) (len <<< 3) := fun _ _ h _ => by cases h
    have hok : (e1000_spi_xfer c e (len <<< 3) none (some data) intr mem
        (pageHdrXfer c e hw SPI_FLASH_READ_PAGE off intr (w.log (.read_page off len))).2.2).1
          = 0 := by
      apply xfer_nocancel
      intro hi j hj
      rw [shl3] at hj
      have := hnc hi (32 + j) (by omega)
      rw [← this, hn]; congr 1
      simp only [World.log, hi, if_true]; omega
    have hrec := xfer_ok_record c e (len <<< 3) none (some data) intr mem _ hSI hSK hal hok []
    have hwl := xfer_ok_writes c e (len <<< 3) none (some data) intr mem _ hal hok
    rw [read_page_eq, if_neg (by rw [h1]; decide), if_neg (by rw [hok]; decide)]
    rw [List.append_nil, hlen, hbase] at hrec
    refine ⟨rfl, ?_, fun i hi => ?_, fun x hx => ?_, ?_⟩
    · rw [← shl3]; exact hrec
    · have := xfer_din_bit c e (len <<< 3) none data intr mem _ hok i (by rw [shl3]; exact hi)
      rw [hr] at this
      rw [this]
      congr 3
    · exact xfer_din_other c e (len <<< 3) none data intr mem _ hok x
        (by rw [shl3, h8]; exact hx)
    · show (e1000_spi_xfer c e (len <<< 3) none (some data) intr mem
        (pageHdrXfer c e hw SPI_FLASH_READ_PAGE off intr
          (w.log (.read_page off len))).2.2).2.2.writes.length = _
      rw [hwl, List.length_append, xferWrites_length, hlen, hbase, shl3]

/-- C20: for every 16-bit offset and every length, `e1000_spi_flash_write_page`
and `e1000_spi_flash_read_page` first shift out exactly the 32-bit header
`opcode, 00, off >> 8, off & ff` (opcode `02` for write, `03` for read) and
then transfer exactly `8 * len` payload bits: `write_page` shifts the data
bytes out and captures nothing, `read_page` shifts zeros out and captures
the SO bits into the buffer; when the header transfer is cancelled (at its
check `k`) the command returns -1 after the `3 * k` register writes of the
header cycles done, with no payload transfer recorded and, for `read_page`,
the buffer untouched.  The SI bits are those sampled at the rising clock
edges (`recordSI`); register writes are counted from the end of the standby
pulse. -/
theorem C20_page_header_payload (c : Consts) (e : Env) (hw : e1000_hw) (data off len : Nat)
    (intr : Bool) (mem : Mem) (w : World) (hSI : IsBit c.E1000_FL_SI)
    (hSK : c.E1000_FL_NVM_SK &&& c.E1000_FL_SI = 0) (hoff : off < 65536) :
    ((∀ k, k < 32 → intr = true → (∀ j, j < k → e.ctrl (w.nctrl + j) = false) →
       e.ctrl (w.nctrl + k) = true →
       (e1000_spi_flash_write_page c e hw data off len intr mem w).1 = -1 ∧
       (e1000_spi_flash_write_page c e hw data off len intr mem w).2.calls
         = w.calls ++ [.write_page off len (bytes mem data len), .standby,
             .xfer 32 (some (pageHeader 0x02 off)) false intr] ∧
       (e1000_spi_flash_write_page c e hw data off len intr mem w).2.writes.length
         = (e1000_standby_flash c e hw w).writes.length + 3 * k) ∧
     ((intr = true → ∀ j, j < 32 → e.ctrl (w.nctrl + j) = false) →
       recordSI c (e1000_spi_flash_write_page c e hw data off len intr mem w).2.writes
           (e1000_standby_flash c e hw w).writes.length 32
         = (List.range 32).map (getBit (opMem (pageHeader 0x02 off)) 0) ∧
       (e1000_spi_flash_write_page c e hw data off len intr mem w).2.calls
         = w.calls ++ [.write_page off len (bytes mem data len), .standby,
             .xfer 32 (some (pageHeader 0x02 off)) false intr,
             .xfer (8 * len) (some (bytes mem data len)) false intr]) ∧
     ((intr = true → ∀ j, j < 32 + 8 * len → e.ctrl (w.nctrl + j) = false) →
       (e1000_spi_flash_write_page c e hw data off len intr mem w).1 = 0 ∧
       recordSI c (e1000_spi_flash_write_page c e hw data off len intr mem w).2.writes
           ((e1000_standby_flash c e hw w).writes.length + 96) (8 * len)
         = (List.range (8 * len)).map (getBit mem data) ∧
       (e1000_spi_flash_write_page c e hw data off len intr mem w).2.writes.length
         = (e1000_standby_flash c e hw w).writes.length + 96 + 3 * (8 * len))) ∧
    ((∀ k, k < 32 → intr = true → (∀ j, j < k → e.ctrl (w.nctrl + j) = false) →
       e.ctrl (w.nctrl + k) = true →
       (e1000_spi_flash_read_page c e hw data off len intr mem w).1 = -1 ∧
       (e1000_spi_flash_read_page c e hw data off len intr mem w).2.1 = mem ∧
       (e1000_spi_flash_read_page c e hw data off len intr mem w).2.2.calls
         = w.calls ++ [.read_page off len, .standby,
             .xfer 32 (some (pageHeader 0x03 off)) false intr] ∧
       (e1000_spi_flash_read_page c e hw data off len intr mem w).2.2.writes.length
         = (e1000_standby_flash c e hw w).writes.length + 3 * k) ∧
     ((intr = true → ∀ j, j < 32 → e.ctrl (w.nctrl + j) = false) →
       recordSI c (e1000_spi_flash_read_page c e hw data off len intr mem w).2.2.writes
           (e1000_standby_flash c e hw w).writes.length 32
         = (List.range 32).map (getBit (opMem (pageHeader 0x03 off)) 0) ∧
       (e1000_spi_flash_read_page c e hw data off len intr mem w).2.2.calls
         = w.calls ++ [.read_page off len, .standby,
             .xfer 32 (some (pageHeader 0x03 off)) false intr,
             .xfer (8 * len) none true intr]) ∧
     ((intr = true → ∀ j, j < 32 + 8 * len → e.ctrl (w.nctrl + j) = false) →
       (e1000_spi_flash_read_page c e hw data off len intr mem w).1 = 0 ∧
       recordSI c (e1000_spi_flash_read_page c e hw data off len intr mem w).2.2.writes
           ((e1000_standby_flash c e hw w).writes.length + 96) (8 * len)
         = (List.range (8 * len)).map (fun _ => false) ∧
       (∀ i, i < 8 * len →
         getBit (e1000_spi_flash_read_page c e hw data off len intr mem w).2.1 data i
           = (rdAt e (w.nread + 35 + i) &&& c.E1000_FL_SO != 0)) ∧
       (∀ x, x < data ∨ data + len ≤ x →
         (e1000_spi_flash_read_page c e hw data off len intr mem w).2.1 x = mem x) ∧
       (e1000_spi_flash_read_page c e hw data off len intr mem w).2.2.writes.length
         = (e1000_standby_flash c e hw w).writes.length + 96 + 3 * (8 * len))) :=
  ⟨write_page_spec c e hw data off len intr mem w hSI hSK hoff,
   read_page_spec c e hw data off len intr mem w hSI hSK hoff⟩

/-- C20 at concrete page commands that are not cancelled: two bytes at
offset `1234`. -/
theorem C20_page_header_payload_witness :
    ((e1000_spi_flash_write_page exampleConsts exampleEnv exampleHw 0 0x1234 2 true
        (opMem [0xA5, 0xF0]) World.init).1 = 0 ∧
      recordSI exampleConsts (e1000_spi_flash_write_page exampleConsts exampleEnv exampleHw 0
          0x1234 2 true (opMem [0xA5, 0xF0]) World.init).2.writes
          ((e1000_standby_flash exampleConsts exampleEnv exampleHw World.init).writes.length + 96)
          (8 * 2)
        = (List.range (8 * 2)).map (getBit (opMem [0xA5, 0xF0]) 0) ∧
      (e1000_spi_flash_write_page exampleConsts exampleEnv exampleHw 0 0x1234 2 true
          (opMem [0xA5, 0xF0]) World.init).2.writes.length
        = (e1000_standby_flash exampleConsts exampleEnv exampleHw World.init).writes.length
            + 96 + 3 * (8 * 2)) ∧
    (recordSI exampleConsts (e1000_spi_flash_read_page exampleConsts exampleEnv exampleHw 0
          0x1234 2 true (opMem [0xA5, 0xF0]) World.init).2.2.writes
          (e1000_standby_flash exampleConsts exampleEnv exampleHw World.init).writes.length 32
        = (List.range 32).map (getBit (opMem (pageHeader 0x03 0x1234)) 0) ∧
      (e1000_spi_flash_read_page exampleConsts exampleEnv exampleHw 0 0x1234 2 true
          (opMem [0xA5, 0xF0]) World.init).2.2.calls
        = World.init.calls ++ [.read_page 0x1234 2, .standby,
            .xfer 32 (some (pageHeader 0x03 0x1234)) false true,
            .xfer (8 * 2) none true true]) :=
  ⟨(C20_page_header_payload exampleConsts exampleEnv exampleHw 0 0x1234 2 true
      (opMem [0xA5, 0xF0]) World.init ⟨2, by decide, rfl⟩ (by decide) (by decide)).1.2.2
      (fun _ _ _ => rfl),
   (C20_page_header_payload exampleConsts exampleEnv exampleHw 0 0x1234 2 true
      (opMem [0xA5, 0xF0]) World.init ⟨2, by decide, rfl⟩ (by decide) (by decide)).2.2.1
      (fun _ _ _ => rfl)⟩

/-! ## Release of the bus -/

theorem show_released (c : Consts) (e : Env) (hw : e1000_hw) (argc arg0 arg1 : Nat)
    (buffer : Option Mem) (fuel : Nat) (w : World) (r : Int × World)
    (h : do_e1000_spi_show c e hw argc arg0 arg1 buffer fuel w = some r) :
    Released c e hw w r.2 := by
  unfold do_e1000_spi_show at h
  simp only at h
  repeat' split at h
  all_goals first
    | (cases h; exact Or.inl rfl)
    | (cases h; exact Or.inr (Or.inl ⟨by assumption, rfl⟩))
    | (cases h; exact Or.inr (Or.inr ⟨by simpa using (by assumption : ¬ _ ≠ _), _, rfl⟩))
    | exact nomatch h

theorem dump_released (c : Consts) (e : Env) (hw : e1000_hw) (argc arg0 arg1 arg2 : Nat)
    (fuel : Nat) (mem : Mem) (w : World) (r : Int × Mem × World)
    (h : do_e1000_spi_dump c e hw argc arg0 arg1 arg2 fuel mem w = some r) :
    Released c e hw w r.2.2 := by
  unfold do_e1000_spi_dump at h
  simp only at h
  repeat' split at h
  all_goals first
    | (cases h; exact Or.inl rfl)
    | (cases h; exact Or.inr (Or.inl ⟨by assumption, rfl⟩))
    | (cases h; exact Or.inr (Or.inr ⟨by simpa using (by assumption : ¬ _ ≠ _), _, rfl⟩))
    | exact nomatch h

theorem program_released (c : Consts) (e : Env) (hw : e1000_hw) (argc arg0 arg1 arg2 : Nat)
    (fuel : Nat) (mem : Mem) (w : World) (r : Int × World)
    (h : do_e1000_spi_program c e hw argc arg0 arg1 arg2 fuel mem w = some r) :
    Released c e hw w r.2 := by
  unfold do_e1000_spi_program at h
  simp only at h
  repeat' split at h
  all_goals first
    | (cases h; exact Or.inl rfl)
    | (cases h; exact Or.inr (Or.inl ⟨by assumption, rfl⟩))
    | (cases h; exact Or.inr (Or.inr ⟨by simpa using (by assumption : ¬ _ ≠ _), _, rfl⟩))
    | exact nomatch h

theorem checksum_released (c : Consts) (e : Env) (hw : e1000_hw) (argc : Nat) (upd_arg : Bool)
    (buffer : Option Mem) (fuel : Nat) (w : World) (r : Int × World)
    (h : do_e1000_spi_checksum c e hw argc upd_arg buffer fuel w = some r) :
    Released c e hw w r.2 := by
  unfold do_e1000_spi_checksum at h
  simp only at h
  repeat' split at h
  all_goals first
    | (cases h; exact Or.inl rfl)
    | (cases h; exact Or.inr (Or.inl ⟨by assumption, rfl⟩))
    | (cases h; exact Or.inr (Or.inr ⟨by simpa using (by assumption : ¬ _ ≠ _), _, rfl⟩))
    | exact nomatch h

theorem erase_released (c : Consts) (e : Env) (hw : e1000_hw) (intr : Bool) (w : World) :
    Released c e hw w (do_e1000_spi_erase c e hw intr w).2 := by
  unfold do_e1000_spi_erase
  simp only
  repeat' split
  all_goals first
    | exact Or.inr (Or.inl ⟨by assumption, rfl⟩)
    | exact Or.inr (Or.inr ⟨by simpa using (by assumption : ¬ _ ≠ _), _, rfl⟩)

theorem unlock_released (c : Consts) (e : Env) (hw : e1000_hw) (dbg intr : Bool) (w : World) :
    Released c e hw w (do_e1000_spi_unlock c e hw dbg intr w).2 := by
  unfold do_e1000_spi_unlock
  simp only
  repeat' split
  all_goals first
    | exact Or.inr (Or.inl ⟨by assumption, rfl⟩)
    | exact Or.inr (Or.inr ⟨by simpa using (by assumption : ¬ _ ≠ _), _, rfl⟩)

/-- Every command of `do_e1000_spi` that returns ends in one of the three
ways of `Released`. -/
theorem spi_released (c : Consts) (e : Env) (hw : e1000_hw) (dbg : Bool) (argc : Nat)
    (argv0 : SubCmd) (arg0 arg1 arg2 : Nat) (upd_arg : Bool) (buffer : Option Mem) (fuel : Nat)
    (mem : Mem) (w : World) (r : Int × Mem × World)
    (h : do_e1000_spi c e hw dbg argc argv0 arg0 arg1 arg2 upd_arg buffer fuel mem w = some r) :
    Released c e hw w r.2.2 ∧ (r.2.2 = w ∨ hw.type_is_flash = true) := by
  unfold do_e1000_spi at h
  split at h
  · cases h; exact ⟨Or.inl rfl, Or.inl rfl⟩
  · split at h
    · cases h; exact ⟨Or.inl rfl, Or.inl rfl⟩
    · have hf : hw.type_is_flash = true := by
        cases hx : hw.type_is_flash
        · contradiction
        · rfl
      refine ⟨?_, Or.inr hf⟩
      cases argv0
      · simp only [Option.map_eq_some'] at h
        obtain ⟨a, ha, rfl⟩ := h
        exact show_released c e hw _ _ _ _ _ w a ha
      · exact dump_released c e hw _ _ _ _ _ _ w r h
      · simp only [Option.map_eq_some'] at h
        obtain ⟨a, ha, rfl⟩ := h
        exact program_released c e hw _ _ _ _ _ _ w a ha
      · simp only [Option.map_eq_some'] at h
        obtain ⟨a, ha, rfl⟩ := h
        exact checksum_released c e hw _ _ _ _ w a ha
      · cases h; exact erase_released c e hw true w
      · cases h; exact unlock_released c e hw dbg true w
      · cases h; exact Or.inl rfl

/-- With a FLASH attached, `e1000_release_flash` is the last ghost record
and its last register write has REQ cleared. -/
theorem release_last (c : Consts) (e : Env) (hw : e1000_hw) (w : World)
    (hflash : hw.type_is_flash = true) (hREQ : c.E1000_FL_REQ < 4294967296) :
    (e1000_release_flash c e hw w).calls.getLast? = some .release ∧
    ∃ v, (e1000_release_flash c e hw w).writes.getLast? = some v ∧ v &&& c.E1000_FL_REQ = 0 := by
  refine ⟨by rw [release_calls]; simp, ?_⟩
  refine ⟨((rdAt e w.nread ||| c.E1000_FL_CEN) &&& bnot32 c.E1000_FL_NVM_SK)
    &&& bnot32 c.E1000_FL_REQ, ?_, and_bnot32_self _ _ hREQ⟩
  simp [e1000_release_flash, hflash, READ_REG, World.log, WRITE_REG, rdAt]

theorem programRun_isSome : programRun.isSome = true := by decide

/-- C15: for each command of `do_e1000_spi` (show, dump, program, checksum,
erase, unlock) and every execution that returns, if the bus acquisition of
the command succeeds then either the command returned without touching the
bus (wrong arguments, no buffer: the state is unchanged) or
`e1000_release_flash` is its last step: the last ghost record is `release`
and the last register write has REQ cleared.  This covers the cancellation,
checksum-mismatch and clear-block-protect-failure paths. -/
theorem C15_release_before_return (c : Consts) (e : Env) (hw : e1000_hw) (dbg : Bool)
    (argc : Nat) (argv0 : SubCmd) (arg0 arg1 arg2 : Nat) (upd_arg : Bool)
    (buffer : Option Mem) (fuel : Nat) (mem : Mem) (w : World) (r : Int × Mem × World)
    (hREQ : c.E1000_FL_REQ < 4294967296)
    (hret : do_e1000_spi c e hw dbg argc argv0 arg0 arg1 arg2 upd_arg buffer fuel mem w = some r)
    (hacq : (e1000_acquire_flash c e hw w).1 = 0) :
    r.2.2 = w ∨
    (r.2.2.calls.getLast? = some .release ∧
      ∃ v, r.2.2.writes.getLast? = some v ∧ v &&& c.E1000_FL_REQ = 0) := by
  obtain ⟨hrel, hfl⟩ := spi_released c e hw dbg argc argv0 arg0 arg1 arg2 upd_arg buffer fuel
    mem w r hret
  rcases hrel with h | ⟨h, _⟩ | ⟨_, w1, h⟩
  · exact Or.inl h
  · exact absurd hacq h
  · rcases hfl with hfl | hfl
    · exact Or.inl hfl
    · right
      rw [h]
      exact release_last c e hw w1 hfl hREQ

/-- C15 at a concrete run of the `program` command on the
clear-block-protect-failure path. -/
theorem C15_release_before_return_witness :
    (e1000_acquire_flash exampleConsts (ctrlcAt 8) exampleHw World.init).1 = 0 ∧
    (programRun.get programRun_isSome).2.2 ≠ World.init ∧
    ((programRun.get programRun_isSome).2.2 = World.init ∨
      ((programRun.get programRun_isSome).2.2.calls.getLast? = some .release ∧
        ∃ v, (programRun.get programRun_isSome).2.2.writes.getLast? = some v ∧
          v &&& exampleConsts.E1000_FL_REQ = 0)) :=
  ⟨by decide, by decide,
   C15_release_before_return exampleConsts (ctrlcAt 8) exampleHw false 4 .program 0 0 2 false
    none 10 (opMem [7, 9]) World.init (programRun.get programRun_isSome) (by decide)
    (Option.some_get programRun_isSome).symm (by decide)⟩

/-! ## Release pairing and the results of the checksum command -/

set_option maxRecDepth 100000 in
/-- C16, the code at failing inputs.  With Ctrl-C pressed at the first check
of the write-status transfer of `clear_block_protect`, the bus is acquired
once and released twice, by `e1000_spi_flash_program` and again by its
caller: in the `program` command (which then returns 0) and in the
`checksum update` command after a mismatch (which returns 1).  On the same
failure the `erase` command, which calls `e1000_spi_flash_clear_bp` itself,
releases once. -/
theorem C16_release_twice :
    (do_e1000_spi exampleConsts (ctrlcAt 8) exampleHw false 4 .program 0 0 2 false none 10
      (opMem [7, 9]) World.init).map
        (fun r => (r.1, r.2.2.calls.count Call.acquire, r.2.2.calls.count Call.release))
      = some (0, 1, 2) ∧
    (do_e1000_spi smallConsts (ctrlcAt 88) exampleHw false 2 .checksum 0 0 0 true
      (some (fun _ => 0)) 10 (fun _ => 0) World.init).map
        (fun r => (r.1, r.2.2.calls.count Call.acquire, r.2.2.calls.count Call.release))
      = some (1, 1, 2) ∧
    (e1000_acquire_flash exampleConsts (ctrlcAt 8) exampleHw World.init).1 = 0 ∧
    (e1000_acquire_flash smallConsts (ctrlcAt 88) exampleHw World.init).1 = 0 ∧
    (do_e1000_spi exampleConsts (ctrlcAt 8) exampleHw false 1 .erase 0 0 0 false none 10
      (opMem [7, 9]) World.init).map
        (fun r => (r.1, r.2.2.calls.count Call.acquire, r.2.2.calls.count Call.release))
      = some (1, 1, 1) := by
  decide

set_option maxRecDepth 100000 in
/-- C19 as stated fails: the checksum command without repair returns the
same value 1 for a mismatch (a FLASH holding zeros, read without
cancellation), for a failed bus acquisition (GNT never set) and for a
cancelled read (Ctrl-C at the first check). -/
theorem C19_counterexample :
    (∃ d, smallDump = some d ∧ 0 ≤ d.1 ∧ ¬ ChecksumValid smallConsts d.2.1) ∧
    (do_e1000_spi_checksum smallConsts grantEnv exampleHw 0 false (some (fun _ => 0)) 4
      World.init).map Prod.fst = some 1 ∧
    (e1000_acquire_flash smallConsts idleEnv exampleHw World.init).1 ≠ 0 ∧
    (do_e1000_spi_checksum smallConsts idleEnv exampleHw 0 false (some (fun _ => 0)) 4
      World.init).map Prod.fst = some 1 ∧
    (e1000_spi_flash_dump smallConsts (ctrlcAt 0) exampleHw 0 0
      ((2 * (smallConsts.EEPROM_CHECKSUM_REG + 1)) % 65536) true 4 (fun _ => 0)
      (e1000_acquire_flash smallConsts (ctrlcAt 0) exampleHw World.init).2).map Prod.fst
        = some (-1) ∧
    (do_e1000_spi_checksum smallConsts (ctrlcAt 0) exampleHw 0 false (some (fun _ => 0)) 4
      World.init).map Prod.fst = some 1 := by
  refine ⟨⟨smallDump.get smallDump_isSome, (Option.some_get smallDump_isSome).symm,
    by decide, by decide⟩, by decide, by decide, by decide, by decide, by decide⟩

/-- C19, amended: the checksum command without repair returns 1 when the bus
acquisition fails, 1 when the read is cancelled, 1 when the words read do
not satisfy the checksum equation, and 0 when they do: the result for
`valid` is distinct from the result for `invalid` and for an error, and these
two are the same value. -/
theorem C19_checksum_results (c : Consts) (e : Env) (hw : e1000_hw) (buf : Mem) (fuel : Nat)
    (w : World) :
    ((e1000_acquire_flash c e hw w).1 ≠ 0 →
      (do_e1000_spi_checksum c e hw 0 false (some buf) fuel w).map Prod.fst = some 1) ∧
    (∀ d, (e1000_acquire_flash c e hw w).1 = 0 →
      e1000_spi_flash_dump c e hw 0 0 ((2 * (c.EEPROM_CHECKSUM_REG + 1)) % 65536) true fuel buf
        (e1000_acquire_flash c e hw w).2 = some d →
      (d.1 < 0 →
        (do_e1000_spi_checksum c e hw 0 false (some buf) fuel w).map Prod.fst = some 1) ∧
      (0 ≤ d.1 → ¬ ChecksumValid c d.2.1 →
        (do_e1000_spi_checksum c e hw 0 false (some buf) fuel w).map Prod.fst = some 1) ∧
      (0 ≤ d.1 → ChecksumValid c d.2.1 →
        (do_e1000_spi_checksum c e hw 0 false (some buf) fuel w).map Prod.fst = some 0)) ∧
    (1 : Int) ≠ 0 := by
  refine ⟨fun ha => ?_, fun d ha hd => ⟨fun hneg => ?_, fun h0 hv => ?_, fun h0 hv => ?_⟩,
    by decide⟩
  · unfold do_e1000_spi_checksum
    simp [ha]
  · unfold do_e1000_spi_checksum
    simp [ha, hd, hneg]
  · have hnlt : ¬ d.1 < 0 := by omega
    unfold ChecksumValid at hv
    unfold do_e1000_spi_checksum
    simp only [ha, hd, hnlt, checksum_sum_eq, true_or, not_true_eq_false, if_false, ne_eq,
      decide_False, Bool.false_eq_true, not_false_eq_true, if_true, if_neg hv]
    rfl
  · have hnlt : ¬ d.1 < 0 := by omega
    unfold ChecksumValid at hv
    unfold do_e1000_spi_checksum
    simp only [ha, hd, hnlt, checksum_sum_eq, true_or, not_true_eq_false, if_false, ne_eq,
      decide_False, Bool.false_eq_true, not_false_eq_true, if_true, if_pos hv]
    rfl

/-- C19 (amended) at a concrete FLASH holding zeros: the words read are
invalid and the command returns 1. -/
theorem C19_checksum_results_witness :
    (e1000_acquire_flash smallConsts grantEnv exampleHw World.init).1 = 0 ∧
    0 ≤ (smallDump.get smallDump_isSome).1 ∧
    ¬ ChecksumValid smallConsts (smallDump.get smallDump_isSome).2.1 ∧
    (do_e1000_spi_checksum smallConsts grantEnv exampleHw 0 false (some (fun _ => 0)) 4
      World.init).map Prod.fst = some 1 :=
  ⟨by decide, by decide, by decide,
   ((C19_checksum_results smallConsts grantEnv exampleHw (fun _ => 0) 4 World.init).2.1
      (smallDump.get smallDump_isSome) (by decide)
      (Option.some_get smallDump_isSome).symm).2.1 (by decide) (by decide)⟩

/-! ## Termination of the page loop of the dump -/

/-- A page read, cancelled or not, adds exactly one `read_page` record. -/
theorem read_page_readPages (c : Consts) (e : Env) (hw : e1000_hw) (data off len : Nat)
    (intr : Bool) (mem : Mem) (w : World) :
    readPages (e1000_spi_flash_read_page c e hw data off len intr mem w).2.2.calls
      = readPages w.calls ++ [(off, len)] ∧
    ((e1000_spi_flash_read_page c e hw data off len intr mem w).1 = 0 ∨
      (e1000_spi_flash_read_page c e hw data off len intr mem w).1 = -1) := by
  rw [read_page_eq]
  unfold pageHdrXfer
  split
  · refine ⟨?_, Or.inr rfl⟩
    simp only [xfer_calls, standby_calls, World.log, readPages_append]
    simp [readPages, xferCall]
  · split
    · refine ⟨?_, Or.inr rfl⟩
      simp only [xfer_calls, standby_calls, World.log, readPages_append]
      simp [readPages, xferCall]
    · refine ⟨?_, Or.inl rfl⟩
      simp only [xfer_calls, standby_calls, World.log, readPages_append]
      simp [readPages, xferCall]

/-- The page offset is the offset modulo a page size that is a power of two
no greater than 2^15. -/
theorem dump_pg_off_eq (hw : e1000_hw) (k off : Nat) (hk : k ≤ 15)
    (hps : hw.page_size = 2 ^ k) : dump_pg_off hw off = off % hw.page_size := by
  have hpos : 0 < 2 ^ k := by positivity
  have hle : 2 ^ k ≤ 2 ^ 15 := Nat.pow_le_pow_right (by norm_num) hk
  have h15 : (2 : Nat) ^ 15 = 32768 := by norm_num
  have hmod : off % 2 ^ k < 2 ^ k := Nat.mod_lt _ hpos
  have hmask : (2 ^ k + 65535) % 65536 = 2 ^ k - 1 := by omega
  unfold dump_pg_off
  rw [hps, hmask, Nat.and_pow_two_sub_one_eq_mod]
  exact Nat.mod_eq_of_lt (by omega)

/-- A chunk is not empty for any page size from 1 to 65535, power of two or
not, as long as bytes remain. -/
theorem dump_pg_len_pos (hw : e1000_hw) (off len : Nat) (h1 : 1 ≤ hw.page_size)
    (h2 : hw.page_size < 65536) (hlen : len ≠ 0) : 1 ≤ dump_pg_len hw off len := by
  have hmask : (hw.page_size + 65535) % 65536 = hw.page_size - 1 := by omega
  have hand : off &&& (hw.page_size - 1) ≤ hw.page_size - 1 := Nat.and_le_right
  have hoff : dump_pg_off hw off ≤ hw.page_size - 1 := by
    unfold dump_pg_off
    rw [hmask]
    exact le_trans (Nat.mod_le _ _) hand
  unfold dump_pg_len
  simp only [gt_iff_lt]
  split
  · omega
  · omega

/-- The chunk of an iteration of the page loop with bytes remaining: at
least 1 byte and at most the remaining length. -/
theorem dump_pg_len_bounds (hw : e1000_hw) (k off len : Nat) (hk : k ≤ 15)
    (hps : hw.page_size = 2 ^ k) (hlen : len ≠ 0) :
    1 ≤ dump_pg_len hw off len ∧ dump_pg_len hw off len ≤ len := by
  have hpos : 0 < 2 ^ k := by positivity
  have hmod : off % 2 ^ k < 2 ^ k := Nat.mod_lt _ hpos
  have hpl := dump_pg_len_eq hw k off len hk hps
  constructor
  · rw [hpl, hps]; exact Nat.le_min.mpr ⟨by omega, by omega⟩
  · rw [hpl]; exact Nat.min_le_right _ _

/-- The page loop of the dump, whatever the register reads and Ctrl-C
answers: with fuel `len` or more it returns, after at most `len` page reads
of at least one byte each, whose lengths sum to `len` when it returns 0. -/
theorem dump_loop_total (c : Consts) (e : Env) (hw : e1000_hw) (intr : Bool) (k : Nat)
    (hk : k ≤ 15) (hps : hw.page_size = 2 ^ k) :
    ∀ (len data off : Nat) (mem : Mem) (w : World),
      ∃ r pages,
        (∀ fuel, len ≤ fuel → dump_loop c e hw intr fuel data off len mem w = some r) ∧
        (r.1 = 0 ∨ r.1 = -1) ∧
        readPages r.2.2.calls = readPages w.calls ++ pages ∧
        pages.length ≤ len ∧
        (∀ p, p ∈ pages → 1 ≤ p.2) ∧
        (pages.map Prod.snd).sum ≤ len ∧
        (r.1 = 0 → (pages.map Prod.snd).sum = len) := by
  intro len
  induction len using Nat.strong_induction_on with
  | _ len ih =>
    intro data off mem w
    by_cases hlen : len = 0
    · subst hlen
      refine ⟨(0, mem, w), [], ?_, Or.inl rfl, by simp, le_refl _, (fun p hp => absurd hp (List.not_mem_nil p)),
        le_refl _, fun _ => rfl⟩
      intro fuel _
      cases fuel <;> simp [dump_loop]
    · obtain ⟨hpl1, hpl2⟩ := dump_pg_len_bounds hw k off len hk hps hlen
      obtain ⟨hrp, hret⟩ := read_page_readPages c e hw data off (dump_pg_len hw off len) intr
        mem w
      by_cases hok : (e1000_spi_flash_read_page c e hw data off (dump_pg_len hw off len) intr
          mem w).1 = 0
      · obtain ⟨r, pages, hrun, hr, hpages, hn, hpos, hsum, hsum0⟩ :=
          ih (len - dump_pg_len hw off len) (by omega) (data + dump_pg_len hw off len)
            ((off + dump_pg_len hw off len) % 65536)
            (e1000_spi_flash_read_page c e hw data off (dump_pg_len hw off len) intr mem w).2.1
            (e1000_spi_flash_read_page c e hw data off (dump_pg_len hw off len) intr mem w).2.2
        refine ⟨r, (off, dump_pg_len hw off len) :: pages, ?_, hr, ?_, ?_, ?_, ?_, ?_⟩
        · intro fuel hf
          obtain ⟨f, rfl⟩ : ∃ f, fuel = f + 1 := ⟨fuel - 1, by omega⟩
          simp only [dump_loop, hlen, if_false, hok, ne_eq, not_true_eq_false]
          exact hrun f (by omega)
        · rw [hpages, hrp]; simp
        · simp only [List.length_cons]; omega
        · intro p hp
          rcases List.mem_cons.mp hp with rfl | hp
          · exact hpl1
          · exact hpos p hp
        · simp only [List.map_cons, List.sum_cons]; omega
        · intro h0
          have := hsum0 h0
          simp only [List.map_cons, List.sum_cons]; omega
      · refine ⟨(-1, (e1000_spi_flash_read_page c e hw data off (dump_pg_len hw off len) intr
            mem w).2.1,
          (e1000_spi_flash_read_page c e hw data off (dump_pg_len hw off len) intr mem w).2.2),
          [(off, dump_pg_len hw off len)], ?_, Or.inr rfl, hrp, ?_, ?_, ?_, ?_⟩
        · intro fuel hf
          obtain ⟨f, rfl⟩ : ∃ f, fuel = f + 1 := ⟨fuel - 1, by omega⟩
          simp only [dump_loop, hlen, if_false, hok, ne_eq, not_false_eq_true, if_true]
        · simp only [List.length_singleton]; omega
        · intro p hp
          rw [List.mem_singleton] at hp
          rw [hp]; exact hpl1
        · simp only [List.map_cons, List.map_nil, List.sum_cons, List.sum_nil]; omega
        · intro h0
          simp at h0

/-- C21: for every page size that is a power of two from 1 to 32768, every
start offset and every length `len`, whatever the register reads and Ctrl-C
answers: the page offset `off & (page_size - 1)` is `off mod page_size`;
every chunk computed with bytes remaining has length at least 1 and at most
the remaining length, so the remaining length strictly decreases; and the
page loop of `e1000_spi_flash_dump` terminates: with fuel `len` or more it
returns (0 or -1) after at most `len` iterations, each issuing one
`read_page` of at least one byte, the lengths summing to `len` (the remaining
length has reached 0) when it returns 0.  Hence `e1000_spi_flash_dump`
returns whenever its initial wait does. -/
theorem C21_dump_loop_terminates (c : Consts) (e : Env) (hw : e1000_hw) (intr : Bool)
    (k : Nat) (hk : k ≤ 15) (hps : hw.page_size = 2 ^ k) (data off len : Nat) (mem : Mem)
    (w : World) :
    dump_pg_off hw off = off % hw.page_size ∧
    (len ≠ 0 → 1 ≤ dump_pg_len hw off len ∧ dump_pg_len hw off len ≤ len ∧
      len - dump_pg_len hw off len < len) ∧
    (∃ r pages,
      (∀ fuel, len ≤ fuel → dump_loop c e hw intr fuel data off len mem w = some r) ∧
      (r.1 = 0 ∨ r.1 = -1) ∧
      readPages r.2.2.calls = readPages w.calls ++ pages ∧
      pages.length ≤ len ∧
      (∀ p, p ∈ pages → 1 ≤ p.2) ∧
      (pages.map Prod.snd).sum ≤ len ∧
      (r.1 = 0 → (pages.map Prod.snd).sum = len)) ∧
    (∀ fuel p, len ≤ fuel → e1000_spi_flash_poll_ready c e hw intr fuel w = some p →
      (e1000_spi_flash_dump c e hw data off len intr fuel mem w).isSome = true) := by
  refine ⟨dump_pg_off_eq hw k off hk hps, fun hlen => ?_,
    dump_loop_total c e hw intr k hk hps len data off mem w, fun fuel p hf hp => ?_⟩
  · obtain ⟨h1, h2⟩ := dump_pg_len_bounds hw k off len hk hps hlen
    exact ⟨h1, h2, by omega⟩
  · unfold e1000_spi_flash_dump
    rw [hp]
    simp only
    split
    · rfl
    · obtain ⟨r, _, hrun, _⟩ := dump_loop_total c e hw intr k hk hps len data off mem p.2
      rw [hrun fuel hf]
      rfl

/-- C21 at a concrete page loop: page size 256, offset 250, 556 bytes, with
Ctrl-C pressed at the check number 60. -/
theorem C21_dump_loop_terminates_witness :
    8 ≤ 15 ∧ exampleHw.page_size = 2 ^ 8 ∧
    dump_pg_off exampleHw 250 = 250 % exampleHw.page_size ∧
    (556 ≠ 0 → 1 ≤ dump_pg_len exampleHw 250 556 ∧ dump_pg_len exampleHw 250 556 ≤ 556 ∧
      556 - dump_pg_len exampleHw 250 556 < 556) ∧
    (∃ r pages,
      (∀ fuel, 556 ≤ fuel →
        dump_loop exampleConsts (ctrlcAt 60) exampleHw true fuel 0 250 556 (fun _ => 0)
          World.init = some r) ∧
      (r.1 = 0 ∨ r.1 = -1) ∧
      readPages r.2.2.calls = readPages World.init.calls ++ pages ∧
      pages.length ≤ 556 ∧
      (∀ p, p ∈ pages → 1 ≤ p.2) ∧
      (pages.map Prod.snd).sum ≤ 556 ∧
      (r.1 = 0 → (pages.map Prod.snd).sum = 556)) ∧
    (∀ fuel p, 556 ≤ fuel →
      e1000_spi_flash_poll_ready exampleConsts (ctrlcAt 60) exampleHw true fuel World.init
        = some p →
      (e1000_spi_flash_dump exampleConsts (ctrlcAt 60) exampleHw 0 250 556 true fuel (fun _ => 0)
        World.init).isSome = true) :=
  ⟨by decide, by decide,
   C21_dump_loop_terminates exampleConsts (ctrlcAt 60) exampleHw true 8 (by decide) (by decide)
    0 250 556 (fun _ => 0) World.init⟩

end E1000Spi
